import Mathlib

/-!
Shallow embedding of the wargamelongrun turn-based strategy engine
(src/engine/map/MapEngine.ts, src/engine/units/UnitManager.ts,
src/engine/turns/TurnEngine.ts, the combat engine, and the terrain model),
together with proofs about its pathfinding, combat, army, economy and
turn-resolution operations.

Conventions used throughout:
* TS `number` coordinates are modelled as `ℤ`; movement costs and hit
  points as `ℕ` or `ℤ`; fractional combat / economy arithmetic as `ℚ`.
* `Math.round x` (round half toward positive infinity) is `⌊x + 1/2⌋`.
* JS `Map` objects keyed by the string `"x,y"` are modelled as association
  lists keyed by the pair `(x, y)`; the key encoding is injective, and
  `Map.set` on an existing key updates the entry in place (preserving
  insertion order), which the association-list update mirrors.
* Functions that can `throw` are modelled in `Except String`; functions
  using `Math.random()` take the drawn values as explicit `ℚ` arguments;
  generated identifiers (uuid, `Date.now()`) are taken as arguments.
* The two search loops of MapEngine.ts are written with an explicit fuel
  argument large enough that it can never be exhausted (proved below);
  the fuel value is part of the definition, so the functions stay
  executable and total.
-/

set_option maxHeartbeats 1000000

namespace Wargame

/-- Terrain definition record (models/terrain.ts `TerrainDefinition`);
only the engine-relevant numeric and passability fields are kept
(display fields such as `name`, `spriteKey`, `color`, `resourceSlots`
play no part in any engine computation). -/
structure TerrainDefinition where
  movementCost : ℕ
  defenseBonus : ℚ
  foodProduction : ℕ
  isPassable : Bool
  isNavalPassable : Bool
  isWater : Bool
  deriving DecidableEq, Repr


/-- Terrain kinds (models/terrain.ts `TerrainType`), all 44 variants. -/
inductive TerrainType where
  | farmland
  | cultivatedFarmland
  | grasslandPoor
  | grasslandPoorBis
  | grassland
  | grazingLand
  | lightForest
  | heavyForest
  | forestedHills
  | forestedMountains
  | everegreenMountains
  | heavyEvergreen
  | grassyHills
  | hills
  | mountains
  | snowcappedMountains
  | dormantVolcano
  | volcano
  | swamp
  | marsh
  | moss
  | snow
  | snowField
  | everegreenMountainsIcy
  | mountainsIcy
  | deadForestMountainsIcy
  | glaceland
  | icyMarsh
  | deadForest
  | deadForestHills
  | deadFields
  | brokenLands
  | rockyDesert
  | sandyDesert
  | oasis
  | sandDunes
  | heavyCactus
  | jungle
  | jungleHills
  | sea
  | deepSea
  | reefs
  | reefsBis
  | lava
  deriving DecidableEq, Repr


/-- Master terrain table (models/terrain.ts `TERRAIN_DEFS`): movement cost,
defense bonus, food production, land passability, naval passability, water
flag for every terrain kind. -/
def TERRAIN_DEFS : TerrainType → TerrainDefinition
  | .farmland => ⟨1, 1, 3, true, false, false⟩
  | .cultivatedFarmland => ⟨1, 1, 5, true, false, false⟩
  | .grasslandPoor => ⟨1, 1, 1, true, false, false⟩
  | .grasslandPoorBis => ⟨1, 1, 1, true, false, false⟩
  | .grassland => ⟨1, 1, 2, true, false, false⟩
  | .grazingLand => ⟨1, 1, 2, true, false, false⟩
  | .lightForest => ⟨2, (12/10 : ℚ), 1, true, false, false⟩
  | .heavyForest => ⟨3, (13/10 : ℚ), 1, true, false, false⟩
  | .forestedHills => ⟨3, (14/10 : ℚ), 0, true, false, false⟩
  | .forestedMountains => ⟨4, (15/10 : ℚ), 0, true, false, false⟩
  | .everegreenMountains => ⟨4, (15/10 : ℚ), 0, true, false, false⟩
  | .heavyEvergreen => ⟨3, (13/10 : ℚ), 0, true, false, false⟩
  | .grassyHills => ⟨2, (13/10 : ℚ), 1, true, false, false⟩
  | .hills => ⟨2, (13/10 : ℚ), 0, true, false, false⟩
  | .mountains => ⟨4, (15/10 : ℚ), 0, true, false, false⟩
  | .snowcappedMountains => ⟨5, (15/10 : ℚ), 0, true, false, false⟩
  | .dormantVolcano => ⟨5, (14/10 : ℚ), 0, true, false, false⟩
  | .volcano => ⟨99, 1, 0, false, false, false⟩
  | .swamp => ⟨3, (9/10 : ℚ), 0, true, false, false⟩
  | .marsh => ⟨3, (9/10 : ℚ), 0, true, false, false⟩
  | .moss => ⟨2, 1, 0, true, false, false⟩
  | .snow => ⟨2, 1, 0, true, false, false⟩
  | .snowField => ⟨2, 1, 0, true, false, false⟩
  | .everegreenMountainsIcy => ⟨5, (15/10 : ℚ), 0, true, false, false⟩
  | .mountainsIcy => ⟨5, (15/10 : ℚ), 0, true, false, false⟩
  | .deadForestMountainsIcy => ⟨5, (14/10 : ℚ), 0, true, false, false⟩
  | .glaceland => ⟨3, (11/10 : ℚ), 0, true, false, false⟩
  | .icyMarsh => ⟨3, (9/10 : ℚ), 0, true, false, false⟩
  | .deadForest => ⟨2, (11/10 : ℚ), 0, true, false, false⟩
  | .deadForestHills => ⟨3, (13/10 : ℚ), 0, true, false, false⟩
  | .deadFields => ⟨1, 1, 0, true, false, false⟩
  | .brokenLands => ⟨3, (11/10 : ℚ), 0, true, false, false⟩
  | .rockyDesert => ⟨2, (11/10 : ℚ), 0, true, false, false⟩
  | .sandyDesert => ⟨2, (9/10 : ℚ), 0, true, false, false⟩
  | .oasis => ⟨1, 1, 2, true, false, false⟩
  | .sandDunes => ⟨3, (8/10 : ℚ), 0, true, false, false⟩
  | .heavyCactus => ⟨2, (11/10 : ℚ), 0, true, false, false⟩
  | .jungle => ⟨3, (13/10 : ℚ), 1, true, false, false⟩
  | .jungleHills => ⟨4, (14/10 : ℚ), 0, true, false, false⟩
  | .sea => ⟨1, 1, 1, false, true, true⟩
  | .deepSea => ⟨1, 1, 0, false, true, true⟩
  | .reefs => ⟨2, (12/10 : ℚ), 1, false, true, true⟩
  | .reefsBis => ⟨2, (12/10 : ℚ), 1, false, true, true⟩
  | .lava => ⟨99, (5/10 : ℚ), 0, false, false, false⟩
/-- River modifier (models/terrain.ts `RIVER_MODIFIERS.defenseBonus`). -/
def RIVER_MODIFIERS_defenseBonus : ℚ := 1/10

/-- Road modifier (models/terrain.ts `ROAD_MODIFIERS.movementCostOverride`). -/
def ROAD_MODIFIERS_movementCostOverride : ℕ := 1

/-- A map tile (models/game `Tile`): integer coordinates, terrain kind,
river/road modifiers and an optional controlling player. -/
structure Tile where
  x : ℤ
  y : ℤ
  terrain : TerrainType
  river : Bool
  road : Bool
  ownerId : Option String
  deriving DecidableEq, Repr

/-- In-memory tile grid (MapEngine.ts `TileGrid`).  The TS class stores a
`Map<string, Tile>` keyed by `"x,y"`; we store the tiles as a list in
insertion order with at most one tile per coordinate maintained by
`setTile`. -/
structure TileGrid where
  width : ℤ
  height : ℤ
  tiles : List Tile
  deriving DecidableEq, Repr

namespace TileGrid

/-- `TileGrid.getTile`: look the coordinate up in the tile map. -/
def getTile (g : TileGrid) (x y : ℤ) : Option Tile :=
  g.tiles.find? (fun t => t.x = x ∧ t.y = y)

/-- `TileGrid.setTile`: upsert by coordinate (JS `Map.set` keeps the
insertion position of an existing key, hence replace-in-place). -/
def setTile (g : TileGrid) (tile : Tile) : TileGrid :=
  { g with tiles :=
      if g.tiles.any (fun t => t.x = tile.x ∧ t.y = tile.y) then
        g.tiles.map (fun t => if t.x = tile.x ∧ t.y = tile.y then tile else t)
      else
        g.tiles ++ [tile] }

/-- `TileGrid.isInBounds`. -/
def isInBounds (g : TileGrid) (x y : ℤ) : Bool :=
  0 ≤ x ∧ x < g.width ∧ 0 ≤ y ∧ y < g.height

/-- The eight direction offsets of `TileGrid.getNeighbors`, in source
order: N, S, W, E, then the four diagonals. -/
def neighborDirs : List (ℤ × ℤ) :=
  [(0, -1), (0, 1), (-1, 0), (1, 0), (-1, -1), (1, -1), (-1, 1), (1, 1)]

/-- `TileGrid.getNeighbors`: the present, in-bounds tiles at the eight
surrounding coordinates. -/
def getNeighbors (g : TileGrid) (x y : ℤ) : List Tile :=
  neighborDirs.filterMap (fun d =>
    let nx := x + d.1
    let ny := y + d.2
    if g.isInBounds nx ny then g.getTile nx ny else none)

/-- `TileGrid.getCardinalNeighbors` (4-directional). -/
def getCardinalNeighbors (g : TileGrid) (x y : ℤ) : List Tile :=
  [((0 : ℤ), (-1 : ℤ)), (0, 1), (-1, 0), (1, 0)].filterMap (fun d =>
    let nx := x + d.1
    let ny := y + d.2
    if g.isInBounds nx ny then g.getTile nx ny else none)

/-- `TileGrid.getMovementCost`: road overrides terrain cost; otherwise the
terrain definition cost.  (The TS guard returning 99 for a missing terrain
definition is unreachable here because `TERRAIN_DEFS` is total on the
terrain enum, exactly as the TS `Record<TerrainType, TerrainDefinition>`.) -/
def getMovementCost (_g : TileGrid) (tile : Tile) : ℕ :=
  if tile.road then ROAD_MODIFIERS_movementCostOverride
  else (TERRAIN_DEFS tile.terrain).movementCost

/-- `TileGrid.getDefenseBonus`: terrain defense bonus plus the flat river
addend when the tile has a river. -/
def getDefenseBonus (_g : TileGrid) (tile : Tile) : ℚ :=
  (TERRAIN_DEFS tile.terrain).defenseBonus +
    (if tile.river then RIVER_MODIFIERS_defenseBonus else 0)

/-- Map-resize direction used by `expand` and `shrink`. -/
inductive Direction where
  | north | south | east | west
  deriving DecidableEq, Repr

/-- `TileGrid.shrink`: remove tiles from an edge.  The TS method throws
`Error('Cannot shrink map below 1x1')` when the resulting width or height
would be non-positive; the throw is modelled as `Except.error`. -/
def shrink (g : TileGrid) (direction : Direction) (amount : ℤ) :
    Except String TileGrid :=
  let newWidth := match direction with
    | .east => g.width - amount
    | .west => g.width - amount
    | _ => g.width
  let newHeight := match direction with
    | .north => g.height - amount
    | .south => g.height - amount
    | _ => g.height
  let offsetX : ℤ := match direction with
    | .west => -amount
    | _ => 0
  let offsetY : ℤ := match direction with
    | .north => -amount
    | _ => 0
  if newWidth ≤ 0 ∨ newHeight ≤ 0 then
    Except.error "Cannot shrink map below 1x1"
  else
    Except.ok <| g.tiles.foldl (fun ng tile =>
      let nx := tile.x + offsetX
      let ny := tile.y + offsetY
      if 0 ≤ nx ∧ nx < newWidth ∧ 0 ≤ ny ∧ ny < newHeight then
        ng.setTile { tile with x := nx, y := ny }
      else ng)
      { width := newWidth, height := newHeight, tiles := [] }

/-- `TileGrid.getPlayerTiles`: all tiles owned by the player. -/
def getPlayerTiles (g : TileGrid) (playerId : String) : List Tile :=
  g.tiles.filter (fun t => t.ownerId = some playerId)

end TileGrid


-- ─── Pathfinding (MapEngine.ts, A* and reachable-set search) ─────────────

/-- Domain passability filter used by both searches: naval units need
`isNavalPassable`, land units need `isPassable` (the two `continue`
guards of the TS loops). -/
def passableFor (isNaval : Bool) (t : Tile) : Bool :=
  if isNaval then (TERRAIN_DEFS t.terrain).isNavalPassable
  else (TERRAIN_DEFS t.terrain).isPassable

/-- An A* open-set node (`PathNode`).  The TS `parent` pointer chain is
modelled by `chain`: the coordinates from this node back to the start
(this node first); `f` is recomputed as `g + h`. -/
structure PathNode where
  x : ℤ
  y : ℤ
  g : ℕ
  h : ℕ
  chain : List (ℤ × ℤ)
  deriving DecidableEq, Repr

/-- The `f = g + h` value of a node. -/
def PathNode.f (n : PathNode) : ℕ := n.g + n.h

/-- Result record of `findPath`. -/
structure PathResult where
  path : List (ℤ × ℤ)
  totalCost : ℕ
  reachable : Bool
  deriving DecidableEq, Repr

/-- Chebyshev heuristic of `findPath`. -/
def chebyshev (x y endX endY : ℤ) : ℕ :=
  max (x - endX).natAbs (y - endY).natAbs

/-- The open-set scan of `findPath`: the first node of minimal `f`
(the TS loop keeps the incumbent unless `node.f < current.f`). -/
def pickLowestF (openList : List PathNode) : Option PathNode :=
  openList.foldl (fun acc n =>
    match acc with
    | none => some n
    | some c => if n.f < c.f then some n else some c) none

/-- Replace the open-set entry at the given coordinate (JS `Map.set` on an
existing key keeps its insertion position). -/
def updateNodeAt : List PathNode → ℤ → ℤ → PathNode → List PathNode
  | [], _, _, _ => []
  | n :: ns, x, y, node =>
    if n.x = x ∧ n.y = y then node :: ns else n :: updateNodeAt ns x y node

/-- One neighbor-relaxation step of the `findPath` main loop: passability,
cost, budget pruning and the open-set insert/update. -/
def findPathRelax (grid : TileGrid) (endX endY : ℤ) (isNaval : Bool)
    (maxMovement : ℕ) (current : PathNode) (closed : List (ℤ × ℤ))
    (openList : List PathNode) (neighbor : Tile) : List PathNode :=
  if (neighbor.x, neighbor.y) ∈ closed then openList
  else if ¬ passableFor isNaval neighbor then openList
  else
    let moveCost := grid.getMovementCost neighbor
    let tentativeG := current.g + moveCost
    if maxMovement < tentativeG then openList
    else
      let node : PathNode :=
        { x := neighbor.x, y := neighbor.y, g := tentativeG,
          h := chebyshev neighbor.x neighbor.y endX endY,
          chain := (neighbor.x, neighbor.y) :: current.chain }
      match openList.find? (fun n => n.x = neighbor.x ∧ n.y = neighbor.y) with
      | some existing =>
          if existing.g ≤ tentativeG then openList
          else updateNodeAt openList neighbor.x neighbor.y node
      | none => openList ++ [node]

/-- The `while (openSet.size > 0)` loop of `findPath`, with explicit fuel.
Each iteration pops the first minimal-`f` node; on goal hit it returns the
reconstructed path, otherwise it closes the node and relaxes its eight
neighbors. -/
def findPathLoop (grid : TileGrid) (endX endY : ℤ) (isNaval : Bool)
    (maxMovement : ℕ) :
    ℕ → List PathNode → List (ℤ × ℤ) → PathResult
  | 0, _, _ => ⟨[], 0, false⟩
  | fuel + 1, openList, closed =>
    match pickLowestF openList with
    | none => ⟨[], 0, false⟩
    | some current =>
      if current.x = endX ∧ current.y = endY then
        ⟨current.chain.reverse, current.g, true⟩
      else
        let openList1 := openList.filter
          (fun n => ¬(n.x = current.x ∧ n.y = current.y))
        let closed1 := (current.x, current.y) :: closed
        let openList2 := (grid.getNeighbors current.x current.y).foldl
          (findPathRelax grid endX endY isNaval maxMovement current closed1)
          openList1
        findPathLoop grid endX endY isNaval maxMovement fuel openList2 closed1

/-- Fuel bound for `findPathLoop`: every iteration closes one coordinate
drawn from the in-bounds box plus the start, so `width·height + 2` can
never run out (proved below as part of the search correctness). -/
def findPathFuel (grid : TileGrid) : ℕ :=
  grid.width.toNat * grid.height.toNat + 2

/-- `findPath` (MapEngine.ts): A* from `(startX, startY)` to
`(endX, endY)` under the Chebyshev heuristic, with domain passability and
a movement budget.  The TS default `maxMovement = Infinity` is not
modelled; every engine caller passes a finite budget. -/
def findPath (grid : TileGrid) (startX startY endX endY : ℤ)
    (isNaval : Bool) (maxMovement : ℕ) : PathResult :=
  let startNode : PathNode :=
    { x := startX, y := startY, g := 0,
      h := chebyshev startX startY endX endY,
      chain := [(startX, startY)] }
  findPathLoop grid endX endY isNaval maxMovement (findPathFuel grid)
    [startNode] []

/-- A pending entry of the `getReachableTiles` queue. -/
structure QueueEntry where
  x : ℤ
  y : ℤ
  cost : ℕ
  deriving DecidableEq, Repr

/-- Lookup in the coordinate→cost association list. -/
def reachLookup (reach : List ((ℤ × ℤ) × ℕ)) (k : ℤ × ℤ) : Option ℕ :=
  (reach.find? (fun e => e.1 = k)).map (·.2)

/-- Upsert into the coordinate→cost association list (JS `Map.set`: an
existing key is updated in place, a new key is appended). -/
def reachSet : List ((ℤ × ℤ) × ℕ) → (ℤ × ℤ) → ℕ → List ((ℤ × ℤ) × ℕ)
  | [], k, c => [(k, c)]
  | e :: es, k, c =>
    if e.1 = k then (k, c) :: es else e :: reachSet es k c

/-- One neighbor-relaxation step of the `getReachableTiles` loop. -/
def reachRelax (grid : TileGrid) (maxMovement : ℕ) (isNaval : Bool)
    (currentCost : ℕ) (state : List ((ℤ × ℤ) × ℕ) × List QueueEntry)
    (neighbor : Tile) : List ((ℤ × ℤ) × ℕ) × List QueueEntry :=
  if ¬ passableFor isNaval neighbor then state
  else
    let moveCost := grid.getMovementCost neighbor
    let totalCost := currentCost + moveCost
    if maxMovement < totalCost then state
    else
      match reachLookup state.1 (neighbor.x, neighbor.y) with
      | some existing =>
          if totalCost < existing then
            (reachSet state.1 (neighbor.x, neighbor.y) totalCost,
             state.2 ++ [⟨neighbor.x, neighbor.y, totalCost⟩])
          else state
      | none =>
          (reachSet state.1 (neighbor.x, neighbor.y) totalCost,
           state.2 ++ [⟨neighbor.x, neighbor.y, totalCost⟩])

/-- Stable insertion of an element into a `le`-sorted list: the new
element goes after every existing element that is `le` it. -/
def stableInsert {α : Type} (le : α → α → Bool) (a : α) :
    List α → List α
  | [] => [a]
  | b :: bs => if le b a then b :: stableInsert le a bs else a :: b :: bs

/-- Stable ascending sort by `le`, by repeated stable insertion.
JS `Array.prototype.sort` is stable, and a stable sort by a total
preorder is unique, so this models `queue.sort((a, b) => a.cost - b.cost)`
exactly. -/
def stableSort {α : Type} (le : α → α → Bool) (l : List α) : List α :=
  l.foldl (fun acc a => stableInsert le a acc) []

/-- The `while (queue.length > 0)` loop of `getReachableTiles`: sort the
queue by cost (JS sort is stable; `stableSort` is its stable
counterpart), shift the head, relax its eight neighbors. -/
def reachLoop (grid : TileGrid) (maxMovement : ℕ) (isNaval : Bool) :
    ℕ → List ((ℤ × ℤ) × ℕ) → List QueueEntry → List ((ℤ × ℤ) × ℕ)
  | 0, reach, _ => reach
  | fuel + 1, reach, queue =>
    match stableSort (fun a b => decide (a.cost ≤ b.cost)) queue with
    | [] => reach
    | current :: rest =>
      let state := (grid.getNeighbors current.x current.y).foldl
        (reachRelax grid maxMovement isNaval current.cost) (reach, rest)
      reachLoop grid maxMovement isNaval fuel state.1 state.2

/-- Fuel bound for `reachLoop`: each iteration strictly decreases the
potential `queue length + Σ recorded costs + (budget+1)·#unrecorded box
coordinates`, which starts below this bound (proved below). -/
def reachFuel (grid : TileGrid) (maxMovement : ℕ) : ℕ :=
  grid.width.toNat * grid.height.toNat * (maxMovement + 1) + 2

/-- `getReachableTiles` (MapEngine.ts): uniform-cost frontier expansion
from the start recording the minimum cost to reach every visited tile
within the budget.  The start is recorded at cost 0 unconditionally. -/
def getReachableTiles (grid : TileGrid) (startX startY : ℤ)
    (maxMovement : ℕ) (isNaval : Bool) : List ((ℤ × ℤ) × ℕ) :=
  reachLoop grid maxMovement isNaval (reachFuel grid maxMovement)
    [((startX, startY), 0)] [⟨startX, startY, 0⟩]


-- ─── Units, unit types and diplomacy (models, UnitManager.ts) ────────────

/-- Resource kinds (the `ResourceType` string enum of the resource-system
document concatenated into src/src/firebase/firestore.ts), all 16
variants in declaration order. -/
inductive ResourceType where
  | dricks
  | wood | stone | iron | coal | gems | grain | fish | leather | wool
  | fruit
  | planks | tools | weapons | jewelry | cloth
  deriving DecidableEq, Repr, Fintype

/-- The 16 resource kinds in enum declaration order: the iteration order
of `Object.values(ResourceType)` and of `Object.entries` over records
keyed by resource kind. -/
def resourceKinds : List ResourceType :=
  [.dricks, .wood, .stone, .iron, .coal, .gems, .grain, .fish, .leather,
   .wool, .fruit, .planks, .tools, .weapons, .jewelry, .cloth]

/-- Resource pool (`ResourceMap` in the resource-system document of
src/src/firebase/firestore.ts): the TS type is
`Partial<Record<ResourceType, number>>` and every consumer reads an
absent key as 0 (`|| 0` / `?? 0`), so it is embedded as a total
function. -/
abbrev ResourceMap := ResourceType → ℚ

/-- The embedding of a TS resource-record literal: the listed entries,
every other kind 0. -/
def mkRes (entries : List (ResourceType × ℚ)) : ResourceMap :=
  fun k => (((entries.find? (fun e => e.1 = k)).map (fun e => e.2)).getD 0)

/-- Base stats of a unit type (`UnitStats` in the unit-system document
concatenated into src/src/models/terrain.ts). -/
structure UnitStats where
  hp : ℕ
  attack : ℕ
  defense : ℕ
  movement : ℕ
  range : ℕ
  sight : ℕ
  deriving DecidableEq, Repr

/-- Unit categories (`UnitCategory` string enum, unit-system document of
src/src/models/terrain.ts). -/
inductive UnitCategory where
  | civil | military | naval | siege | special
  deriving DecidableEq, Repr

/-- Unit type definition (`UnitType`, unit-system document of
src/src/models/terrain.ts).  The optional `requiredBuilding` is `none`
when the TS literal omits it. -/
structure UnitType where
  id : String
  name : String
  nameEn : String
  category : UnitCategory
  stats : UnitStats
  cost : ResourceMap
  upkeep : ResourceMap
  canReproduce : Bool
  reproductionChance : ℚ
  sacrificeForBuilding : Bool
  abilities : List String
  requiredBuilding : Option String
  spriteKey : String
  description : String

/-- The unit-type table (`UNIT_TYPES` in the unit-system document
concatenated into src/src/models/terrain.ts), keyed by type id exactly as
the TS record literal is. -/
def UNIT_TYPES : String → Option UnitType := fun s =>
  if s = "peasant" then some
    { id := "peasant", name := "Paysan", nameEn := "Peasant",
      category := .civil,
      stats := { hp := 10, attack := 1, defense := 1,
                 movement := 2, range := 1, sight := 2 },
      cost := mkRes [(.dricks, 10), (.grain, 5)],
      upkeep := mkRes [(.grain, 1)],
      canReproduce := true, reproductionChance := 15/100,
      sacrificeForBuilding := true, abilities := [],
      requiredBuilding := none, spriteKey := "unit_peasant",
      description := "Unité de base. Peut construire, récolter et se reproduire." }
  else if s = "lumberjack" then some
    { id := "lumberjack", name := "Bûcheron", nameEn := "Lumberjack",
      category := .civil,
      stats := { hp := 12, attack := 2, defense := 1,
                 movement := 2, range := 1, sight := 2 },
      cost := mkRes [(.dricks, 20), (.grain, 5), (.tools, 1)],
      upkeep := mkRes [(.grain, 1)],
      canReproduce := true, reproductionChance := 10/100,
      sacrificeForBuilding := true, abilities := ["harvest_wood"],
      requiredBuilding := none, spriteKey := "unit_lumberjack",
      description := "Récolte du bois efficacement." }
  else if s = "miner" then some
    { id := "miner", name := "Mineur", nameEn := "Miner",
      category := .civil,
      stats := { hp := 14, attack := 2, defense := 2,
                 movement := 2, range := 1, sight := 1 },
      cost := mkRes [(.dricks, 25), (.grain, 5), (.tools, 1)],
      upkeep := mkRes [(.grain, 1)],
      canReproduce := true, reproductionChance := 8/100,
      sacrificeForBuilding := true, abilities := ["harvest_stone", "harvest_iron", "harvest_coal"],
      requiredBuilding := none, spriteKey := "unit_miner",
      description := "Extrait pierre, fer et charbon des montagnes et collines." }
  else if s = "farmer" then some
    { id := "farmer", name := "Fermier", nameEn := "Farmer",
      category := .civil,
      stats := { hp := 10, attack := 1, defense := 1,
                 movement := 2, range := 1, sight := 2 },
      cost := mkRes [(.dricks, 15), (.grain, 5)],
      upkeep := mkRes [(.grain, 1)],
      canReproduce := true, reproductionChance := 12/100,
      sacrificeForBuilding := true, abilities := ["harvest_grain", "harvest_fruit"],
      requiredBuilding := none, spriteKey := "unit_farmer",
      description := "Cultive les terres et produit de la nourriture." }
  else if s = "fisherman" then some
    { id := "fisherman", name := "Pêcheur", nameEn := "Fisherman",
      category := .civil,
      stats := { hp := 10, attack := 1, defense := 1,
                 movement := 2, range := 1, sight := 2 },
      cost := mkRes [(.dricks, 15), (.wood, 5)],
      upkeep := mkRes [(.grain, 1)],
      canReproduce := true, reproductionChance := 10/100,
      sacrificeForBuilding := true, abilities := ["harvest_fish"],
      requiredBuilding := none, spriteKey := "unit_fisherman",
      description := "Pêche dans les zones côtières et fluviales." }
  else if s = "artisan" then some
    { id := "artisan", name := "Artisan", nameEn := "Artisan",
      category := .civil,
      stats := { hp := 10, attack := 1, defense := 1,
                 movement := 2, range := 1, sight := 2 },
      cost := mkRes [(.dricks, 30), (.grain, 5), (.tools, 1)],
      upkeep := mkRes [(.grain, 1), (.dricks, 2)],
      canReproduce := true, reproductionChance := 5/100,
      sacrificeForBuilding := true, abilities := ["transform_resources"],
      requiredBuilding := none, spriteKey := "unit_artisan",
      description := "Transforme les matières premières en produits finis." }
  else if s = "militia" then some
    { id := "militia", name := "Milicien", nameEn := "Militia",
      category := .military,
      stats := { hp := 15, attack := 3, defense := 3,
                 movement := 3, range := 1, sight := 2 },
      cost := mkRes [(.dricks, 20), (.grain, 5)],
      upkeep := mkRes [(.grain, 1), (.dricks, 1)],
      canReproduce := false, reproductionChance := 0,
      sacrificeForBuilding := false, abilities := [],
      requiredBuilding := some "barracks", spriteKey := "unit_militia",
      description := "Combattant basique, bon marché mais faible." }
  else if s = "man_at_arms" then some
    { id := "man_at_arms", name := "Homme d\x27armes", nameEn := "Man at Arms",
      category := .military,
      stats := { hp := 25, attack := 6, defense := 5,
                 movement := 3, range := 1, sight := 2 },
      cost := mkRes [(.dricks, 40), (.weapons, 1), (.grain, 10)],
      upkeep := mkRes [(.grain, 2), (.dricks, 2)],
      canReproduce := false, reproductionChance := 0,
      sacrificeForBuilding := false, abilities := [],
      requiredBuilding := some "barracks", spriteKey := "unit_man_at_arms",
      description := "Fantassin bien équipé, colonne vertébrale de toute armée." }
  else if s = "archer" then some
    { id := "archer", name := "Archer", nameEn := "Archer",
      category := .military,
      stats := { hp := 15, attack := 5, defense := 2,
                 movement := 3, range := 2, sight := 3 },
      cost := mkRes [(.dricks, 35), (.wood, 5), (.grain, 5)],
      upkeep := mkRes [(.grain, 1), (.dricks, 2)],
      canReproduce := false, reproductionChance := 0,
      sacrificeForBuilding := false, abilities := ["ranged_attack"],
      requiredBuilding := some "barracks", spriteKey := "unit_archer",
      description := "Tire à distance, vulnérable au corps à corps." }
  else if s = "cavalry" then some
    { id := "cavalry", name := "Cavalier", nameEn := "Cavalry",
      category := .military,
      stats := { hp := 20, attack := 7, defense := 4,
                 movement := 5, range := 1, sight := 3 },
      cost := mkRes [(.dricks, 60), (.grain, 15), (.leather, 3)],
      upkeep := mkRes [(.grain, 3), (.dricks, 3)],
      canReproduce := false, reproductionChance := 0,
      sacrificeForBuilding := false, abilities := ["charge"],
      requiredBuilding := some "stable", spriteKey := "unit_cavalry",
      description := "Rapide et puissant, idéal pour les raids." }
  else if s = "knight" then some
    { id := "knight", name := "Chevalier", nameEn := "Knight",
      category := .military,
      stats := { hp := 35, attack := 10, defense := 8,
                 movement := 4, range := 1, sight := 2 },
      cost := mkRes [(.dricks, 100), (.weapons, 2), (.leather, 3), (.iron, 3)],
      upkeep := mkRes [(.grain, 3), (.dricks, 5)],
      canReproduce := false, reproductionChance := 0,
      sacrificeForBuilding := false, abilities := ["charge", "inspire"],
      requiredBuilding := some "stable", spriteKey := "unit_knight",
      description := "Élite de la chevalerie du Midgard. L\x27héritage d\x27Edrik Dayne." }
  else if s = "spearman" then some
    { id := "spearman", name := "Lancier", nameEn := "Spearman",
      category := .military,
      stats := { hp := 20, attack := 5, defense := 6,
                 movement := 3, range := 1, sight := 2 },
      cost := mkRes [(.dricks, 30), (.wood, 3), (.iron, 1)],
      upkeep := mkRes [(.grain, 1), (.dricks, 1)],
      canReproduce := false, reproductionChance := 0,
      sacrificeForBuilding := false, abilities := ["anti_cavalry"],
      requiredBuilding := some "barracks", spriteKey := "unit_spearman",
      description := "Efficace contre la cavalerie grâce à sa lance." }
  else if s = "scout" then some
    { id := "scout", name := "Éclaireur", nameEn := "Scout",
      category := .military,
      stats := { hp := 12, attack := 3, defense := 2,
                 movement := 6, range := 1, sight := 5 },
      cost := mkRes [(.dricks, 25), (.leather, 1)],
      upkeep := mkRes [(.grain, 1), (.dricks, 1)],
      canReproduce := false, reproductionChance := 0,
      sacrificeForBuilding := false, abilities := ["stealth", "scouting"],
      requiredBuilding := some "barracks", spriteKey := "unit_scout",
      description := "Rapide avec une grande vision. Idéal pour explorer." }
  else if s = "battering_ram" then some
    { id := "battering_ram", name := "Bélier", nameEn := "Battering Ram",
      category := .siege,
      stats := { hp := 30, attack := 15, defense := 2,
                 movement := 2, range := 1, sight := 1 },
      cost := mkRes [(.dricks, 50), (.wood, 15), (.iron, 5)],
      upkeep := mkRes [(.dricks, 3)],
      canReproduce := false, reproductionChance := 0,
      sacrificeForBuilding := false, abilities := ["siege_bonus"],
      requiredBuilding := some "barracks", spriteKey := "unit_ram",
      description := "Dévastateur contre les fortifications." }
  else if s = "catapult" then some
    { id := "catapult", name := "Catapulte", nameEn := "Catapult",
      category := .siege,
      stats := { hp := 20, attack := 12, defense := 1,
                 movement := 1, range := 3, sight := 2 },
      cost := mkRes [(.dricks, 80), (.wood, 20), (.iron, 5)],
      upkeep := mkRes [(.dricks, 4)],
      canReproduce := false, reproductionChance := 0,
      sacrificeForBuilding := false, abilities := ["siege_bonus", "ranged_attack"],
      requiredBuilding := some "barracks", spriteKey := "unit_catapult",
      description := "Projette des rochers à grande distance." }
  else if s = "boat" then some
    { id := "boat", name := "Barque", nameEn := "Boat",
      category := .naval,
      stats := { hp := 15, attack := 2, defense := 2,
                 movement := 4, range := 1, sight := 3 },
      cost := mkRes [(.dricks, 30), (.wood, 10)],
      upkeep := mkRes [(.dricks, 1)],
      canReproduce := false, reproductionChance := 0,
      sacrificeForBuilding := false, abilities := ["transport"],
      requiredBuilding := some "port", spriteKey := "unit_boat",
      description := "Petit navire de transport côtier." }
  else if s = "warship" then some
    { id := "warship", name := "Navire de Guerre", nameEn := "Warship",
      category := .naval,
      stats := { hp := 40, attack := 10, defense := 6,
                 movement := 3, range := 2, sight := 3 },
      cost := mkRes [(.dricks, 120), (.wood, 30), (.iron, 10)],
      upkeep := mkRes [(.grain, 3), (.dricks, 5)],
      canReproduce := false, reproductionChance := 0,
      sacrificeForBuilding := false, abilities := ["ranged_attack", "naval_combat"],
      requiredBuilding := some "port", spriteKey := "unit_warship",
      description := "Puissant vaisseau de guerre armé de balistes." }
  else if s = "chaplain" then some
    { id := "chaplain", name := "Chapelain", nameEn := "Chaplain",
      category := .special,
      stats := { hp := 12, attack := 1, defense := 2,
                 movement := 3, range := 1, sight := 2 },
      cost := mkRes [(.dricks, 50), (.grain, 10)],
      upkeep := mkRes [(.grain, 1), (.dricks, 3)],
      canReproduce := false, reproductionChance := 0,
      sacrificeForBuilding := false, abilities := ["heal", "bless"],
      requiredBuilding := some "chapel", spriteKey := "unit_chaplain",
      description := "Soigne les unités alliées et renforce le moral." }
  else if s = "merchant" then some
    { id := "merchant", name := "Marchand", nameEn := "Merchant",
      category := .special,
      stats := { hp := 10, attack := 0, defense := 1,
                 movement := 3, range := 1, sight := 2 },
      cost := mkRes [(.dricks, 40)],
      upkeep := mkRes [(.dricks, 2)],
      canReproduce := false, reproductionChance := 0,
      sacrificeForBuilding := false, abilities := ["trade", "generate_dricks"],
      requiredBuilding := some "market", spriteKey := "unit_merchant",
      description := "Génère des Dricks et permet le commerce." }
  else if s = "herald" then some
    { id := "herald", name := "Héraut", nameEn := "Herald",
      category := .special,
      stats := { hp := 8, attack := 0, defense := 1,
                 movement := 5, range := 1, sight := 4 },
      cost := mkRes [(.dricks, 30)],
      upkeep := mkRes [(.dricks, 1)],
      canReproduce := false, reproductionChance := 0,
      sacrificeForBuilding := false, abilities := ["diplomacy", "announce"],
      requiredBuilding := none, spriteKey := "unit_herald",
      description := "Messager rapide, permet la diplomatie entre factions." }
  else none

/-- A unit instance (models/units `UnitInstance`). -/
structure UnitInstance where
  id : String
  typeId : String
  ownerId : String
  x : ℤ
  y : ℤ
  currentHp : ℤ
  isAlive : Bool
  hasMoved : Bool
  hasActed : Bool
  armyId : Option String
  createdTurn : ℕ
  deriving DecidableEq, Repr

/-- Diplomacy status between two players. -/
inductive DiplomacyStatus where
  | neutral | allied | enemy
  deriving DecidableEq, Repr

/-- A diplomacy relation record (unordered player pair plus status). -/
structure DiplomacyRelation where
  playerA : String
  playerB : String
  status : DiplomacyStatus
  deriving DecidableEq, Repr

/-- An army (models/game `Army`). -/
structure Army where
  id : String
  ownerId : String
  name : String
  unitIds : List String
  x : ℤ
  y : ℤ
  deriving DecidableEq, Repr

-- ─── Combat engine (SimpleCombatResolver, CombatManager) ─────────────────

/-- JS `Math.round`: round half toward positive infinity. -/
def jsRound (q : ℚ) : ℤ := ⌊q + 1/2⌋

/-- Immutable record of one resolved encounter (models/game `CombatLog`).
The uuid `id` and `Date.now()` timestamp are process nondeterminism and
are not modelled. -/
structure CombatLog where
  turn : ℕ
  attackerId : String
  defenderId : String
  attackerUnitId : String
  defenderUnitId : String
  attackerDamage : ℤ
  defenderDamage : ℤ
  attackerSurvived : Bool
  defenderSurvived : Bool
  terrainBonus : ℚ
  deriving DecidableEq, Repr

/-- Result of one encounter (`CombatResult`). -/
structure CombatResult where
  attackerDamage : ℤ
  defenderDamage : ℤ
  attackerSurvived : Bool
  defenderSurvived : Bool
  log : CombatLog
  deriving DecidableEq, Repr

/-- Chebyshev distance between two tiles
(`SimpleCombatResolver.getDistance`). -/
def getDistance (a b : Tile) : ℕ :=
  max (a.x - b.x).natAbs (a.y - b.y).natAbs

/-- `SimpleCombatResolver.resolve`.  The two `Math.random()` draws are the
explicit arguments `u1` (attack roll) and `u2` (counter roll, consumed
only when the defender is in range); each argument stands for a draw in
`[0,1]` and enters as the factor `0.8 + u·0.4` exactly as in the source.
Unknown unit types throw, modelled as `Except.error`. -/
def SimpleCombatResolver.resolve
    (attacker defender : UnitInstance) (attackerTile defenderTile : Tile)
    (turn : ℕ) (u1 u2 : ℚ) : Except String CombatResult :=
  match UNIT_TYPES attacker.typeId, UNIT_TYPES defender.typeId with
  | some attackerType, some defenderType =>
    let terrainDefenseBonus := (TERRAIN_DEFS defenderTile.terrain).defenseBonus
    let riverPenalty : ℚ := if defenderTile.river then 9/10 else 1
    let attackPower : ℚ :=
      (attackerType.stats.attack : ℚ) * (4/5 + u1 * (2/5)) * riverPenalty
    let defenseValue : ℚ := (defenderType.stats.defense : ℚ) * terrainDefenseBonus
    let damageToDefender : ℤ := max 1 (jsRound (attackPower - defenseValue * (1/2)))
    let isInRange := getDistance attackerTile defenderTile ≤ defenderType.stats.range
    let damageToAttacker : ℤ :=
      if isInRange then
        let counterPower : ℚ :=
          (defenderType.stats.attack : ℚ) * (4/5 + u2 * (2/5)) * (7/10)
        let attackerTerrainBonus := (TERRAIN_DEFS attackerTile.terrain).defenseBonus
        max 0 (jsRound (counterPower -
          (attackerType.stats.defense : ℚ) * attackerTerrainBonus * (1/2)))
      else 0
    let newDefenderHp := defender.currentHp - damageToDefender
    let newAttackerHp := attacker.currentHp - damageToAttacker
    Except.ok
      { attackerDamage := damageToAttacker,
        defenderDamage := damageToDefender,
        attackerSurvived := newAttackerHp > 0,
        defenderSurvived := newDefenderHp > 0,
        log :=
          { turn := turn,
            attackerId := attacker.ownerId,
            defenderId := defender.ownerId,
            attackerUnitId := attacker.id,
            defenderUnitId := defender.id,
            attackerDamage := damageToAttacker,
            defenderDamage := damageToDefender,
            attackerSurvived := newAttackerHp > 0,
            defenderSurvived := newDefenderHp > 0,
            terrainBonus := terrainDefenseBonus } }
  | _, _ => Except.error "Unknown unit type"

/-- `CombatManager.applyCombatResult`: subtract the damage from both hit
points, then clamp to 0 and clear the alive flag for each side whose
survival flag is false. -/
def applyCombatResult (attacker defender : UnitInstance)
    (result : CombatResult) : UnitInstance × UnitInstance :=
  let a1 := { attacker with currentHp := attacker.currentHp - result.attackerDamage }
  let d1 := { defender with currentHp := defender.currentHp - result.defenderDamage }
  let a2 := if result.attackerSurvived then a1
            else { a1 with isAlive := false, currentHp := 0 }
  let d2 := if result.defenderSurvived then d1
            else { d1 with isAlive := false, currentHp := 0 }
  (a2, d2)

/-- A combat-resolution strategy as consumed by `CombatManager`
(`ICombatResolver`).  The extra `ℕ` argument indexes the encounter within
one manager call, standing in for the internal random state advancing
between calls to the injected resolver. -/
abbrev Resolver :=
  ℕ → UnitInstance → UnitInstance → Tile → Tile → ℕ → Except String CombatResult

/-- The default resolver of `CombatManager` (`new SimpleCombatResolver()`),
fed from a stream of random draws, one pair per encounter. -/
def simpleResolver (rng : ℕ → ℚ × ℚ) : Resolver :=
  fun i attacker defender aTile dTile turn =>
    SimpleCombatResolver.resolve attacker defender aTile dTile turn
      (rng i).1 (rng i).2

/-- Loop body of `CombatManager.resolveArmyCombat`: walk the indexed list
of initially-alive attackers; pair each with the defender at
`i % aliveDefenders.length` in the initially-alive defender array, skip
the encounter when that defender has died, otherwise resolve, apply the
result immediately, and break once no defender in the array is left
alive.  Returns the collected results and the final attacker and defender
states. -/
def armyCombatGo (resolver : Resolver) (attackerTile defenderTile : Tile)
    (turn : ℕ) (m : ℕ) :
    List (ℕ × UnitInstance) → List UnitInstance → List UnitInstance →
    List CombatResult →
    Except String (List CombatResult × List UnitInstance × List UnitInstance)
  | [], doneAtts, defs, results => Except.ok (results, doneAtts.reverse, defs)
  | (i, attacker) :: restAtts, doneAtts, defs, results =>
    -- `i % aliveDefenders.length` is NaN for an empty defender array and
    -- the lookup yields `undefined`, hence the `continue`
    if m = 0 then
      armyCombatGo resolver attackerTile defenderTile turn m restAtts
        (attacker :: doneAtts) defs results
    else
      match defs[(i % m)]? with
      | none =>
        armyCombatGo resolver attackerTile defenderTile turn m restAtts
          (attacker :: doneAtts) defs results
      | some defender =>
        if ¬ defender.isAlive then
          armyCombatGo resolver attackerTile defenderTile turn m restAtts
            (attacker :: doneAtts) defs results
        else
          match resolver i attacker defender attackerTile defenderTile turn with
          | Except.error e => Except.error e
          | Except.ok result =>
            let applied := applyCombatResult attacker defender result
            let defs1 := defs.set (i % m) applied.2
            if (defs1.filter (fun u => u.isAlive)).isEmpty then
              Except.ok (results ++ [result],
                doneAtts.reverse ++ applied.1 :: (restAtts.map (·.2)), defs1)
            else
              armyCombatGo resolver attackerTile defenderTile turn m restAtts
                (applied.1 :: doneAtts) defs1 (results ++ [result])

/-- `CombatManager.resolveArmyCombat`: filter both sides down to the
initially alive units, then run the encounter loop.  Returns the results
plus the final states of the two filtered lists (the TS method mutates
the unit objects in place and returns only the results). -/
def resolveArmyCombat (resolver : Resolver)
    (attackerUnits defenderUnits : List UnitInstance)
    (attackerTile defenderTile : Tile) (turn : ℕ) :
    Except String (List CombatResult × List UnitInstance × List UnitInstance) :=
  let aliveAttackers := attackerUnits.filter (fun u => u.isAlive)
  let aliveDefenders := defenderUnits.filter (fun u => u.isAlive)
  armyCombatGo resolver attackerTile defenderTile turn aliveDefenders.length
    aliveAttackers.enum [] aliveDefenders []


-- ─── Unit manager (UnitManager.ts) ───────────────────────────────────────

/-- `UnitManager.getRelation` (private helper): same player counts as
allied; otherwise look the unordered pair up, defaulting to neutral. -/
def getRelation (playerA playerB : String)
    (relations : List DiplomacyRelation) : DiplomacyStatus :=
  if playerA = playerB then .allied
  else
    match relations.find? (fun r =>
      (r.playerA = playerA ∧ r.playerB = playerB) ∨
      (r.playerA = playerB ∧ r.playerB = playerA)) with
    | some rel => rel.status
    | none => .neutral

/-- The living units standing on `(tx, ty)` other than the moving unit
itself (the `unitsOnTile` filter of `getValidMoves`). -/
def unitsOnTile (allUnits : List UnitInstance) (selfId : String)
    (tx ty : ℤ) : List UnitInstance :=
  allUnits.filter (fun u => u.isAlive ∧ u.x = tx ∧ u.y = ty ∧ u.id ≠ selfId)

/-- The occupancy filter stage of `getValidMoves`: keep a reachable tile
when it is unoccupied, or when all occupants are allied (same owner or an
allied relation) and fewer than 2 occupants are present. -/
def validMovesFiltered (unit : UnitInstance)
    (allUnits : List UnitInstance) (relations : List DiplomacyRelation)
    (reachable : List ((ℤ × ℤ) × ℕ)) : List ((ℤ × ℤ) × ℕ) :=
  reachable.filter (fun e =>
    let occ := unitsOnTile allUnits unit.id e.1.1 e.1.2
    if occ.isEmpty then true
    else
      let allAllied := occ.all (fun u =>
        u.ownerId = unit.ownerId ∨
        getRelation unit.ownerId u.ownerId relations = .allied)
      allAllied ∧ occ.length < 2)

/-- Delete a key from a coordinate→cost map (`Map.delete`). -/
def reachErase (reach : List ((ℤ × ℤ) × ℕ)) (k : ℤ × ℤ) :
    List ((ℤ × ℤ) × ℕ) :=
  reach.filter (fun e => e.1 ≠ k)

/-- `UnitManager.getValidMoves`: empty when the unit has already moved or
its type is unknown; otherwise the reachable set under the type movement
stat and domain, filtered by occupancy, with the start coordinate
deleted. -/
def getValidMoves (unit : UnitInstance)
    (grid : TileGrid) (allUnits : List UnitInstance)
    (relations : List DiplomacyRelation) : List ((ℤ × ℤ) × ℕ) :=
  if unit.hasMoved then []
  else
    match UNIT_TYPES unit.typeId with
    | none => []
    | some uType =>
      let isNaval := uType.category = UnitCategory.naval
      let reachable := getReachableTiles grid unit.x unit.y
        uType.stats.movement isNaval
      reachErase (validMovesFiltered unit allUnits relations reachable)
        (unit.x, unit.y)

/-- `UnitManager.moveUnit`: set position and the moved flag
unconditionally. -/
def moveUnit (unit : UnitInstance) (targetX targetY : ℤ) : UnitInstance :=
  { unit with x := targetX, y := targetY, hasMoved := true }

/-- `UnitManager.resetUnitsForTurn`: clear moved/acted flags of every
living unit. -/
def resetUnitsForTurn (units : List UnitInstance) : List UnitInstance :=
  units.map (fun u =>
    if u.isAlive then { u with hasMoved := false, hasActed := false } else u)

/-- The `selectedUnits` filter of `UnitManager.createArmy`: the named
units that are alive and owned by the requesting player. -/
def selectedFor (ownerId : String) (unitIds : List String)
    (units : List UnitInstance) : List UnitInstance :=
  units.filter (fun u => unitIds.contains u.id ∧ u.isAlive ∧ u.ownerId = ownerId)

/-- `UnitManager.createArmy`.  The TS method filters the named units down
to those that are alive and owned by the requesting player, fails when
none remain or when the remaining ones are not co-located, and otherwise
stamps each selected unit with the new army id (the uuid is the `newId`
argument).  Returns the army together with the updated unit list (the TS
method mutates the selected unit objects in place). -/
def createArmy (name ownerId : String) (unitIds : List String)
    (units : List UnitInstance) (newId : String) :
    Option (Army × List UnitInstance) :=
  let selectedUnits := selectedFor ownerId unitIds units
  match selectedUnits with
  | [] => none
  | u0 :: _ =>
    if ¬ selectedUnits.all (fun u => u.x = u0.x ∧ u.y = u0.y) then none
    else
      let army : Army :=
        { id := newId, ownerId := ownerId, name := name,
          unitIds := selectedUnits.map (·.id), x := u0.x, y := u0.y }
      some (army, units.map (fun u =>
        if unitIds.contains u.id ∧ u.isAlive ∧ u.ownerId = ownerId then
          { u with armyId := some newId }
        else u))

-- ─── Economy engine (EconomyEngine) ──────────────────────────────────────

/-- A player (`Player` in the core-game-models document concatenated
into src/src/models/terrain.ts). -/
structure Player where
  id : String
  name : String
  factionId : String
  allianceId : Option String
  resources : ResourceMap
  turnsAccumulated : ℕ
  turnPlayed : Bool
  isReady : Bool
  lastLoginAt : ℕ

/-- A building instance (models/buildings `BuildingInstance`). -/
structure BuildingInstance where
  id : String
  typeId : String
  ownerId : String
  x : ℤ
  y : ℤ
  isConstructed : Bool
  turnsRemaining : ℤ
  createdTurn : ℕ
  deriving DecidableEq, Repr

/-- Settlement tiers (`SettlementTier` string enum in the building-and-
settlement document concatenated into src/src/firebase/firestore.ts). -/
inductive SettlementTier where
  | campfire | village | town | city | capital
  deriving DecidableEq, Repr

/-- A settlement instance (`SettlementInstance`, building-and-settlement
document of src/src/firebase/firestore.ts); only the fields the turn
pipeline reads. -/
structure SettlementInstance where
  id : String
  name : String
  ownerId : String
  tier : SettlementTier
  isUpgrading : Bool
  upgradeTurnsRemaining : ℤ
  deriving DecidableEq, Repr

/-- Building bonus kinds (the string union of `BuildingBonus.type` in the
building-and-settlement document of src/src/firebase/firestore.ts; the TS
field is named `type`, rendered here as `kind`). -/
inductive BuildingBonusKind where
  | defense | attack | sight | recruitment | trade | storage | population
  deriving DecidableEq, Repr

/-- One building bonus (`BuildingBonus`). -/
structure BuildingBonus where
  kind : BuildingBonusKind
  value : ℚ

/-- Building type definition (`BuildingType`, building-and-settlement
document of src/src/firebase/firestore.ts). -/
structure BuildingType where
  id : String
  name : String
  nameEn : String
  cost : ResourceMap
  buildTurns : ℕ
  requiresSacrifice : Option String
  requiresSettlement : Option SettlementTier
  production : ResourceMap
  bonuses : List BuildingBonus
  maxPerSettlement : ℕ
  spriteKey : String
  description : String

/-- The building-type table (`BUILDING_TYPES` in the building-and-
settlement document concatenated into src/src/firebase/firestore.ts). -/
def BUILDING_TYPES : String → Option BuildingType := fun s =>
  if s = "house" then some
    { id := "house", name := "Maison", nameEn := "House",
      cost := mkRes [(.wood, 10), (.stone, 5), (.dricks, 20)],
      buildTurns := 2, requiresSacrifice := none,
      requiresSettlement := some .campfire,
      production := mkRes [(.dricks, 2)],
      bonuses := [{ kind := .population, value := 2 }],
      maxPerSettlement := 0, spriteKey := "bldg_house",
      description := "Habitation de base. Génère des Dricks et augmente la population." }
  else if s = "farm_building" then some
    { id := "farm_building", name := "Ferme", nameEn := "Farm",
      cost := mkRes [(.wood, 15), (.dricks, 25)],
      buildTurns := 2, requiresSacrifice := some "peasant",
      requiresSettlement := some .campfire,
      production := mkRes [(.grain, 5), (.fruit, 2)],
      bonuses := [],
      maxPerSettlement := 3, spriteKey := "bldg_farm",
      description := "Produit grain et fruits. Nécessite le sacrifice d\x27un paysan." }
  else if s = "sawmill" then some
    { id := "sawmill", name := "Scierie", nameEn := "Sawmill",
      cost := mkRes [(.wood, 20), (.stone, 10), (.iron, 5), (.dricks, 40)],
      buildTurns := 3, requiresSacrifice := some "peasant",
      requiresSettlement := some .village,
      production := mkRes [(.planks, 3)],
      bonuses := [],
      maxPerSettlement := 2, spriteKey := "bldg_sawmill",
      description := "Transforme le bois en planches." }
  else if s = "mine" then some
    { id := "mine", name := "Mine", nameEn := "Mine",
      cost := mkRes [(.wood, 15), (.stone, 10), (.tools, 2), (.dricks, 50)],
      buildTurns := 4, requiresSacrifice := some "peasant",
      requiresSettlement := some .village,
      production := mkRes [(.iron, 3), (.stone, 2), (.coal, 1)],
      bonuses := [],
      maxPerSettlement := 2, spriteKey := "bldg_mine",
      description := "Extrait fer, pierre et charbon." }
  else if s = "forge" then some
    { id := "forge", name := "Forge", nameEn := "Forge",
      cost := mkRes [(.stone, 20), (.iron, 10), (.dricks, 60)],
      buildTurns := 4, requiresSacrifice := some "peasant",
      requiresSettlement := some .village,
      production := mkRes [(.tools, 1), (.weapons, 1)],
      bonuses := [],
      maxPerSettlement := 2, spriteKey := "bldg_forge",
      description := "Fabrique outils et armes à partir de fer." }
  else if s = "barracks" then some
    { id := "barracks", name := "Caserne", nameEn := "Barracks",
      cost := mkRes [(.wood, 20), (.stone, 20), (.dricks, 80)],
      buildTurns := 4, requiresSacrifice := none,
      requiresSettlement := some .village,
      production := mkRes [],
      bonuses := [{ kind := .recruitment, value := 1 }],
      maxPerSettlement := 1, spriteKey := "bldg_barracks",
      description := "Permet le recrutement d\x27unités militaires." }
  else if s = "stable" then some
    { id := "stable", name := "Écurie", nameEn := "Stable",
      cost := mkRes [(.wood, 25), (.leather, 5), (.grain, 20), (.dricks, 70)],
      buildTurns := 4, requiresSacrifice := none,
      requiresSettlement := some .town,
      production := mkRes [],
      bonuses := [{ kind := .recruitment, value := 1 }],
      maxPerSettlement := 1, spriteKey := "bldg_stable",
      description := "Permet le recrutement de cavalerie et chevaliers." }
  else if s = "chapel" then some
    { id := "chapel", name := "Chapelle", nameEn := "Chapel",
      cost := mkRes [(.stone, 30), (.planks, 10), (.gems, 2), (.dricks, 100)],
      buildTurns := 5, requiresSacrifice := none,
      requiresSettlement := some .town,
      production := mkRes [(.dricks, 5)],
      bonuses := [{ kind := .defense, value := 10/100 }],
      maxPerSettlement := 1, spriteKey := "bldg_chapel",
      description := "Lieu de culte. Permet le recrutement de chapelains." }
  else if s = "market" then some
    { id := "market", name := "Marché", nameEn := "Market",
      cost := mkRes [(.wood, 20), (.stone, 15), (.dricks, 60)],
      buildTurns := 3, requiresSacrifice := none,
      requiresSettlement := some .village,
      production := mkRes [(.dricks, 10)],
      bonuses := [{ kind := .trade, value := 1 }],
      maxPerSettlement := 1, spriteKey := "bldg_market",
      description := "Génère des Dricks et permet le commerce." }
  else if s = "wall" then some
    { id := "wall", name := "Mur", nameEn := "Wall",
      cost := mkRes [(.stone, 40), (.dricks, 80)],
      buildTurns := 5, requiresSacrifice := none,
      requiresSettlement := some .village,
      production := mkRes [],
      bonuses := [{ kind := .defense, value := 50/100 }],
      maxPerSettlement := 1, spriteKey := "bldg_wall",
      description := "Fortification défensive. +50% défense." }
  else if s = "watchtower" then some
    { id := "watchtower", name := "Tour de Guet", nameEn := "Watchtower",
      cost := mkRes [(.stone, 15), (.wood, 10), (.dricks, 30)],
      buildTurns := 3, requiresSacrifice := none,
      requiresSettlement := some .campfire,
      production := mkRes [],
      bonuses := [{ kind := .sight, value := 3 }],
      maxPerSettlement := 1, spriteKey := "bldg_watchtower",
      description := "Augmente la vision dans la zone." }
  else if s = "port" then some
    { id := "port", name := "Port", nameEn := "Port",
      cost := mkRes [(.wood, 30), (.stone, 20), (.iron, 5), (.dricks, 100)],
      buildTurns := 5, requiresSacrifice := some "peasant",
      requiresSettlement := some .town,
      production := mkRes [(.fish, 3), (.dricks, 5)],
      bonuses := [{ kind := .trade, value := 2 }],
      maxPerSettlement := 1, spriteKey := "bldg_port",
      description := "Permet le commerce maritime et la construction navale." }
  else if s = "artisan_workshop" then some
    { id := "artisan_workshop", name := "Atelier d\x27Artisan", nameEn := "Artisan Workshop",
      cost := mkRes [(.wood, 15), (.stone, 10), (.tools, 2), (.dricks, 50)],
      buildTurns := 3, requiresSacrifice := some "peasant",
      requiresSettlement := some .village,
      production := mkRes [(.jewelry, 1), (.cloth, 2)],
      bonuses := [],
      maxPerSettlement := 2, spriteKey := "bldg_artisan",
      description := "Transforme gemmes et laine en bijoux et tissus." }
  else if s = "outpost" then some
    { id := "outpost", name := "Poste de Garde", nameEn := "Outpost",
      cost := mkRes [(.wood, 15), (.stone, 10), (.dricks, 30)],
      buildTurns := 2, requiresSacrifice := none,
      requiresSettlement := none,
      production := mkRes [],
      bonuses := [{ kind := .defense, value := 20/100 },
                  { kind := .sight, value := 2 }],
      maxPerSettlement := 0, spriteKey := "bldg_outpost",
      description := "Poste de garde indépendant. Vision et défense." }
  else if s = "lumber_camp" then some
    { id := "lumber_camp", name := "Camp de Bûcherons", nameEn := "Lumber Camp",
      cost := mkRes [(.wood, 10), (.dricks, 15)],
      buildTurns := 2, requiresSacrifice := some "peasant",
      requiresSettlement := none,
      production := mkRes [(.wood, 4)],
      bonuses := [],
      maxPerSettlement := 0, spriteKey := "bldg_lumber_camp",
      description := "Camp forestier indépendant. Produit du bois." }
  else if s = "remote_mine" then some
    { id := "remote_mine", name := "Mine Isolée", nameEn := "Remote Mine",
      cost := mkRes [(.wood, 10), (.stone, 5), (.tools, 1), (.dricks, 30)],
      buildTurns := 3, requiresSacrifice := some "peasant",
      requiresSettlement := none,
      production := mkRes [(.stone, 2), (.iron, 1)],
      bonuses := [],
      maxPerSettlement := 0, spriteKey := "bldg_remote_mine",
      description := "Petite mine indépendante." }
  else none

/-- Faction bonus kinds (the string union of `FactionBonus.type` in the
core-game-models document of src/src/models/terrain.ts; the TS field is
named `type`, rendered here as `kind`). -/
inductive FactionBonusKind where
  | military | economic | diplomatic | exploration
  deriving DecidableEq, Repr

/-- One faction bonus (`FactionBonus`, core-game-models document of
src/src/models/terrain.ts). -/
structure FactionBonus where
  kind : FactionBonusKind
  name : String
  value : ℚ
  description : String

/-- A faction definition (`Faction`, core-game-models document of
src/src/models/terrain.ts). -/
structure Faction where
  id : String
  name : String
  color : String
  description : String
  bonuses : List FactionBonus
  spriteKey : String

/-- The faction table (`FACTIONS` in the core-game-models document
concatenated into src/src/models/terrain.ts). -/
def FACTIONS : String → Option Faction := fun s =>
  if s = "alrimor" then some
    { id := "alrimor", name := "Alrimor", color := "#FF0000",
      description := "Une faction guerrière qui cherche à restaurer l\x27honneur du Midgard par les armes.",
      bonuses := [{ kind := .military, name := "Vétérans", value := 10/100,
                    description := "+10% attaque pour toutes les unités" }],
      spriteKey := "faction_alrimor" }
  else if s = "astarte" then some
    { id := "astarte", name := "Astarté", color := "#FF00FF",
      description := "Adorateurs de l\x27ancienne déesse, ils combinent foi et magie.",
      bonuses := [{ kind := .diplomatic, name := "Bénédiction", value := 15/100,
                    description := "+15% efficacité des chapelains" }],
      spriteKey := "faction_astarte" }
  else if s = "bain_sanglant" then some
    { id := "bain_sanglant", name := "Bain Sanglant", color := "#8B0000",
      description := "Les plus féroces des guerriers du Midgard, forgés dans le sang.",
      bonuses := [{ kind := .military, name := "Berserker", value := 15/100,
                    description := "+15% attaque, -5% défense" }],
      spriteKey := "faction_bain_sanglant" }
  else if s = "bansag" then some
    { id := "bansag", name := "Bansàg", color := "#FFFF00",
      description := "Commerçants habiles et diplomates, ils préfèrent l\x27or à l\x27épée.",
      bonuses := [{ kind := .economic, name := "Commerce", value := 20/100,
                    description := "+20% revenus en Dricks" }],
      spriteKey := "faction_bansag" }
  else if s = "buzardie" then some
    { id := "buzardie", name := "Buzardie", color := "#0000FF",
      description := "Les cavaliers des plaines, rapides comme le vent.",
      bonuses := [{ kind := .exploration, name := "Cavaliers des plaines", value := 1,
                    description := "+1 mouvement pour la cavalerie" }],
      spriteKey := "faction_buzardie" }
  else if s = "caragern" then some
    { id := "caragern", name := "Caragern", color := "#00FFFF",
      description := "Maîtres bâtisseurs et ingénieurs, héritiers de l\x27ancienne architecture.",
      bonuses := [{ kind := .economic, name := "Bâtisseurs", value := 25/100,
                    description := "-25% coût de construction" }],
      spriteKey := "faction_caragern" }
  else if s = "laurendrill" then some
    { id := "laurendrill", name := "Laurendrill", color := "#00FF00",
      description := "Les gardiens des forêts, archers d\x27élite et protecteurs de la nature.",
      bonuses := [{ kind := .military, name := "Tireurs d\x27élite", value := 20/100,
                    description := "+20% attaque pour les archers" }],
      spriteKey := "faction_laurendrill" }
  else if s = "trinite" then some
    { id := "trinite", name := "Trinité", color := "#B7B7B7",
      description := "L\x27ordre religieux, gardiens de la foi et de la sagesse d\x27Edrik Dayne.",
      bonuses := [{ kind := .diplomatic, name := "Autorité divine", value := 15/100,
                    description := "+15% défense en territoire allié" }],
      spriteKey := "faction_trinite" }
  else if s = "yanovie" then some
    { id := "yanovie", name := "Yanovie", color := "#109618",
      description := "Les fermiers et artisans du Midgard, nourrissant la nation.",
      bonuses := [{ kind := .economic, name := "Prospérité", value := 30/100,
                    description := "+30% production de nourriture" }],
      spriteKey := "faction_yanovie" }
  else none

/-- Pointwise update of a resource map. -/
def setRes (m : ResourceMap) (k : ResourceType) (v : ℚ) : ResourceMap :=
  fun j => if j = k then v else m j

/-- `emptyResources` (resource-system document of
src/src/firebase/firestore.ts): every kind 0. -/
def emptyResources : ResourceMap := fun _ => 0

/-- `addResources` (resource-system document of
src/src/firebase/firestore.ts): the source mutates `a`, setting
`a[k] = (a[k] || 0) + (val || 0)` for each entry of `b`; pointwise
addition is its functional rendering (keys absent from `b` add 0). -/
def addResources (target deltas : ResourceMap) : ResourceMap :=
  fun k => target k + deltas k

/-- Monthly production report (models/game `ProductionReport`); the
itemized `gains`/`losses` display entries do not feed any engine
computation and are not modelled, only the net deltas and warnings. -/
structure ProductionReport where
  playerId : String
  turn : ℕ
  netResources : ResourceMap
  warnings : List String

/-- Settlement tax income per tier (the inline `tierIncome` record of
`EconomyEngine.simulate`; its `|| 0` default is unreachable as all five
tiers are keyed). -/
def tierIncome : SettlementTier → ℚ
  | .campfire => 2
  | .village => 10
  | .town => 25
  | .city => 50
  | .capital => 100

/-- `EconomyEngine.simulate`: pure preview aggregating, in order,
constructed-building production, owned-tile food yield, living-unit
upkeep, settlement tax and faction percentage bonuses on the running net,
then appending shortage warnings.  (The reproduction forecast entry of
step 4 only feeds the display `gains` list, not the net.) -/
def simulate (player : Player) (units : List UnitInstance)
    (buildings : List BuildingInstance)
    (settlements : List SettlementInstance) (playerTiles : List Tile)
    (turn : ℕ) : ProductionReport :=
  -- 1. building production (Object.entries filtered to positive amounts)
  let net1 : ResourceMap := buildings.foldl (fun net building =>
    if ¬ building.isConstructed then net
    else match BUILDING_TYPES building.typeId with
      | none => net
      | some bType => resourceKinds.foldl (fun n k =>
          let amount := bType.production k
          if 0 < amount then setRes n k (n k + amount) else n) net)
    emptyResources
  -- 2. terrain production on owned tiles
  let net2 : ResourceMap := playerTiles.foldl (fun net tile =>
    let tDef := TERRAIN_DEFS tile.terrain
    if tDef.foodProduction ≤ 0 then net
    else setRes net ResourceType.grain (net ResourceType.grain + tDef.foodProduction)) net1
  -- 3. unit upkeep
  let aliveUnits := units.filter (fun u => u.isAlive)
  let net3 : ResourceMap := aliveUnits.foldl (fun net unit =>
    match UNIT_TYPES unit.typeId with
    | none => net
    | some uType => resourceKinds.foldl (fun n k =>
        let amount := uType.upkeep k
        if 0 < amount then setRes n k (n k - amount) else n) net) net2
  -- 5. settlement tax income
  let settlementDricks := settlements.foldl
    (fun sum s => sum + tierIncome s.tier) 0
  let net5 : ResourceMap := if 0 < settlementDricks then
      setRes net3 ResourceType.dricks (net3 ResourceType.dricks + settlementDricks)
    else net3
  -- 6. faction bonuses on the running net (order-sensitive)
  let net6 : ResourceMap := match FACTIONS player.factionId with
    | none => net5
    | some faction => faction.bonuses.foldl (fun net bonus =>
        if bonus.kind = FactionBonusKind.economic then
          let netA := if bonus.description.containsSubstr "Dricks" then
              let dricksBonus := jsRound (net ResourceType.dricks * bonus.value)
              if 0 < dricksBonus then
                setRes net ResourceType.dricks (net ResourceType.dricks + dricksBonus)
              else net
            else net
          if bonus.description.containsSubstr "nourriture" then
            let foodBonus := jsRound (netA ResourceType.grain * bonus.value)
            if 0 < foodBonus then
              setRes netA ResourceType.grain (netA ResourceType.grain + foodBonus)
            else netA
          else netA
        else net) net5
  -- 7. warnings
  let warnings :=
    (if net6 ResourceType.grain < 0 then
      let deficit := -(net6 ResourceType.grain)
      [s!"⚠️ Pénurie de grain ! Déficit de {deficit} grain. Les unités risquent de déserter."]
     else []) ++
    (if net6 ResourceType.dricks < 0 then
      let missing := -(net6 ResourceType.dricks)
      [s!"⚠️ Trésorerie en déficit ! {missing} Dricks manquants."]
     else [])
  { playerId := player.id, turn := turn, netResources := net6,
    warnings := warnings }

/-- `EconomyEngine.executeProduction`: copy the pool, add the report net
deltas, then clamp every resource kind at 0.  The `desertedUnits` output
is declared but never populated in the source (§9 known gap). -/
def executeProduction (player : Player) (report : ProductionReport) :
    ResourceMap × List String :=
  let newResources := addResources player.resources report.netResources
  let clamped : ResourceMap := fun k =>
    if newResources k < 0 then 0 else newResources k
  (clamped, [])

/-- `EconomyEngine.processReproduction`: roll per living, reproduction-
capable unit; a success spawns a copy at the parent tile with full base
hp, already flagged moved/acted.  `roll i` is the `Math.random()` draw
for the unit at position `i`; `mkId i` the generated id. -/
def processReproduction (roll : ℕ → ℚ)
    (mkId : ℕ → String) (units : List UnitInstance) (turn : ℕ) :
    List UnitInstance :=
  (units.enum.filterMap (fun e =>
    let unit := e.2
    if ¬ unit.isAlive then none
    else match UNIT_TYPES unit.typeId with
      | none => none
      | some uType =>
        if ¬ uType.canReproduce then none
        else if roll e.1 < uType.reproductionChance then
          some { id := mkId e.1, typeId := unit.typeId,
                 ownerId := unit.ownerId, x := unit.x, y := unit.y,
                 currentHp := (uType.stats.hp : ℤ), isAlive := true,
                 hasMoved := true, hasActed := true, armyId := none,
                 createdTurn := turn }
        else none))

-- ─── Turn engine (TurnEngine.ts) ─────────────────────────────────────────

/-- The game header fields the turn pipeline reads. -/
structure Game where
  currentTurn : ℕ
  turnsPerMonth : ℕ
  deriving DecidableEq, Repr

/-- A submitted turn action: the tagged payload variants the pipeline
consumes (`move` and `build`; other kinds pass through untouched). -/
inductive ActionData where
  | move (unitId : String) (targetX targetY : ℤ)
  | build (buildingTypeId : String) (x y : ℤ) (sacrificeUnitId : Option String)
  | other
  deriving DecidableEq, Repr

/-- A turn action with its submitting player. -/
structure TurnAction where
  playerId : String
  data : ActionData
  deriving DecidableEq, Repr

/-- Output of one turn resolution (`TurnResolutionResult`). -/
structure TurnResolutionResult where
  combatLogs : List CombatLog
  newUnits : List UnitInstance
  updatedUnits : List UnitInstance
  updatedPlayers : List Player
  updatedBuildings : List BuildingInstance
  updatedSettlements : List SettlementInstance
  messages : List String

/-- Replace the first list element satisfying the test (the functional
rendering of mutating the object found by `Array.find`). -/
def replaceFirstBy : List α → (α → Bool) → α → List α
  | [], _, _ => []
  | x :: xs, p, a => if p x then a :: xs else x :: replaceFirstBy xs p a

/-- `TurnEngine.getRelation` (private): pair lookup defaulting to
neutral.  Unlike the UnitManager helper it has no same-player
short-circuit. -/
def turnGetRelation (playerA playerB : String)
    (relations : List DiplomacyRelation) : DiplomacyStatus :=
  match relations.find? (fun r =>
    (r.playerA = playerA ∧ r.playerB = playerB) ∨
    (r.playerA = playerB ∧ r.playerB = playerA)) with
  | some rel => rel.status
  | none => .neutral

/-- `TurnEngine.findCombatPairs`: every unordered pair of living,
differently-owned units within Chebyshev distance 1 whose relation is
enemy, considered once via a sorted-id pair key; returned as id pairs in
discovery order. -/
def findCombatPairs (units : List UnitInstance)
    (relations : List DiplomacyRelation) :
    List (String × String) :=
  let aliveUnits := units.filter (fun u => u.isAlive)
  (aliveUnits.foldl (fun st unit =>
    aliveUnits.foldl (fun st other =>
      let (pairs, processed) := st
      if unit.id = other.id then st
      else if unit.ownerId = other.ownerId then st
      else
        let pairKey := if unit.id ≤ other.id then (unit.id, other.id)
                       else (other.id, unit.id)
        if processed.contains pairKey then st
        else if 1 < max (unit.x - other.x).natAbs (unit.y - other.y).natAbs then st
        else if turnGetRelation unit.ownerId other.ownerId relations = .enemy then
          (pairs ++ [(unit.id, other.id)], processed ++ [pairKey])
        else st) st)
    (([], []) : List (String × String) × List (String × String))).1

/-- Phase 1 of `resolveTurn`: apply each move action whose unit is alive
and owned by the submitting player, with no reachability re-validation. -/
def phase1Moves (actions : List TurnAction) (units : List UnitInstance) :
    List UnitInstance :=
  actions.foldl (fun us action =>
    match action.data with
    | .move unitId targetX targetY =>
      match us.find? (fun u => u.id = unitId ∧ u.isAlive) with
      | some unit =>
        if unit.ownerId = action.playerId then
          replaceFirstBy us (fun u => u.id = unitId ∧ u.isAlive)
            (moveUnit unit targetX targetY)
        else us
      | none => us
    | _ => us) units

/-- Phase 2 of `resolveTurn`: resolve and apply combat for each
precomputed pair in order (skipping pairs whose tiles are missing),
collecting the logs; an unknown unit type propagates as an error. -/
def phase2Combat (rng : ℕ → ℚ × ℚ)
    (grid : TileGrid) (turn : ℕ) (pairs : List (String × String))
    (units : List UnitInstance) :
    Except String (List UnitInstance × List CombatLog) :=
  pairs.enum.foldlM (fun st ip => do
    let (us, logs) := st
    let (i, p) := ip
    match us.find? (fun u => u.id = p.1), us.find? (fun u => u.id = p.2) with
    | some attacker, some defender =>
      match grid.getTile attacker.x attacker.y,
            grid.getTile defender.x defender.y with
      | some aTile, some dTile => do
        let result ← simpleResolver rng i attacker defender
          aTile dTile turn
        let applied := applyCombatResult attacker defender result
        let us1 := replaceFirstBy us (fun u => u.id = p.1) applied.1
        let us2 := replaceFirstBy us1 (fun u => u.id = p.2) applied.2
        pure (us2, logs ++ [result.log])
      | _, _ => pure st
    | _, _ => pure st) (units, [])

/-- Phase 3 of `resolveTurn`: create an unconstructed building with a
fixed 2-turn countdown per build action (`mkId i` stands for the
generated id), killing the sacrificed unit when one is named. -/
def phase3Build (mkId : ℕ → String) (currentTurn : ℕ)
    (actions : List TurnAction) (buildings : List BuildingInstance)
    (units : List UnitInstance) :
    List BuildingInstance × List UnitInstance :=
  let buildActions := actions.filter (fun a =>
    match a.data with | .build _ _ _ _ => true | _ => false)
  buildActions.enum.foldl (fun st ia =>
    let (bs, us) := st
    match ia.2.data with
    | .build buildingTypeId x y sacrificeUnitId =>
      let building : BuildingInstance :=
        { id := mkId ia.1, typeId := buildingTypeId,
          ownerId := ia.2.playerId, x := x, y := y,
          isConstructed := false, turnsRemaining := 2,
          createdTurn := currentTurn }
      let bs1 := bs ++ [building]
      let us1 := match sacrificeUnitId with
        | some sid =>
          match us.find? (fun u => u.id = sid) with
          | some unit => replaceFirstBy us (fun u => u.id = sid)
              { unit with isAlive := false, currentHp := 0 }
          | none => us
        | none => us
      (bs1, us1)
    | _ => st) (buildings, units)

/-- Phase 4 of `resolveTurn`: advance construction counters, completing
at zero with a message. -/
def phase4Construction (buildings : List BuildingInstance) :
    List BuildingInstance × List String :=
  buildings.foldl (fun st building =>
    if ¬ building.isConstructed ∧ 0 < building.turnsRemaining then
      let b1 := { building with turnsRemaining := building.turnsRemaining - 1 }
      if b1.turnsRemaining ≤ 0 then
        (st.1 ++ [{ b1 with isConstructed := true }],
         st.2 ++ ["Bâtiment construit !"])
      else (st.1 ++ [b1], st.2)
    else (st.1 ++ [building], st.2)) ([], [])

/-- Phase 5 of `resolveTurn`: advance settlement upgrade counters,
completing at zero with a message. -/
def phase5Upgrades (settlements : List SettlementInstance) :
    List SettlementInstance × List String :=
  settlements.foldl (fun st settlement =>
    if settlement.isUpgrading ∧ 0 < settlement.upgradeTurnsRemaining then
      let s1 := { settlement with
        upgradeTurnsRemaining := settlement.upgradeTurnsRemaining - 1 }
      if s1.upgradeTurnsRemaining ≤ 0 then
        let n := s1.name
        (st.1 ++ [{ s1 with isUpgrading := false }],
         st.2 ++ [s!"{n} a été amélioré !"])
      else (st.1 ++ [s1], st.2)
    else (st.1 ++ [settlement], st.2)) ([], [])

/-- Phase 6 of `resolveTurn` (monthly turns only): per player, simulate
and execute production, roll reproduction, and surface warnings as
player-scoped messages.  `repRoll p i` and `repId p i` are the
reproduction draw and generated id for unit `i` of player index `p`. -/
def phase6Economy (repRoll : ℕ → ℕ → ℚ) (repId : ℕ → ℕ → String)
    (grid : TileGrid) (currentTurn : ℕ) (units : List UnitInstance)
    (buildings : List BuildingInstance)
    (settlements : List SettlementInstance) (players : List Player) :
    List Player × List UnitInstance × List String :=
  players.enum.foldl (fun st ip =>
    let (ps, newUs, msgs) := st
    let player := ip.2
    let playerUnits := units.filter (fun u =>
      u.ownerId = player.id ∧ u.isAlive)
    let playerBuildings := buildings.filter (fun b => b.ownerId = player.id)
    let playerSettlements := settlements.filter (fun s =>
      s.ownerId = player.id)
    let playerTiles := grid.getPlayerTiles player.id
    let report := simulate player
      playerUnits playerBuildings playerSettlements playerTiles currentTurn
    let produced := executeProduction player report
    let player1 := { player with resources := produced.1 }
    let born := processReproduction (repRoll ip.1) (repId ip.1)
      playerUnits currentTurn
    let pname := player.name
    let warnMsgs := report.warnings.map (fun w => s!"[{pname}] {w}")
    (ps ++ [player1], newUs ++ born, msgs ++ warnMsgs)) ([], [], [])

/-- `TurnEngine.resolveTurn`: the fixed seven-phase pipeline (movement,
auto-combat, build actions, construction tick, upgrade tick, monthly
economy, reset).  `armies` is accepted and unused exactly as in the
source.  Randomness and generated identifiers enter as explicit streams:
`combatRng` per combat pair, `repRoll`/`repId` per player and unit,
`buildId` per build action. -/
def resolveTurn (combatRng : ℕ → ℚ × ℚ) (repRoll : ℕ → ℕ → ℚ)
    (repId : ℕ → ℕ → String) (buildId : ℕ → String) (game : Game)
    (players : List Player) (units : List UnitInstance)
    (buildings : List BuildingInstance)
    (settlements : List SettlementInstance) (_armies : List Army)
    (actions : List TurnAction) (grid : TileGrid)
    (relations : List DiplomacyRelation) :
    Except String TurnResolutionResult := do
  -- Phase 1: movement
  let units1 := phase1Moves actions units
  -- Phase 2: auto-combat
  let combatPairs := findCombatPairs units1 relations
  let combat ← phase2Combat combatRng grid game.currentTurn
    combatPairs units1
  let units2 := combat.1
  -- Phase 3: build actions
  let built := phase3Build buildId game.currentTurn actions buildings units2
  let buildings3 := built.1
  let units3 := built.2
  -- Phase 4: construction tick
  let constructed := phase4Construction buildings3
  -- Phase 5: settlement upgrade tick
  let upgraded := phase5Upgrades settlements
  -- Phase 6: monthly economy and reproduction
  let isMonthlyTurn := 0 < game.currentTurn ∧
    game.currentTurn % game.turnsPerMonth = 0
  let economy := if isMonthlyTurn then
      phase6Economy repRoll repId grid
        game.currentTurn units3 constructed.1 upgraded.1 players
    else (players, [], [])
  -- Phase 7: reset for next turn
  let units7 := resetUnitsForTurn units3
  let players7 := economy.1.map (fun p => { p with turnPlayed := false })
  pure
    { combatLogs := combat.2,
      newUnits := economy.2.1,
      updatedUnits := units7,
      updatedPlayers := players7,
      updatedBuildings := constructed.1,
      updatedSettlements := upgraded.1,
      messages := constructed.2 ++ upgraded.2 ++ economy.2.2 }


-- ─── Test fixtures used by the concrete witnesses below ──────────────────

/-- The `UNIT_TYPES` entry for the militia type, spelled out for the
concrete witnesses (`UNIT_TYPES "militia"` returns exactly this value). -/
def militiaType : UnitType :=
  { id := "militia", name := "Milicien", nameEn := "Militia",
    category := .military,
    stats := { hp := 15, attack := 3, defense := 3,
               movement := 3, range := 1, sight := 2 },
    cost := mkRes [(.dricks, 20), (.grain, 5)],
    upkeep := mkRes [(.grain, 1), (.dricks, 1)],
    canReproduce := false, reproductionChance := 0,
    sacrificeForBuilding := false, abilities := [],
    requiredBuilding := some "barracks", spriteKey := "unit_militia",
    description := "Combattant basique, bon marché mais faible." }

/-- A plain grassland tile at the origin. -/
def samplePlainTile : Tile :=
  { x := 0, y := 0, terrain := .grassland, river := false, road := false,
    ownerId := none }

/-- A living militia unit with the given id, owner and hit points. -/
def sampleUnit (id owner : String) (hp : ℤ) : UnitInstance :=
  { id := id, typeId := "militia", ownerId := owner, x := 0, y := 0,
    currentHp := hp, isAlive := true, hasMoved := false, hasActed := false,
    armyId := none, createdTurn := 0 }

/-- The combat result of `sampleUnit "a" "P" 10` attacking
`sampleUnit "d" "Q" 1` (two militia) on plain grassland tiles with both
draws at `1/2` (attack roll factor 1): damage to defender
`max 1 round(3 - 1.5) = 2`, counter damage `max 0 round(2.1 - 1.5) = 1`. -/
def sampleCombatRes : CombatResult :=
  { attackerDamage := 1, defenderDamage := 2,
    attackerSurvived := true, defenderSurvived := false,
    log := { turn := 1, attackerId := "P", defenderId := "Q",
             attackerUnitId := "a", defenderUnitId := "d",
             attackerDamage := 1, defenderDamage := 2,
             attackerSurvived := true, defenderSurvived := false,
             terrainBonus := 1 } }

/-- Decidable equality for `Except` values, used by concrete witnesses. -/
instance {ε α : Type} [DecidableEq ε] [DecidableEq α] :
    DecidableEq (Except ε α) := fun a b =>
  match a, b with
  | .ok a, .ok b => decidable_of_iff (a = b) (by simp)
  | .error a, .error b => decidable_of_iff (a = b) (by simp)
  | .ok _, .error _ => isFalse (by simp)
  | .error _, .ok _ => isFalse (by simp)

-- ─── Shared combat lemmas ────────────────────────────────────────────────

/-- Anatomy of a successful `resolve`: damage bounds and the consistency
of the survival flags with the projected post-damage hit points. -/
theorem resolve_ok_spec
    {attacker defender : UnitInstance} {aTile dTile : Tile} {turn : ℕ}
    {u1 u2 : ℚ} {res : CombatResult}
    (h : SimpleCombatResolver.resolve attacker defender aTile
      dTile turn u1 u2 = Except.ok res) :
    1 ≤ res.defenderDamage ∧ 0 ≤ res.attackerDamage ∧
    res.attackerSurvived = decide (0 < attacker.currentHp - res.attackerDamage) ∧
    res.defenderSurvived = decide (0 < defender.currentHp - res.defenderDamage) := by
  unfold SimpleCombatResolver.resolve at h
  cases hA : UNIT_TYPES attacker.typeId with
  | none => rw [hA] at h; cases hD : UNIT_TYPES defender.typeId <;>
      rw [hD] at h <;> exact absurd h (by simp)
  | some attackerType =>
    cases hD : UNIT_TYPES defender.typeId with
    | none => rw [hA, hD] at h; exact absurd h (by simp)
    | some defenderType =>
      rw [hA, hD] at h
      simp only [Except.ok.injEq] at h
      subst h
      refine ⟨le_max_left _ _, ?_, ?_, ?_⟩
      · dsimp only
        split
        · exact le_max_left _ _
        · exact le_refl _
      · simp [gt_iff_lt]
      · simp [gt_iff_lt]

/-- After `applyCombatResult` on a result whose survival flags agree with
the projected hit points, each side ends with non-negative hit points,
and a side flagged alive has strictly positive hit points. -/
theorem applyCombatResult_hp_clamped {attacker defender : UnitInstance}
    {res : CombatResult}
    (hA : res.attackerSurvived = decide (0 < attacker.currentHp - res.attackerDamage))
    (hD : res.defenderSurvived = decide (0 < defender.currentHp - res.defenderDamage)) :
    (0 ≤ (applyCombatResult attacker defender res).1.currentHp ∧
     0 ≤ (applyCombatResult attacker defender res).2.currentHp) ∧
    ((applyCombatResult attacker defender res).1.isAlive = true →
      0 < (applyCombatResult attacker defender res).1.currentHp) ∧
    ((applyCombatResult attacker defender res).2.isAlive = true →
      0 < (applyCombatResult attacker defender res).2.currentHp) := by
  unfold applyCombatResult
  rw [hA, hD]
  by_cases hA0 : 0 < attacker.currentHp - res.attackerDamage <;>
    by_cases hD0 : 0 < defender.currentHp - res.defenderDamage <;>
    simp [hA0, hD0] <;> omega

-- ─── C2: single-encounter damage bounds and hp clamping ──────────────────

/-- C2: for every attacker-vs-defender encounter that resolves (both unit
types known), the result satisfies `damageToDefender ≥ 1` and
`damageToAttacker ≥ 0`, and applying the result immediately to the same
two units leaves neither with negative hit points. -/
theorem resolve_damage_bounds_and_clamp
    (attacker defender : UnitInstance) (aTile dTile : Tile) (turn : ℕ)
    (u1 u2 : ℚ) (res : CombatResult)
    (h : SimpleCombatResolver.resolve attacker defender aTile
      dTile turn u1 u2 = Except.ok res) :
    1 ≤ res.defenderDamage ∧ 0 ≤ res.attackerDamage ∧
    0 ≤ (applyCombatResult attacker defender res).1.currentHp ∧
    0 ≤ (applyCombatResult attacker defender res).2.currentHp := by
  obtain ⟨h1, h2, h3, h4⟩ := resolve_ok_spec h
  obtain ⟨⟨c1, c2⟩, _, _⟩ := applyCombatResult_hp_clamped h3 h4
  exact ⟨h1, h2, c1, c2⟩

/-- Witness for C2 at a concrete encounter. -/
theorem resolve_damage_bounds_and_clamp_witness :
    1 ≤ sampleCombatRes.defenderDamage ∧ 0 ≤ sampleCombatRes.attackerDamage ∧
    0 ≤ (applyCombatResult (sampleUnit "a" "P" 10) (sampleUnit "d" "Q" 1)
      sampleCombatRes).1.currentHp ∧
    0 ≤ (applyCombatResult (sampleUnit "a" "P" 10) (sampleUnit "d" "Q" 1)
      sampleCombatRes).2.currentHp :=
  resolve_damage_bounds_and_clamp (sampleUnit "a" "P" 10)
    (sampleUnit "d" "Q" 1) samplePlainTile samplePlainTile 1 (1/2) (1/2)
    sampleCombatRes (by with_unfolding_all rfl)

-- ─── C5: shrink rejects non-positive dimensions by throwing ──────────────

/-- C5 (counterexample): shrinking a 1×1 grid north by 1 throws
`Error('Cannot shrink map below 1x1')` — the rejection is an exception,
not a structured success-flag result as the claim states. -/
theorem shrink_below_1x1_throws_counterexample :
    TileGrid.shrink { width := 1, height := 1, tiles := [] }
      TileGrid.Direction.north 1 = Except.error "Cannot shrink map below 1x1" := by
  rfl

/-- C5 (amended): for every grid and shrink request whose resulting width
or height would be non-positive, `shrink` throws
`Error('Cannot shrink map below 1x1')` (rather than reporting a
structured non-throwing result); the input grid value itself is never
mutated — the method only builds a new grid. -/
theorem shrink_nonpositive_throws (g : TileGrid)
    (direction : TileGrid.Direction) (amount : ℤ)
    (h : (match direction with
          | .east => g.width - amount
          | .west => g.width - amount
          | _ => g.width) ≤ 0 ∨
         (match direction with
          | .north => g.height - amount
          | .south => g.height - amount
          | _ => g.height) ≤ 0) :
    g.shrink direction amount = Except.error "Cannot shrink map below 1x1" := by
  unfold TileGrid.shrink
  cases direction <;> simp only [] <;> rw [if_pos] <;> simpa using h

/-- Witness for the amended C5 at a concrete grid. -/
theorem shrink_nonpositive_throws_witness :
    ((1 : ℤ) - 2 ≤ 0) ∧
    TileGrid.shrink { width := 5, height := 1, tiles := [] }
      TileGrid.Direction.south 2 = Except.error "Cannot shrink map below 1x1" :=
  ⟨by decide,
   shrink_nonpositive_throws _ _ _ (Or.inr (by decide))⟩

-- ─── C6: production execution clamps the pool at zero ────────────────────

/-- C6: the resource map returned by `executeProduction` is the pool plus
the report net deltas with every resource entry clamped to a minimum of
zero, hence no entry is negative. -/
theorem executeProduction_clamps (player : Player)
    (report : ProductionReport) (k : ResourceType) :
    (executeProduction player report).1 k =
      max (player.resources k + report.netResources k) 0 ∧
    0 ≤ (executeProduction player report).1 k := by
  unfold executeProduction addResources
  dsimp only
  constructor
  · rcases lt_or_le (player.resources k + report.netResources k) 0 with hlt | hle
    · rw [if_pos hlt, max_eq_right hlt.le]
    · rw [if_neg (not_lt.mpr hle), max_eq_left hle]
  · split
    · exact le_refl 0
    · exact le_of_not_lt (by assumption)


-- ─── C4: createArmy filtering behavior ───────────────────────────────────

/-- A dead militia unit owned by player P. -/
def sampleDeadUnit : UnitInstance :=
  { sampleUnit "a1" "P" 10 with isAlive := false }

/-- C4 (counterexample): `createArmy` named with a dead unit does not
fail — it silently drops the dead unit and returns an army whose members
are not the named units, contradicting the claim that the call returns no
army when any named unit is dead. -/
theorem createArmy_dead_named_counterexample :
    sampleDeadUnit.isAlive = false ∧
    (createArmy "a" "P" ["a0", "a1"]
      [sampleUnit "a0" "P" 10, sampleDeadUnit] "AR").isSome = true ∧
    (createArmy "a" "P" ["a0", "a1"]
      [sampleUnit "a0" "P" 10, sampleDeadUnit] "AR").map
      (fun r => r.1.unitIds) = some ["a0"] := by
  decide

/-- C4 (amended): `createArmy` considers only the named units that are
alive and owned by the requesting player; it fails (returns no army) if
none remain or if the remaining ones are not co-located; on success the
army id is the generated id, its members are exactly the surviving named
units, and every named, alive, owned unit in the returned collection
carries the new army back-reference. -/
theorem createArmy_spec (name ownerId : String) (unitIds : List String)
    (units : List UnitInstance) (newId : String) :
    ((createArmy name ownerId unitIds units newId = none) ↔
      selectedFor ownerId unitIds units = [] ∨
      ∃ u ∈ selectedFor ownerId unitIds units,
        ∃ v ∈ selectedFor ownerId unitIds units,
          ¬(u.x = v.x ∧ u.y = v.y)) ∧
    (∀ army units',
      createArmy name ownerId unitIds units newId = some (army, units') →
      army.id = newId ∧ army.ownerId = ownerId ∧ army.name = name ∧
      army.unitIds = (selectedFor ownerId unitIds units).map (fun u => u.id) ∧
      ∀ u' ∈ units',
        (unitIds.contains u'.id ∧ u'.isAlive = true ∧ u'.ownerId = ownerId) →
        u'.armyId = some newId) := by
  unfold createArmy
  cases hsel : selectedFor ownerId unitIds units with
  | nil =>
    dsimp only
    constructor
    · simp
    · intro army units' h
      simp at h
  | cons u0 rest =>
    dsimp only
    by_cases hall : ((u0 :: rest).all
        (fun u => decide (u.x = u0.x ∧ u.y = u0.y))) = true
    · rw [if_neg (by simpa using hall)]
      constructor
      · constructor
        · intro h; simp at h
        · rintro (h | ⟨u, hu, v, hv, hne⟩)
          · simp at h
          · rw [List.all_eq_true] at hall
            have h1 := hall u hu
            have h2 := hall v hv
            simp only [decide_eq_true_eq] at h1 h2
            exact absurd ⟨h1.1.trans h2.1.symm, h1.2.trans h2.2.symm⟩ hne
      · intro army units' h
        simp only [Option.some.injEq, Prod.mk.injEq] at h
        obtain ⟨ha, hu⟩ := h
        subst ha
        subst hu
        refine ⟨rfl, rfl, rfl, rfl, ?_⟩
        intro u' hu' hcond
        rw [List.mem_map] at hu'
        obtain ⟨u, hmem, rfl⟩ := hu'
        by_cases hc : (unitIds.contains u.id = true ∧ u.isAlive = true ∧
          u.ownerId = ownerId)
        · simp only [if_pos hc]
        · rw [if_neg hc] at hcond ⊢
          exact absurd hcond hc
    · rw [if_pos (by simpa using hall)]
      constructor
      · constructor
        · intro _
          right
          rw [List.all_eq_true] at hall
          push_neg at hall
          obtain ⟨u, hu, hne⟩ := hall
          exact ⟨u, hu, u0, by simp, by simpa using hne⟩
        · intro _; rfl
      · intro army units' h
        simp at h

-- ─── C3: army-vs-army pairing ────────────────────────────────────────────

/-- Modelled from the claim C3 wording (for comparison with the source):
each encounter pairs the next surviving attacker with the defender at the
attacker index modulo the CURRENT count of surviving defenders — the
modulus shrinks as defenders die — applying each result immediately and
stopping once the defending side has no survivors. -/
def claimArmyCombatGo (resolver : Resolver) (aTile dTile : Tile)
    (turn : ℕ) :
    List (ℕ × UnitInstance) → List UnitInstance → List UnitInstance →
    List CombatResult →
    Except String (List CombatResult × List UnitInstance × List UnitInstance)
  | [], done, defs, results => .ok (results, done.reverse, defs)
  | (i, att) :: rest, done, defs, results =>
    let survivors := defs.filter (fun u => u.isAlive)
    match survivors[(i % survivors.length)]? with
    | none => .ok (results, done.reverse ++ att :: rest.map (fun e => e.2), defs)
    | some defender =>
      match resolver i att defender aTile dTile turn with
      | .error e => .error e
      | .ok result =>
        let applied := applyCombatResult att defender result
        let defs1 := replaceFirstBy defs (fun u => u.id = defender.id) applied.2
        claimArmyCombatGo resolver aTile dTile turn rest (applied.1 :: done)
          defs1 (results ++ [result])

/-- Claim-side army resolution (shrinking modulus), entry point. -/
def claimArmyCombat (resolver : Resolver)
    (attackerUnits defenderUnits : List UnitInstance)
    (attackerTile defenderTile : Tile) (turn : ℕ) :
    Except String (List CombatResult × List UnitInstance × List UnitInstance) :=
  claimArmyCombatGo resolver attackerTile defenderTile turn
    (attackerUnits.filter (fun u => u.isAlive)).enum []
    (defenderUnits.filter (fun u => u.isAlive)) []

/-- Shared random stream for the combat fixtures: every draw is 1/2. -/
def sampleRng : ℕ → ℚ × ℚ := fun _ => (1/2, 1/2)

/-- Three attacking militia. -/
def sampleAttackers : List UnitInstance :=
  [sampleUnit "a0" "P" 10, sampleUnit "a1" "P" 10, sampleUnit "a2" "P" 10]

/-- Two defending militia, the first nearly dead, the second huge. -/
def sampleDefenders : List UnitInstance :=
  [sampleUnit "d0" "Q" 1, sampleUnit "d1" "Q" 1000]

/-- C3 (counterexample): with three attackers and two defenders of which
only the first dies, the source `resolveArmyCombat` executes 2 encounters
(the third attacker is paired with the dead first defender by the fixed
initial modulus and skipped), while the claimed shrinking-modulus
round-robin executes 3 — and a defender is still alive, so early stop
does not explain the missing encounter. -/
theorem resolveArmyCombat_modulus_counterexample :
    (resolveArmyCombat (simpleResolver sampleRng)
      sampleAttackers sampleDefenders samplePlainTile samplePlainTile 1).map
      (fun r => r.1.length) = .ok 2 ∧
    (claimArmyCombat (simpleResolver sampleRng)
      sampleAttackers sampleDefenders samplePlainTile samplePlainTile 1).map
      (fun r => r.1.length) = .ok 3 ∧
    (resolveArmyCombat (simpleResolver sampleRng)
      sampleAttackers sampleDefenders samplePlainTile samplePlainTile 1).map
      (fun r => (r.2.2.filter (fun u => u.isAlive)).length) = .ok 1 :=
  ⟨by with_unfolding_all rfl, by with_unfolding_all rfl,
   by with_unfolding_all rfl⟩

/-- The amended C3 algorithm, written directly: walk the initially-alive
attackers with a running index `i`; the defender slot is `i` modulo the
count of defenders alive at the START of resolution (the modulus does not
shrink); an encounter whose selected defender has already died is
skipped; each executed result is applied immediately; resolution stops
early as soon as no defender in the array remains alive. -/
def amendedArmyGo (resolver : Resolver) (aTile dTile : Tile) (turn : ℕ)
    (m : ℕ) :
    ℕ → List UnitInstance → List UnitInstance →
    Except String (List CombatResult × List UnitInstance × List UnitInstance)
  | _, [], defs => .ok ([], [], defs)
  | i, att :: rest, defs =>
    if m = 0 then
      (amendedArmyGo resolver aTile dTile turn m (i + 1) rest defs).map
        (fun out => (out.1, att :: out.2.1, out.2.2))
    else
      match defs[(i % m)]? with
      | none =>
        (amendedArmyGo resolver aTile dTile turn m (i + 1) rest defs).map
          (fun out => (out.1, att :: out.2.1, out.2.2))
      | some defender =>
        if defender.isAlive then
          match resolver i att defender aTile dTile turn with
          | .error e => .error e
          | .ok result =>
            let applied := applyCombatResult att defender result
            let defs1 := defs.set (i % m) applied.2
            if defs1.all (fun u => !u.isAlive) then
              .ok ([result], applied.1 :: rest, defs1)
            else
              (amendedArmyGo resolver aTile dTile turn m (i + 1) rest
                defs1).map
                (fun out => (result :: out.1, applied.1 :: out.2.1, out.2.2))
        else
          (amendedArmyGo resolver aTile dTile turn m (i + 1) rest defs).map
            (fun out => (out.1, att :: out.2.1, out.2.2))

/-- Entry point of the amended C3 algorithm. -/
def amendedArmyCombat (resolver : Resolver)
    (attackerUnits defenderUnits : List UnitInstance)
    (attackerTile defenderTile : Tile) (turn : ℕ) :
    Except String (List CombatResult × List UnitInstance × List UnitInstance) :=
  amendedArmyGo resolver attackerTile defenderTile turn
    (defenderUnits.filter (fun u => u.isAlive)).length 0
    (attackerUnits.filter (fun u => u.isAlive))
    (defenderUnits.filter (fun u => u.isAlive))

/-- A list has no living member exactly when filtering for the living
leaves nothing. -/
theorem filter_alive_isEmpty (l : List UnitInstance) :
    (l.filter (fun u => u.isAlive)).isEmpty = l.all (fun u => !u.isAlive) := by
  induction l with
  | nil => rfl
  | cons h t ih =>
    by_cases hh : h.isAlive <;> simp [List.filter_cons, List.all_cons, hh, ih]

/-- Enumeration from `n` projects back to the plain list. -/
theorem enumFrom_map_snd_eq (n : ℕ) (l : List α) :
    (List.enumFrom n l).map (fun e => e.2) = l := by
  induction l generalizing n with
  | nil => rfl
  | cons h t ih => simp [List.enumFrom, ih]

/-- The source loop agrees with the amended algorithm, relating the
enumerated-list accumulator style of the embedding to the direct
recursion of the amended description. -/
theorem armyCombatGo_eq_amended (resolver : Resolver) (aTile dTile : Tile)
    (turn : ℕ) (m : ℕ) (atts : List UnitInstance) :
    ∀ (i : ℕ) (done defs : List UnitInstance) (results : List CombatResult),
    armyCombatGo resolver aTile dTile turn m (List.enumFrom i atts) done
      defs results =
    (amendedArmyGo resolver aTile dTile turn m i atts defs).map
      (fun out => (results ++ out.1, done.reverse ++ out.2.1, out.2.2)) := by
  induction atts with
  | nil =>
    intro i done defs results
    simp [armyCombatGo, amendedArmyGo, Except.map]
  | cons att rest ih =>
    intro i done defs results
    rw [List.enumFrom]
    rw [armyCombatGo, amendedArmyGo]
    by_cases hm : m = 0
    · rw [if_pos hm, if_pos hm, ih]
      cases amendedArmyGo resolver aTile dTile turn m (i + 1) rest defs with
      | error e => rfl
      | ok out => simp [Except.map]
    · rw [if_neg hm, if_neg hm]
      cases hd : defs[(i % m)]? with
      | none =>
        dsimp only
        rw [ih]
        cases amendedArmyGo resolver aTile dTile turn m (i + 1) rest defs with
        | error e => rfl
        | ok out => simp [Except.map]
      | some defender =>
        dsimp only
        by_cases ha : defender.isAlive
        · rw [if_neg (by simp [ha]), if_pos ha]
          cases hr : resolver i att defender aTile dTile turn with
          | error e => rfl
          | ok result =>
            simp only []
            rw [← filter_alive_isEmpty]
            by_cases hstop :
                ((defs.set (i % m) (applyCombatResult att defender result).2).filter
                  (fun u => u.isAlive)).isEmpty
            · rw [if_pos hstop, if_pos hstop]
              simp [Except.map, enumFrom_map_snd_eq]
            · rw [if_neg hstop, if_neg hstop, ih]
              cases amendedArmyGo resolver aTile dTile turn m (i + 1) rest
                  (defs.set (i % m) (applyCombatResult att defender result).2) with
              | error e => rfl
              | ok out => simp [Except.map]
        · rw [if_pos (by simp [ha]), if_neg ha, ih]
          cases amendedArmyGo resolver aTile dTile turn m (i + 1) rest defs with
          | error e => rfl
          | ok out => simp [Except.map]

/-- C3 (amended): `resolveArmyCombat` pairs each initially-alive attacker
with the defender at its index modulo the count of defenders alive at the
start of resolution (the modulus does not shrink); an encounter whose
selected defender has died is skipped; each executed encounter is applied
immediately before the next begins; and resolution stops early once the
defending side has no survivors. -/
theorem resolveArmyCombat_eq_amended (resolver : Resolver)
    (attackerUnits defenderUnits : List UnitInstance)
    (attackerTile defenderTile : Tile) (turn : ℕ) :
    resolveArmyCombat resolver attackerUnits defenderUnits attackerTile
      defenderTile turn =
    amendedArmyCombat resolver attackerUnits defenderUnits attackerTile
      defenderTile turn := by
  unfold resolveArmyCombat amendedArmyCombat
  dsimp only
  rw [show (attackerUnits.filter (fun u => u.isAlive)).enum =
    List.enumFrom 0 (attackerUnits.filter (fun u => u.isAlive)) from rfl]
  rw [armyCombatGo_eq_amended]
  cases amendedArmyGo resolver attackerTile defenderTile turn
      (defenderUnits.filter (fun u => u.isAlive)).length 0
      (attackerUnits.filter (fun u => u.isAlive))
      (defenderUnits.filter (fun u => u.isAlive)) with
  | error e => rfl
  | ok out => simp [Except.map]


/-- The army and unit list produced by a successful concrete
`createArmy` call. -/
def sampleArmyOut : Army × List UnitInstance :=
  match createArmy "a" "P" ["a0", "a1"]
      [sampleUnit "a0" "P" 10, sampleUnit "a1" "P" 10] "AR" with
  | some r => r
  | none => ({ id := "", ownerId := "", name := "", unitIds := [],
               x := 0, y := 0 }, [])

/-- Witness for the amended C4 at a concrete successful call. -/
theorem createArmy_spec_witness :
    sampleArmyOut.1.id = "AR" ∧ sampleArmyOut.1.ownerId = "P" ∧
    sampleArmyOut.1.name = "a" ∧
    sampleArmyOut.1.unitIds = (selectedFor "P" ["a0", "a1"]
      [sampleUnit "a0" "P" 10, sampleUnit "a1" "P" 10]).map (fun u => u.id) ∧
    ∀ u' ∈ sampleArmyOut.2,
      (["a0", "a1"].contains u'.id = true ∧ u'.isAlive = true ∧
        u'.ownerId = "P") →
      u'.armyId = some "AR" :=
  (createArmy_spec "a" "P" ["a0", "a1"]
    [sampleUnit "a0" "P" 10, sampleUnit "a1" "P" 10] "AR").2
    sampleArmyOut.1 sampleArmyOut.2 (by decide)


-- ─── Graph specification for the two searches ────────────────────────────

/-- One legal move step: `v` carries a present, in-bounds tile adjacent to
`u` (8-directional) whose terrain is passable for the domain. -/
def stepOK (grid : TileGrid) (isNaval : Bool) (u v : ℤ × ℤ) : Prop :=
  ∃ t ∈ grid.getNeighbors u.1 u.2,
    t.x = v.1 ∧ t.y = v.2 ∧ passableFor isNaval t = true

/-- The cost of entering the coordinate (the movement cost of its tile). -/
def coordCost (grid : TileGrid) (v : ℤ × ℤ) : ℕ :=
  match grid.getTile v.1 v.2 with
  | some t => grid.getMovementCost t
  | none => 0

/-- `Reaches grid isNaval start v c`: there is a legal movement path from
`start` to `v` of accumulated entry cost `c` (the start tile itself is
free and never checked, exactly as in both search loops). -/
inductive Reaches (grid : TileGrid) (isNaval : Bool) (start : ℤ × ℤ) :
    ℤ × ℤ → ℕ → Prop
  | start : Reaches grid isNaval start start 0
  | step {u v : ℤ × ℤ} {c : ℕ} : Reaches grid isNaval start u c →
      stepOK grid isNaval u v →
      Reaches grid isNaval start v (c + coordCost grid v)

/-- Tiles returned by `getNeighbors` really sit at their own coordinates
in the grid, in bounds. -/
theorem mem_getNeighbors {grid : TileGrid} {x y : ℤ} {t : Tile}
    (h : t ∈ grid.getNeighbors x y) :
    grid.getTile t.x t.y = some t ∧ grid.isInBounds t.x t.y = true ∧
    ∃ d ∈ TileGrid.neighborDirs, t.x = x + d.1 ∧ t.y = y + d.2 := by
  unfold TileGrid.getNeighbors at h
  rw [List.mem_filterMap] at h
  obtain ⟨d, hd, hf⟩ := h
  by_cases hb : grid.isInBounds (x + d.1) (y + d.2)
  · rw [if_pos hb] at hf
    have hxy := List.find?_some hf
    simp only [decide_eq_true_eq, Bool.and_eq_true] at hxy
    obtain ⟨hx, hy⟩ : t.x = x + d.1 ∧ t.y = y + d.2 := by
      constructor <;> simp_all
    refine ⟨?_, ?_, d, hd, hx, hy⟩
    · rw [hx, hy]; exact hf
    · rw [hx, hy]; exact hb
  · rw [if_neg hb] at hf
    cases hf

/-- The entry cost of a neighbor coordinate is its tile movement cost. -/
theorem coordCost_of_mem {grid : TileGrid} {x y : ℤ} {t : Tile}
    (h : t ∈ grid.getNeighbors x y) :
    coordCost grid (t.x, t.y) = grid.getMovementCost t := by
  unfold coordCost
  rw [(mem_getNeighbors h).1]

/-- Every terrain movement cost in the master table is at least 1. -/
theorem terrain_cost_pos (tt : TerrainType) :
    1 ≤ (TERRAIN_DEFS tt).movementCost := by
  cases tt <;> decide

/-- Tile movement cost is always at least 1 (roads override to 1, and
every terrain cost in the table is positive). -/
theorem getMovementCost_pos (grid : TileGrid) (t : Tile) :
    1 ≤ grid.getMovementCost t := by
  unfold TileGrid.getMovementCost
  split
  · exact le_refl 1
  · exact terrain_cost_pos t.terrain

/-- Entry costs along legal steps are at least 1. -/
theorem coordCost_pos {grid : TileGrid} {isNaval : Bool} {u v : ℤ × ℤ}
    (h : stepOK grid isNaval u v) : 1 ≤ coordCost grid v := by
  obtain ⟨t, ht, hx, hy, _⟩ := h
  have := coordCost_of_mem ht
  rw [hx, hy] at this
  rw [this]
  exact getMovementCost_pos grid t

/-- Legal steps move between Chebyshev-adjacent coordinates. -/
theorem stepOK_adjacent {grid : TileGrid} {isNaval : Bool} {u v : ℤ × ℤ}
    (h : stepOK grid isNaval u v) :
    (v.1 - u.1).natAbs ≤ 1 ∧ (v.2 - u.2).natAbs ≤ 1 := by
  obtain ⟨t, ht, hx, hy, _⟩ := h
  obtain ⟨_, _, d, hd, hdx, hdy⟩ := mem_getNeighbors ht
  have hd1 : d.1.natAbs ≤ 1 ∧ d.2.natAbs ≤ 1 := by
    fin_cases hd <;> decide
  rw [← hx, ← hy, hdx, hdy]
  constructor <;> [skip; skip] <;> omega

-- ─── Association-list lemmas for the coordinate→cost map ─────────────────

/-- Unfolding lemma: lookup in a cons cell. -/
theorem reachLookup_cons (e : (ℤ × ℤ) × ℕ) (es : List ((ℤ × ℤ) × ℕ))
    (k : ℤ × ℤ) :
    reachLookup (e :: es) k =
      if e.1 = k then some e.2 else reachLookup es k := by
  unfold reachLookup
  by_cases h : e.1 = k
  · rw [List.find?_cons_of_pos _ (by simpa using h), if_pos h]
    simp
  · rw [List.find?_cons_of_neg _ (by simpa using h), if_neg h]

/-- Lookup after setting the same key. -/
theorem reachLookup_reachSet_self (r : List ((ℤ × ℤ) × ℕ)) (k : ℤ × ℤ)
    (c : ℕ) : reachLookup (reachSet r k c) k = some c := by
  induction r with
  | nil => simp [reachSet, reachLookup_cons]
  | cons e es ih =>
    rw [reachSet]
    by_cases h : e.1 = k
    · rw [if_pos h, reachLookup_cons]
      simp
    · rw [if_neg h, reachLookup_cons, if_neg h]
      exact ih

/-- Lookup after setting a different key. -/
theorem reachLookup_reachSet_ne (r : List ((ℤ × ℤ) × ℕ)) {k k' : ℤ × ℤ}
    (c : ℕ) (hne : k' ≠ k) :
    reachLookup (reachSet r k c) k' = reachLookup r k' := by
  induction r with
  | nil =>
    rw [show reachSet [] k c = [(k, c)] from rfl, reachLookup_cons,
      if_neg (Ne.symm hne)]
  | cons e es ih =>
    rw [reachSet]
    by_cases h : e.1 = k
    · rw [if_pos h, reachLookup_cons, reachLookup_cons, if_neg (Ne.symm hne),
        if_neg (by rw [h]; exact Ne.symm hne)]
    · rw [if_neg h, reachLookup_cons, reachLookup_cons]
      by_cases h' : e.1 = k'
      · rw [if_pos h', if_pos h']
      · rw [if_neg h', if_neg h']
        exact ih

/-- A successful lookup comes from a member entry. -/
theorem reachLookup_mem {r : List ((ℤ × ℤ) × ℕ)} {k : ℤ × ℤ} {c : ℕ}
    (h : reachLookup r k = some c) : (k, c) ∈ r := by
  unfold reachLookup at h
  cases hf : r.find? (fun e => e.1 = k) with
  | none => rw [hf] at h; cases h
  | some e =>
    rw [hf] at h
    have hm := List.mem_of_find?_eq_some hf
    have hp := List.find?_some hf
    simp only [decide_eq_true_eq] at hp
    simp only [Option.map] at h
    cases h
    rw [← hp]
    simpa using hm

/-- A member entry yields a successful lookup at some value. -/
theorem reachLookup_isSome_of_mem {r : List ((ℤ × ℤ) × ℕ)} {e : (ℤ × ℤ) × ℕ}
    (h : e ∈ r) : ∃ c, reachLookup r e.1 = some c := by
  unfold reachLookup
  cases hf : r.find? (fun x => x.1 = e.1) with
  | none =>
    rw [List.find?_eq_none] at hf
    exact absurd (by simp : decide (e.1 = e.1) = true) (by simpa using hf e h)
  | some x => exact ⟨x.2, by simp⟩

/-- With pairwise-distinct keys, a member entry is exactly the lookup. -/
theorem reachLookup_eq_of_mem {r : List ((ℤ × ℤ) × ℕ)} {e : (ℤ × ℤ) × ℕ}
    (hnd : r.Pairwise (fun a b => a.1 ≠ b.1)) (h : e ∈ r) :
    reachLookup r e.1 = some e.2 := by
  induction r with
  | nil => cases h
  | cons a as ih =>
    rcases List.mem_cons.mp h with rfl | h
    · rw [reachLookup_cons, if_pos rfl]
    · have hne : a.1 ≠ e.1 := (List.pairwise_cons.mp hnd).1 e h
      rw [reachLookup_cons, if_neg hne]
      exact ih (List.pairwise_cons.mp hnd).2 h


-- ─── Invariants of the reachable-set loop ────────────────────────────────

/-- The in-bounds coordinate box of a grid. -/
def boxKeys (grid : TileGrid) : Finset (ℤ × ℤ) :=
  Finset.Icc 0 (grid.width - 1) ×ˢ Finset.Icc 0 (grid.height - 1)

/-- Neighbor tiles live inside the coordinate box. -/
theorem mem_boxKeys_of_neighbor {grid : TileGrid} {x y : ℤ} {t : Tile}
    (h : t ∈ grid.getNeighbors x y) : (t.x, t.y) ∈ boxKeys grid := by
  have hb := (mem_getNeighbors h).2.1
  unfold TileGrid.isInBounds at hb
  simp only [decide_eq_true_eq, Bool.and_eq_true] at hb
  simp only [boxKeys, Finset.mem_product, Finset.mem_Icc]
  omega

/-- The box has `width.toNat * height.toNat` coordinates. -/
theorem card_boxKeys (grid : TileGrid) :
    (boxKeys grid).card = grid.width.toNat * grid.height.toNat := by
  rw [boxKeys, Finset.card_product, Int.card_Icc, Int.card_Icc]
  congr 1 <;> omega

/-- Termination potential of the reachable-set loop: pending queue
entries, plus recorded costs, plus a budget-sized allowance for every
still-unrecorded box coordinate. -/
def reachPotential (grid : TileGrid) (M : ℕ) (r : List ((ℤ × ℤ) × ℕ))
    (q : List QueueEntry) : ℕ :=
  q.length + (r.map (fun e => e.2)).sum +
    (M + 1) * ((boxKeys grid).filter (fun k => reachLookup r k = none)).card

/-- Membership in an upsert result: the new entry or an old entry. -/
theorem mem_reachSet {r : List ((ℤ × ℤ) × ℕ)} {k : ℤ × ℤ} {c : ℕ}
    {e : (ℤ × ℤ) × ℕ} (h : e ∈ reachSet r k c) : e = (k, c) ∨ e ∈ r := by
  induction r with
  | nil => simpa [reachSet] using h
  | cons f fs ih =>
    rw [reachSet] at h
    by_cases hfk : f.1 = k
    · rw [if_pos hfk] at h
      rcases List.mem_cons.mp h with rfl | h
      · exact Or.inl rfl
      · exact Or.inr (List.mem_cons_of_mem f h)
    · rw [if_neg hfk] at h
      rcases List.mem_cons.mp h with rfl | h
      · exact Or.inr (List.mem_cons_self _ _)
      · rcases ih h with h' | h'
        · exact Or.inl h'
        · exact Or.inr (List.mem_cons_of_mem f h')

/-- Distinct keys survive an upsert. -/
theorem reachSet_pairwise {r : List ((ℤ × ℤ) × ℕ)} (k : ℤ × ℤ) (c : ℕ)
    (h : r.Pairwise (fun a b => a.1 ≠ b.1)) :
    (reachSet r k c).Pairwise (fun a b => a.1 ≠ b.1) := by
  induction r with
  | nil => simp [reachSet]
  | cons e es ih =>
    obtain ⟨he, hes⟩ := List.pairwise_cons.mp h
    rw [reachSet]
    by_cases hek : e.1 = k
    · rw [if_pos hek, List.pairwise_cons]
      exact ⟨fun b hb => by rw [← hek]; exact he b hb, hes⟩
    · rw [if_neg hek, List.pairwise_cons]
      refine ⟨?_, ih hes⟩
      intro b hb
      rcases mem_reachSet hb with rfl | hb
      · simpa using hek
      · exact he b hb

/-- Setting a recorded key rebalances the recorded-cost sum exactly. -/
theorem sum_reachSet_recorded {r : List ((ℤ × ℤ) × ℕ)} {k : ℤ × ℤ}
    {existing : ℕ} (c : ℕ)
    (h : reachLookup r k = some existing) :
    ((reachSet r k c).map (fun e => e.2)).sum + existing =
      (r.map (fun e => e.2)).sum + c := by
  induction r with
  | nil => cases h
  | cons e es ih =>
    rw [reachLookup_cons] at h
    rw [reachSet]
    by_cases hek : e.1 = k
    · rw [if_pos hek] at h ⊢
      cases h
      simp [Nat.add_comm, Nat.add_left_comm]
    · rw [if_neg hek] at h ⊢
      have := ih h
      simp only [List.map_cons, List.sum_cons]
      omega

/-- Setting an unrecorded key appends its cost to the sum. -/
theorem sum_reachSet_new {r : List ((ℤ × ℤ) × ℕ)} {k : ℤ × ℤ} (c : ℕ)
    (h : reachLookup r k = none) :
    ((reachSet r k c).map (fun e => e.2)).sum =
      (r.map (fun e => e.2)).sum + c := by
  induction r with
  | nil => simp [reachSet]
  | cons e es ih =>
    rw [reachLookup_cons] at h
    rw [reachSet]
    by_cases hek : e.1 = k
    · rw [if_pos hek] at h
      cases h
    · rw [if_neg hek] at h
      rw [if_neg hek]
      have := ih h
      simp only [List.map_cons, List.sum_cons]
      omega

/-- Recordedness of keys after an upsert. -/
theorem reachLookup_reachSet_none_iff (r : List ((ℤ × ℤ) × ℕ))
    (k k' : ℤ × ℤ) (c : ℕ) :
    (reachLookup (reachSet r k c) k' = none) ↔
      (k' ≠ k ∧ reachLookup r k' = none) := by
  by_cases hk : k' = k
  · subst hk
    rw [reachLookup_reachSet_self]
    simp
  · rw [reachLookup_reachSet_ne _ _ hk]
    simp [hk]


/-- Baseline invariant of the reachable-set loop state. -/
structure ReachBase (grid : TileGrid) (b : Bool) (M : ℕ) (start : ℤ × ℤ)
    (r : List ((ℤ × ℤ) × ℕ)) (q : List QueueEntry) : Prop where
  nodup : r.Pairwise (fun a b => a.1 ≠ b.1)
  sound : ∀ e ∈ r, Reaches grid b start e.1 e.2 ∧ e.2 ≤ M
  startMem : reachLookup r start = some 0
  qSound : ∀ qe ∈ q, Reaches grid b start (qe.x, qe.y) qe.cost ∧
    qe.cost ≤ M ∧
    ∃ c', reachLookup r (qe.x, qe.y) = some c' ∧ c' ≤ qe.cost

/-- A recorded entry is either still pending in the queue or already
relaxed: all its passable in-budget successors are recorded at no more
than its cost plus the step cost. -/
def RelaxedAt (grid : TileGrid) (b : Bool) (M : ℕ)
    (r : List ((ℤ × ℤ) × ℕ)) (q : List QueueEntry)
    (e : (ℤ × ℤ) × ℕ) : Prop :=
  (∃ qe ∈ q, (qe.x, qe.y) = e.1 ∧ qe.cost = e.2) ∨
  (∀ t ∈ grid.getNeighbors e.1.1 e.1.2, passableFor b t = true →
    e.2 + grid.getMovementCost t ≤ M →
    ∃ c', reachLookup r (t.x, t.y) = some c' ∧
      c' ≤ e.2 + grid.getMovementCost t)

/-- Full invariant of the reachable-set loop state. -/
def ReachInv (grid : TileGrid) (b : Bool) (M : ℕ) (start : ℤ × ℤ)
    (r : List ((ℤ × ℤ) × ℕ)) (q : List QueueEntry) : Prop :=
  ReachBase grid b M start r q ∧ ∀ e ∈ r, RelaxedAt grid b M r q e

/-- Case analysis of one relaxation step: either the state is untouched,
or a passable in-budget neighbor strictly improves (or creates) its
record and is pushed. -/
theorem reachRelax_cases (grid : TileGrid) (M : ℕ) (b : Bool) (cc : ℕ)
    (st : List ((ℤ × ℤ) × ℕ) × List QueueEntry) (t : Tile) :
    reachRelax grid M b cc st t = st ∨
    (passableFor b t = true ∧ cc + grid.getMovementCost t ≤ M ∧
      (∀ existing, reachLookup st.1 (t.x, t.y) = some existing →
        cc + grid.getMovementCost t < existing) ∧
      reachRelax grid M b cc st t =
        (reachSet st.1 (t.x, t.y) (cc + grid.getMovementCost t),
         st.2 ++ [⟨t.x, t.y, cc + grid.getMovementCost t⟩])) := by
  unfold reachRelax
  by_cases hp : passableFor b t
  · rw [if_neg (by simpa using hp)]
    by_cases hM : M < cc + grid.getMovementCost t
    · rw [if_pos hM]
      exact Or.inl rfl
    · rw [if_neg hM]
      cases hlk : reachLookup st.1 (t.x, t.y) with
      | some existing =>
        dsimp only
        by_cases himp : cc + grid.getMovementCost t < existing
        · rw [if_pos himp]
          exact Or.inr ⟨by simpa using hp, by omega,
            fun e he => by cases he; exact himp, rfl⟩
        · rw [if_neg himp]
          exact Or.inl rfl
      | none =>
        dsimp only
        exact Or.inr ⟨by simpa using hp, by omega,
          fun e he => Option.noConfusion he, rfl⟩
  · rw [if_pos (by simpa using hp)]
    exact Or.inl rfl

/-- Records only improve across one relaxation step. -/
theorem reachRelax_lookup_mono (grid : TileGrid) (M : ℕ) (b : Bool)
    (cc : ℕ) (st : List ((ℤ × ℤ) × ℕ) × List QueueEntry) (t : Tile)
    {k : ℤ × ℤ} {c : ℕ} (h : reachLookup st.1 k = some c) :
    ∃ c' ≤ c, reachLookup (reachRelax grid M b cc st t).1 k = some c' := by
  rcases reachRelax_cases grid M b cc st t with heq | ⟨_, _, himp, heq⟩
  · rw [heq]; exact ⟨c, le_refl c, h⟩
  · rw [heq]
    by_cases hk : k = (t.x, t.y)
    · subst hk
      exact ⟨cc + grid.getMovementCost t, (himp c h).le,
        reachLookup_reachSet_self _ _ _⟩
    · rw [reachLookup_reachSet_ne _ _ hk]
      exact ⟨c, le_refl c, h⟩

/-- Queue entries survive one relaxation step. -/
theorem reachRelax_queue_mono (grid : TileGrid) (M : ℕ) (b : Bool)
    (cc : ℕ) (st : List ((ℤ × ℤ) × ℕ) × List QueueEntry) (t : Tile)
    {qe : QueueEntry} (h : qe ∈ st.2) :
    qe ∈ (reachRelax grid M b cc st t).2 := by
  rcases reachRelax_cases grid M b cc st t with heq | ⟨_, _, _, heq⟩ <;>
    rw [heq]
  · exact h
  · exact List.mem_append_left _ h

/-- New entries after one relaxation step carry a queue witness. -/
theorem reachRelax_entry_origin (grid : TileGrid) (M : ℕ) (b : Bool)
    (cc : ℕ) (st : List ((ℤ × ℤ) × ℕ) × List QueueEntry) (t : Tile)
    {e : (ℤ × ℤ) × ℕ} (h : e ∈ (reachRelax grid M b cc st t).1) :
    e ∈ st.1 ∨
    ∃ qe ∈ (reachRelax grid M b cc st t).2,
      (qe.x, qe.y) = e.1 ∧ qe.cost = e.2 := by
  rcases reachRelax_cases grid M b cc st t with heq | ⟨_, _, _, heq⟩ <;>
    rw [heq] at h ⊢
  · exact Or.inl h
  · rcases mem_reachSet h with rfl | h'
    · exact Or.inr ⟨⟨t.x, t.y, cc + grid.getMovementCost t⟩,
        List.mem_append_right _ (List.mem_singleton_self _), rfl, rfl⟩
    · exact Or.inl h'

/-- After its own relaxation step, a passable in-budget neighbor is
recorded at no more than the tentative cost. -/
theorem reachRelax_processed (grid : TileGrid) (M : ℕ) (b : Bool)
    (cc : ℕ) (st : List ((ℤ × ℤ) × ℕ) × List QueueEntry) (t : Tile)
    (hp : passableFor b t = true) (hM : cc + grid.getMovementCost t ≤ M) :
    ∃ c' ≤ cc + grid.getMovementCost t,
      reachLookup (reachRelax grid M b cc st t).1 (t.x, t.y) = some c' := by
  unfold reachRelax
  rw [if_neg (by simp [hp])]
  rw [if_neg (by omega)]
  cases hlk : reachLookup st.1 (t.x, t.y) with
  | some existing =>
    dsimp only
    by_cases himp : cc + grid.getMovementCost t < existing
    · rw [if_pos himp]
      exact ⟨cc + grid.getMovementCost t, le_refl _,
        reachLookup_reachSet_self _ _ _⟩
    · rw [if_neg himp]
      exact ⟨existing, by omega, hlk⟩
  | none =>
    dsimp only
    exact ⟨cc + grid.getMovementCost t, le_refl _,
      reachLookup_reachSet_self _ _ _⟩

/-- One relaxation step never increases the loop potential. -/
theorem reachRelax_potential (grid : TileGrid) (M : ℕ) (b : Bool)
    (cc : ℕ) (st : List ((ℤ × ℤ) × ℕ) × List QueueEntry) (t : Tile)
    (hbox : (t.x, t.y) ∈ boxKeys grid) :
    reachPotential grid M (reachRelax grid M b cc st t).1
      (reachRelax grid M b cc st t).2 ≤ reachPotential grid M st.1 st.2 := by
  rcases reachRelax_cases grid M b cc st t with heq | ⟨_, hM, himp, heq⟩
  · rw [heq]
  · rw [heq]
    unfold reachPotential
    dsimp only
    rw [List.length_append, List.length_singleton]
    cases hlk : reachLookup st.1 (t.x, t.y) with
    | some existing =>
      have hsum := sum_reachSet_recorded (cc + grid.getMovementCost t) hlk
      have hcards : ((boxKeys grid).filter
          (fun k => reachLookup (reachSet st.1 (t.x, t.y)
            (cc + grid.getMovementCost t)) k = none)).card =
          ((boxKeys grid).filter (fun k => reachLookup st.1 k = none)).card := by
        congr 1
        apply Finset.filter_congr
        intro k _
        rw [reachLookup_reachSet_none_iff]
        by_cases hk : k = (t.x, t.y)
        · subst hk
          simp [hlk]
        · simp [hk]
      rw [hcards]
      have := himp existing hlk
      omega
    | none =>
      have hsum := sum_reachSet_new (cc + grid.getMovementCost t) hlk
      have hmemf : (t.x, t.y) ∈
          (boxKeys grid).filter (fun k => reachLookup st.1 k = none) :=
        Finset.mem_filter.mpr ⟨hbox, by simp [hlk]⟩
      have hcards : ((boxKeys grid).filter
          (fun k => reachLookup (reachSet st.1 (t.x, t.y)
            (cc + grid.getMovementCost t)) k = none)).card + 1 =
          ((boxKeys grid).filter (fun k => reachLookup st.1 k = none)).card := by
        have hers : (boxKeys grid).filter
            (fun k => reachLookup (reachSet st.1 (t.x, t.y)
              (cc + grid.getMovementCost t)) k = none) =
            ((boxKeys grid).filter
              (fun k => reachLookup st.1 k = none)).erase (t.x, t.y) := by
          ext k
          simp only [Finset.mem_filter, Finset.mem_erase,
            reachLookup_reachSet_none_iff]
          tauto
        rw [hers, Finset.card_erase_of_mem hmemf]
        have : 0 < ((boxKeys grid).filter
            (fun k => reachLookup st.1 k = none)).card :=
          Finset.card_pos.mpr ⟨_, hmemf⟩
        omega
      have hexp : (M + 1) * ((boxKeys grid).filter
          (fun k => reachLookup st.1 k = none)).card =
          (M + 1) * ((boxKeys grid).filter
            (fun k => reachLookup (reachSet st.1 (t.x, t.y)
              (cc + grid.getMovementCost t)) k = none)).card + (M + 1) := by
        rw [← hcards, Nat.mul_succ]
      omega


/-- One relaxation step preserves the baseline invariant, given that the
popped node really reaches its coordinate within budget and the neighbor
comes from its neighbor list. -/
theorem reachRelax_base (grid : TileGrid) (b : Bool) (M : ℕ)
    (start cur : ℤ × ℤ) (cc : ℕ)
    (hcc : Reaches grid b start cur cc) (_hccM : cc ≤ M)
    (st : List ((ℤ × ℤ) × ℕ) × List QueueEntry) (t : Tile)
    (ht : t ∈ grid.getNeighbors cur.1 cur.2)
    (hbase : ReachBase grid b M start st.1 st.2) :
    ReachBase grid b M start (reachRelax grid M b cc st t).1
      (reachRelax grid M b cc st t).2 := by
  rcases reachRelax_cases grid M b cc st t with heq | ⟨hp, hM, himp, heq⟩
  · rw [heq]; exact hbase
  · have hstep : stepOK grid b cur (t.x, t.y) := ⟨t, ht, rfl, rfl, hp⟩
    have hreach : Reaches grid b start (t.x, t.y)
        (cc + grid.getMovementCost t) := by
      have := Reaches.step hcc hstep
      rwa [coordCost_of_mem ht] at this
    rw [heq]
    constructor
    · exact reachSet_pairwise _ _ hbase.nodup
    · intro e he
      rcases mem_reachSet he with rfl | he'
      · exact ⟨hreach, hM⟩
      · exact hbase.sound e he'
    · by_cases hs : start = (t.x, t.y)
      · have h0 := hbase.startMem
        rw [hs] at h0
        have := himp 0 h0
        omega
      · rw [reachLookup_reachSet_ne _ _ hs]
        exact hbase.startMem
    · intro qe hqe
      rcases List.mem_append.mp hqe with hqe' | hqe'
      · obtain ⟨h1, h2, c', hc', hle⟩ := hbase.qSound qe hqe'
        refine ⟨h1, h2, ?_⟩
        by_cases hk : (qe.x, qe.y) = (t.x, t.y)
        · rw [hk, reachLookup_reachSet_self]
          have hc'' := hc'
          rw [hk] at hc''
          have := himp c' hc''
          exact ⟨cc + grid.getMovementCost t, rfl, by omega⟩
        · rw [reachLookup_reachSet_ne _ _ hk]
          exact ⟨c', hc', hle⟩
      · rw [List.mem_singleton] at hqe'
        subst hqe'
        exact ⟨hreach, hM, cc + grid.getMovementCost t,
          reachLookup_reachSet_self _ _ _, le_refl _⟩

/-- The neighbor-relaxation fold of one loop iteration: the baseline
invariant is preserved; records only improve; queue entries survive; new
entries carry queue witnesses; every processed passable in-budget
neighbor ends recorded within its tentative cost; and the potential does
not increase. -/
theorem reachRelax_fold (grid : TileGrid) (b : Bool) (M : ℕ)
    (start cur : ℤ × ℤ) (cc : ℕ)
    (hcc : Reaches grid b start cur cc) (hccM : cc ≤ M) :
    ∀ (ts : List Tile), (∀ t ∈ ts, t ∈ grid.getNeighbors cur.1 cur.2) →
    ∀ (r : List ((ℤ × ℤ) × ℕ)) (q : List QueueEntry),
    ReachBase grid b M start r q →
    ReachBase grid b M start
      (ts.foldl (reachRelax grid M b cc) (r, q)).1
      (ts.foldl (reachRelax grid M b cc) (r, q)).2 ∧
    (∀ k c, reachLookup r k = some c →
      ∃ c' ≤ c, reachLookup (ts.foldl (reachRelax grid M b cc) (r, q)).1 k =
        some c') ∧
    (∀ qe ∈ q, qe ∈ (ts.foldl (reachRelax grid M b cc) (r, q)).2) ∧
    (∀ e ∈ (ts.foldl (reachRelax grid M b cc) (r, q)).1, e ∈ r ∨
      ∃ qe ∈ (ts.foldl (reachRelax grid M b cc) (r, q)).2,
        (qe.x, qe.y) = e.1 ∧ qe.cost = e.2) ∧
    (∀ t ∈ ts, passableFor b t = true → cc + grid.getMovementCost t ≤ M →
      ∃ c' ≤ cc + grid.getMovementCost t,
        reachLookup (ts.foldl (reachRelax grid M b cc) (r, q)).1 (t.x, t.y) =
          some c') ∧
    reachPotential grid M (ts.foldl (reachRelax grid M b cc) (r, q)).1
      (ts.foldl (reachRelax grid M b cc) (r, q)).2 ≤
      reachPotential grid M r q := by
  intro ts
  induction ts with
  | nil =>
    intro _ r q hbase
    exact ⟨hbase, fun k c h => ⟨c, le_refl c, h⟩, fun qe h => h,
      fun e he => Or.inl he, fun t ht => absurd ht (List.not_mem_nil t),
      le_refl _⟩
  | cons t ts ih =>
    intro hsub r q hbase
    have ht : t ∈ grid.getNeighbors cur.1 cur.2 :=
      hsub t (List.mem_cons_self _ _)
    have hsub' : ∀ t' ∈ ts, t' ∈ grid.getNeighbors cur.1 cur.2 :=
      fun t' h => hsub t' (List.mem_cons_of_mem t h)
    rw [List.foldl_cons]
    have hbase1 := reachRelax_base grid b M start cur cc hcc hccM (r, q) t
      ht hbase
    have hpair : reachRelax grid M b cc (r, q) t =
        ((reachRelax grid M b cc (r, q) t).1,
         (reachRelax grid M b cc (r, q) t).2) := rfl
    rw [hpair]
    obtain ⟨f1, f2, f3, f4, f5, f6⟩ := ih hsub' _ _ hbase1
    refine ⟨f1, ?_, ?_, ?_, ?_, ?_⟩
    · intro k c h
      obtain ⟨c1, hc1, hl1⟩ := reachRelax_lookup_mono grid M b cc (r, q) t h
      obtain ⟨c2, hc2, hl2⟩ := f2 k c1 hl1
      exact ⟨c2, le_trans hc2 hc1, hl2⟩
    · intro qe h
      exact f3 qe (reachRelax_queue_mono grid M b cc (r, q) t h)
    · intro e he
      rcases f4 e he with he' | hw
      · rcases reachRelax_entry_origin grid M b cc (r, q) t he' with h0 | hw
        · exact Or.inl h0
        · obtain ⟨qe, hqe, hq1, hq2⟩ := hw
          exact Or.inr ⟨qe, f3 qe hqe, hq1, hq2⟩
      · exact Or.inr hw
    · intro t' ht' hp hM
      rcases List.mem_cons.mp ht' with rfl | ht''
      · obtain ⟨c1, hc1, hl1⟩ :=
          reachRelax_processed grid M b cc (r, q) t' hp hM
        obtain ⟨c2, hc2, hl2⟩ := f2 _ c1 hl1
        exact ⟨c2, le_trans hc2 hc1, hl2⟩
      · exact f5 t' ht'' hp hM
    · exact le_trans f6
        (reachRelax_potential grid M b cc (r, q) t
          (mem_boxKeys_of_neighbor ht))


/-- Stable insertion permutes to consing. -/
theorem stableInsert_perm {α : Type} (le : α → α → Bool) (a : α)
    (l : List α) : List.Perm (stableInsert le a l) (a :: l) := by
  induction l with
  | nil => rfl
  | cons b bs ih =>
    unfold stableInsert
    by_cases h : le b a
    · rw [if_pos h]
      exact (ih.cons b).trans (List.Perm.swap a b bs)
    · rw [if_neg h]

/-- The stable sort is a permutation of its input. -/
theorem stableSort_perm {α : Type} (le : α → α → Bool) (l : List α) :
    List.Perm (stableSort le l) l := by
  have key : ∀ (l acc : List α),
      List.Perm (l.foldl (fun acc a => stableInsert le a acc) acc)
        (acc ++ l) := by
    intro l
    induction l with
    | nil => intro acc; simp
    | cons a l ih =>
      intro acc
      rw [List.foldl_cons]
      refine ((ih (stableInsert le a acc)).trans ?_)
      refine (((stableInsert_perm le a acc).append_right l).trans ?_)
      exact List.perm_middle.symm
  simpa using key l []

/-- One full iteration of the reachable-set loop: pop the head of the
sorted queue and relax its neighbors.  The invariant is preserved and the
potential strictly decreases. -/
theorem reach_iteration (grid : TileGrid) (b : Bool) (M : ℕ)
    (start : ℤ × ℤ) (r : List ((ℤ × ℤ) × ℕ)) (queue : List QueueEntry)
    (cur : QueueEntry) (rest : List QueueEntry)
    (hsort : stableSort (fun a b => decide (a.cost ≤ b.cost)) queue =
      cur :: rest)
    (hinv : ReachInv grid b M start r queue) :
    ReachInv grid b M start
      ((grid.getNeighbors cur.x cur.y).foldl
        (reachRelax grid M b cur.cost) (r, rest)).1
      ((grid.getNeighbors cur.x cur.y).foldl
        (reachRelax grid M b cur.cost) (r, rest)).2 ∧
    reachPotential grid M
      ((grid.getNeighbors cur.x cur.y).foldl
        (reachRelax grid M b cur.cost) (r, rest)).1
      ((grid.getNeighbors cur.x cur.y).foldl
        (reachRelax grid M b cur.cost) (r, rest)).2 <
      reachPotential grid M r queue := by
  obtain ⟨hbase, hrel⟩ := hinv
  have hperm : List.Perm
      (stableSort (fun a b => decide (a.cost ≤ b.cost)) queue) queue :=
    stableSort_perm _ queue
  have hmem : ∀ qe ∈ cur :: rest, qe ∈ queue := by
    intro qe h
    exact hperm.subset (by rw [hsort]; exact h)
  have hcur := hbase.qSound cur (hmem cur (List.mem_cons_self _ _))
  have hbase' : ReachBase grid b M start r rest :=
    { nodup := hbase.nodup, sound := hbase.sound,
      startMem := hbase.startMem,
      qSound := fun qe h =>
        hbase.qSound qe (hmem qe (List.mem_cons_of_mem cur h)) }
  obtain ⟨f1, f2, f3, f4, f5, f6⟩ := reachRelax_fold grid b M start
    (cur.x, cur.y) cur.cost hcur.1 hcur.2.1
    (grid.getNeighbors cur.x cur.y) (fun t ht => ht) r rest hbase'
  refine ⟨⟨f1, ?_⟩, ?_⟩
  · intro e he
    rcases f4 e he with he' | hw
    · rcases hrel e he' with ⟨qe, hqe, hq1, hq2⟩ | hclause
      · have hqe' : qe ∈ cur :: rest := by
          rw [← hsort]
          exact hperm.symm.subset hqe
        rcases List.mem_cons.mp hqe' with rfl | hqrest
        · right
          intro t ht hp hM
          rw [← hq1] at ht
          rw [← hq2] at hM
          obtain ⟨c', hc', hl⟩ := f5 t ht hp hM
          refine ⟨c', hl, ?_⟩
          rw [← hq2]
          exact hc'
        · exact Or.inl ⟨qe, f3 qe hqrest, hq1, hq2⟩
      · right
        intro t ht hp hM
        obtain ⟨c', hl, hle⟩ := hclause t ht hp hM
        obtain ⟨c'', hc'', hl2⟩ := f2 _ c' hl
        exact ⟨c'', hl2, le_trans hc'' hle⟩
    · exact Or.inl hw
  · have hlen : rest.length + 1 = queue.length := by
      have := hperm.length_eq
      rw [hsort] at this
      simpa using this
    have hpot : reachPotential grid M r rest + 1 =
        reachPotential grid M r queue := by
      unfold reachPotential
      omega
    omega


/-- The reachable-set loop, run with enough fuel from an invariant state,
ends in an invariant state with an empty queue. -/
theorem reachLoop_invariant (grid : TileGrid) (b : Bool) (M : ℕ)
    (start : ℤ × ℤ) :
    ∀ (fuel : ℕ) (r : List ((ℤ × ℤ) × ℕ)) (q : List QueueEntry),
    ReachInv grid b M start r q →
    reachPotential grid M r q < fuel →
    ReachInv grid b M start (reachLoop grid M b fuel r q) [] := by
  intro fuel
  induction fuel with
  | zero =>
    intro r q _ hpot
    exact absurd hpot (Nat.not_lt_zero _)
  | succ f ih =>
    intro r q hinv hpot
    rw [reachLoop]
    cases hsort : stableSort (fun a b => decide (a.cost ≤ b.cost)) q with
    | nil =>
      have hq : q = [] := by
        have hperm : List.Perm
            (stableSort (fun a b => decide (a.cost ≤ b.cost)) q) q :=
          stableSort_perm _ q
        rw [hsort] at hperm
        exact hperm.symm.eq_nil
      rw [hq] at hinv
      exact hinv
    | cons cur rest =>
      obtain ⟨hinv', hpot'⟩ :=
        reach_iteration grid b M start r q cur rest hsort hinv
      exact ih _ _ hinv' (by omega)

/-- Closure induction: in a final (empty-queue) invariant state, every
coordinate legally reachable within the budget is recorded at no more
than its path cost. -/
theorem reach_closure (grid : TileGrid) (b : Bool) (M : ℕ)
    (start : ℤ × ℤ) (R : List ((ℤ × ℤ) × ℕ))
    (hinv : ReachInv grid b M start R []) :
    ∀ (v : ℤ × ℤ) (c : ℕ), Reaches grid b start v c → c ≤ M →
    ∃ c' ≤ c, reachLookup R v = some c' := by
  intro v c h
  induction h with
  | start =>
    intro _
    exact ⟨0, le_refl 0, hinv.1.startMem⟩
  | step hu hstep ih =>
    rename_i u v' cu
    intro hbud
    have hcu : cu ≤ M := by
      have := coordCost_pos hstep
      omega
    obtain ⟨cu', hcu', hl⟩ := ih hcu
    have hmem := reachLookup_mem hl
    rcases hinv.2 _ hmem with ⟨qe, hqe, _⟩ | hclause
    · exact absurd hqe (List.not_mem_nil qe)
    · obtain ⟨t, ht, hx, hy, hp⟩ := hstep
      have hv : v' = (t.x, t.y) := by rw [hx, hy]
      subst hv
      rw [coordCost_of_mem ht] at hbud
      have hbud' : cu' + grid.getMovementCost t ≤ M := by omega
      obtain ⟨c', hl', hle⟩ := hclause t ht hp hbud'
      have hle' : c' ≤ cu' + grid.getMovementCost t := hle
      refine ⟨c', ?_, hl'⟩
      rw [coordCost_of_mem ht]
      omega

/-- Full correctness of `getReachableTiles`: the start is recorded at 0;
every recorded coordinate is legally reachable, within budget, at the
minimum cost over all legal paths; and every coordinate legally reachable
within the budget is recorded. -/
theorem getReachableTiles_correct (grid : TileGrid) (startX startY : ℤ)
    (M : ℕ) (b : Bool) :
    (reachLookup (getReachableTiles grid startX startY M b)
      (startX, startY) = some 0) ∧
    (∀ (v : ℤ × ℤ) (c : ℕ),
      reachLookup (getReachableTiles grid startX startY M b) v = some c →
      Reaches grid b (startX, startY) v c ∧ c ≤ M ∧
        ∀ c', Reaches grid b (startX, startY) v c' → c ≤ c') ∧
    (∀ (v : ℤ × ℤ) (c : ℕ), Reaches grid b (startX, startY) v c → c ≤ M →
      ∃ c' ≤ c, reachLookup (getReachableTiles grid startX startY M b) v =
        some c') := by
  have hinv0 : ReachInv grid b M (startX, startY)
      [((startX, startY), 0)] [⟨startX, startY, 0⟩] := by
    refine ⟨⟨?_, ?_, ?_, ?_⟩, ?_⟩
    · simp
    · intro e he
      rw [List.mem_singleton] at he
      subst he
      exact ⟨Reaches.start, Nat.zero_le M⟩
    · rw [reachLookup_cons]
      simp
    · intro qe hqe
      rw [List.mem_singleton] at hqe
      subst hqe
      refine ⟨Reaches.start, Nat.zero_le M, 0, ?_, le_refl 0⟩
      rw [reachLookup_cons]
      simp
    · intro e he
      rw [List.mem_singleton] at he
      subst he
      exact Or.inl ⟨⟨startX, startY, 0⟩, List.mem_singleton_self _, rfl, rfl⟩
  have hpot0 : reachPotential grid M [((startX, startY), 0)]
      [⟨startX, startY, 0⟩] < reachFuel grid M := by
    unfold reachPotential reachFuel
    have hcard : ((boxKeys grid).filter
        (fun k => reachLookup [((startX, startY), 0)] k = none)).card ≤
        grid.width.toNat * grid.height.toNat := by
      rw [← card_boxKeys grid]
      exact Finset.card_filter_le _ _
    simp only [List.length_singleton, List.map_cons, List.map_nil,
      List.sum_cons, List.sum_nil]
    have h2 : (M + 1) * ((boxKeys grid).filter
        (fun k => reachLookup [((startX, startY), 0)] k = none)).card ≤
        (M + 1) * (grid.width.toNat * grid.height.toNat) := by
      exact Nat.mul_le_mul_left _ hcard
    have h3 : (M + 1) * (grid.width.toNat * grid.height.toNat) =
        grid.width.toNat * grid.height.toNat * (M + 1) := by ring
    omega
  have hfin := reachLoop_invariant grid b M (startX, startY)
    (reachFuel grid M) [((startX, startY), 0)] [⟨startX, startY, 0⟩]
    hinv0 hpot0
  have hR : getReachableTiles grid startX startY M b =
      reachLoop grid M b (reachFuel grid M) [((startX, startY), 0)]
        [⟨startX, startY, 0⟩] := rfl
  rw [hR]
  set R := reachLoop grid M b (reachFuel grid M) [((startX, startY), 0)]
    [⟨startX, startY, 0⟩] with hRdef
  refine ⟨?_, ?_, ?_⟩
  · obtain ⟨c', hc', hl⟩ :=
      reach_closure grid b M (startX, startY) R hfin (startX, startY) 0
        Reaches.start (Nat.zero_le M)
    have : c' = 0 := Nat.le_zero.mp hc'
    rw [← this]
    exact hl
  · intro v c hl
    have hmem := reachLookup_mem hl
    have hsound := hfin.1.sound _ hmem
    refine ⟨hsound.1, hsound.2, ?_⟩
    intro c' hc'
    by_cases hcM : c' ≤ M
    · obtain ⟨c'', hc'', hl'⟩ :=
        reach_closure grid b M (startX, startY) R hfin v c' hc' hcM
      rw [hl] at hl'
      cases hl'
      omega
    · have := hsound.2
      omega
  · exact reach_closure grid b M (startX, startY) R hfin


-- ─── C7 / C10: getValidMoves and the start entry ────────────────────────

/-- A 2×2 all-grassland grid used by the movement witnesses. -/
def sampleGrid2 : TileGrid :=
  { width := 2, height := 2, tiles :=
      [{ samplePlainTile with x := 0, y := 0 },
       { samplePlainTile with x := 1, y := 0 },
       { samplePlainTile with x := 0, y := 1 },
       { samplePlainTile with x := 1, y := 1 }] }

/-- Units for the movement witnesses: the mover at (0,0), a same-owner
unit at (1,1) and an enemy-owned unit at (1,0). -/
def sampleOccupants : List UnitInstance :=
  [sampleUnit "m" "P" 10,
   { sampleUnit "a" "P" 10 with x := 1, y := 1 },
   { sampleUnit "e" "Q" 10 with x := 1, y := 0 }]

/-- One enemy relation between players P and Q. -/
def sampleRelations : List DiplomacyRelation :=
  [{ playerA := "P", playerB := "Q", status := .enemy }]

/-- C10: for every grid, start, budget and domain the map returned by
`getReachableTiles` contains the start coordinate at cost 0 — even when
no tile exists at the start or its terrain is impassable, since the start
tile is never checked — and `getValidMoves` (for a known-type, unmoved
unit) consists of exactly the occupancy-filtered reachable entries minus
this start entry. -/
theorem reach_start_and_own_tile_removed :
    (∀ (grid : TileGrid) (startX startY : ℤ) (maxMovement : ℕ)
      (isNaval : Bool),
      reachLookup (getReachableTiles grid startX startY maxMovement isNaval)
        (startX, startY) = some 0) ∧
    (∀ (unit : UnitInstance) (grid : TileGrid)
      (allUnits : List UnitInstance) (relations : List DiplomacyRelation)
      (uType : UnitType),
      UNIT_TYPES unit.typeId = some uType → unit.hasMoved = false →
      ∀ (v : ℤ × ℤ) (c : ℕ),
        ((v, c) ∈ getValidMoves unit grid allUnits relations ↔
          (v, c) ∈ validMovesFiltered unit allUnits relations
            (getReachableTiles grid unit.x unit.y uType.stats.movement
              (uType.category = UnitCategory.naval)) ∧
          v ≠ (unit.x, unit.y))) := by
  constructor
  · intro grid startX startY maxMovement isNaval
    exact (getReachableTiles_correct grid startX startY maxMovement
      isNaval).1
  · intro unit grid allUnits relations uType hty hmoved v c
    unfold getValidMoves
    rw [if_neg (by rw [hmoved]; exact Bool.false_ne_true), hty]
    dsimp only
    unfold reachErase
    rw [List.mem_filter]
    simp

/-- Witness for C10: a grid with no tiles at all still records the start
at cost 0, and a concrete 2×2 instance of the erase characterisation. -/
theorem reach_start_and_own_tile_removed_witness :
    reachLookup (getReachableTiles { width := 0, height := 0, tiles := [] }
      5 7 3 false) (5, 7) = some 0 ∧
    ((((1 : ℤ), (0 : ℤ)), 1) ∈ getValidMoves
        (sampleUnit "m" "P" 10) sampleGrid2 sampleOccupants [] ↔
      (((1 : ℤ), (0 : ℤ)), 1) ∈ validMovesFiltered (sampleUnit "m" "P" 10)
        sampleOccupants []
        (getReachableTiles sampleGrid2 (sampleUnit "m" "P" 10).x
          (sampleUnit "m" "P" 10).y militiaType.stats.movement
          (militiaType.category = UnitCategory.naval)) ∧
      ((1 : ℤ), (0 : ℤ)) ≠ ((sampleUnit "m" "P" 10).x,
        (sampleUnit "m" "P" 10).y)) :=
  ⟨reach_start_and_own_tile_removed.1
      { width := 0, height := 0, tiles := [] } 5 7 3 false,
   reach_start_and_own_tile_removed.2
      (sampleUnit "m" "P" 10) sampleGrid2 sampleOccupants []
      militiaType rfl rfl ((1, 0)) 1⟩

/-- C7: `getValidMoves` is empty when the unit has already moved;
otherwise it never contains the unit's own tile, and a reachable tile
(other than the unit's own) occupied by other living units is offered
exactly when all occupants are allied with the owner (same owner or an
allied relation) and fewer than 2 occupants are present. -/
theorem getValidMoves_spec (unit : UnitInstance)
    (grid : TileGrid) (allUnits : List UnitInstance)
    (relations : List DiplomacyRelation) (uType : UnitType)
    (hty : UNIT_TYPES unit.typeId = some uType) :
    (unit.hasMoved = true →
      getValidMoves unit grid allUnits relations = []) ∧
    (∀ (c : ℕ), ((unit.x, unit.y), c) ∉
      getValidMoves unit grid allUnits relations) ∧
    (unit.hasMoved = false → ∀ (v : ℤ × ℤ) (c : ℕ),
      (v, c) ∈ getReachableTiles grid unit.x unit.y uType.stats.movement
        (uType.category = UnitCategory.naval) →
      v ≠ (unit.x, unit.y) →
      unitsOnTile allUnits unit.id v.1 v.2 ≠ [] →
      ((v, c) ∈ getValidMoves unit grid allUnits relations ↔
        ((unitsOnTile allUnits unit.id v.1 v.2).all (fun u =>
          u.ownerId = unit.ownerId ∨
          getRelation unit.ownerId u.ownerId relations =
            DiplomacyStatus.allied) = true ∧
         (unitsOnTile allUnits unit.id v.1 v.2).length < 2))) := by
  refine ⟨?_, ?_, ?_⟩
  · intro hmoved
    unfold getValidMoves
    rw [if_pos (by rw [hmoved])]
  · intro c
    unfold getValidMoves
    by_cases hmoved : unit.hasMoved
    · rw [if_pos (by rw [hmoved])]
      exact List.not_mem_nil _
    · rw [if_neg (by simpa using hmoved), hty]
      dsimp only
      unfold reachErase
      rw [List.mem_filter]
      simp
  · intro hmoved v c hreach hnv hocc
    unfold getValidMoves
    rw [if_neg (by rw [hmoved]; exact Bool.false_ne_true), hty]
    dsimp only
    unfold reachErase
    rw [List.mem_filter]
    unfold validMovesFiltered
    rw [List.mem_filter]
    dsimp only
    rw [if_neg (by simpa using hocc)]
    simp only [hreach, true_and]
    constructor
    · intro h1
      simpa using h1.1
    · intro h
      exact ⟨by simpa using h, by simpa using hnv⟩

/-- Witness for C7 at the 2×2 scenario: a moved copy of the mover gets no
moves; the mover's own tile is absent; the same-owner-occupied tile (1,1)
satisfies the occupancy characterisation. -/
theorem getValidMoves_spec_witness :
    getValidMoves
      { sampleUnit "m" "P" 10 with hasMoved := true } sampleGrid2
      sampleOccupants sampleRelations = [] ∧
    (((0 : ℤ), (0 : ℤ)), 0) ∉ getValidMoves
      (sampleUnit "m" "P" 10) sampleGrid2 sampleOccupants sampleRelations ∧
    ((((1 : ℤ), (1 : ℤ)), 1) ∈ getValidMoves
        (sampleUnit "m" "P" 10) sampleGrid2 sampleOccupants
        sampleRelations ↔
      ((unitsOnTile sampleOccupants "m" 1 1).all (fun u =>
        u.ownerId = "P" ∨
        getRelation "P" u.ownerId sampleRelations =
          DiplomacyStatus.allied) = true ∧
       (unitsOnTile sampleOccupants "m" 1 1).length < 2)) :=
  ⟨(getValidMoves_spec
      { sampleUnit "m" "P" 10 with hasMoved := true } sampleGrid2
      sampleOccupants sampleRelations militiaType rfl).1 rfl,
   (getValidMoves_spec (sampleUnit "m" "P" 10) sampleGrid2
      sampleOccupants sampleRelations militiaType rfl).2.1 0,
   (getValidMoves_spec (sampleUnit "m" "P" 10) sampleGrid2
      sampleOccupants sampleRelations militiaType rfl).2.2 rfl
      ((1, 1)) 1 (by decide) (by decide) (by decide)⟩


-- ─── A* search (findPath): basic lemmas ──────────────────────────────────

/-- Chebyshev distance of a point to itself is 0. -/
theorem chebyshev_self (x y : ℤ) : chebyshev x y x y = 0 := by
  unfold chebyshev
  simp

/-- Triangle inequality for the Chebyshev distance. -/
theorem chebyshev_triangle (x1 y1 x2 y2 x3 y3 : ℤ) :
    chebyshev x1 y1 x3 y3 ≤ chebyshev x1 y1 x2 y2 + chebyshev x2 y2 x3 y3 := by
  unfold chebyshev
  omega

/-- A legal step spans Chebyshev distance at most 1. -/
theorem chebyshev_stepOK {grid : TileGrid} {isNaval : Bool} {u v : ℤ × ℤ}
    (h : stepOK grid isNaval u v) : chebyshev u.1 u.2 v.1 v.2 ≤ 1 := by
  have := stepOK_adjacent h
  unfold chebyshev
  omega

/-- Scanning a nonempty open list yields some node. -/
theorem pickLowestF_aux (l : List PathNode) (a : PathNode) :
    ∃ r, l.foldl (fun acc n =>
        match acc with
        | none => some n
        | some c => if n.f < c.f then some n else some c) (some a) = some r ∧
      (r = a ∨ r ∈ l) ∧ r.f ≤ a.f ∧ ∀ n ∈ l, r.f ≤ n.f := by
  induction l generalizing a with
  | nil => exact ⟨a, rfl, Or.inl rfl, le_refl _, fun n h => absurd h (List.not_mem_nil n)⟩
  | cons b bs ih =>
    rw [List.foldl_cons]
    dsimp only
    by_cases hb : b.f < a.f
    · rw [if_pos hb]
      obtain ⟨r, h1, h2, h3, h4⟩ := ih b
      refine ⟨r, h1, ?_, by omega, ?_⟩
      · rcases h2 with rfl | h2
        · exact Or.inr (List.mem_cons_self _ _)
        · exact Or.inr (List.mem_cons_of_mem _ h2)
      · intro n hn
        rcases List.mem_cons.mp hn with rfl | hn
        · exact h3
        · exact h4 n hn
    · rw [if_neg hb]
      obtain ⟨r, h1, h2, h3, h4⟩ := ih a
      refine ⟨r, h1, ?_, h3, ?_⟩
      · rcases h2 with rfl | h2
        · exact Or.inl rfl
        · exact Or.inr (List.mem_cons_of_mem _ h2)
      · intro n hn
        rcases List.mem_cons.mp hn with rfl | hn
        · omega
        · exact h4 n hn

/-- `pickLowestF` on a cons cell agrees with the accumulator scan. -/
theorem pickLowestF_cons_eq (a : PathNode) (as : List PathNode) {r : PathNode}
    (h1 : as.foldl (fun acc n =>
        match acc with
        | none => some n
        | some c => if n.f < c.f then some n else some c) (some a) = some r) :
    pickLowestF (a :: as) = some r := by
  unfold pickLowestF
  rw [List.foldl_cons]
  dsimp only
  exact h1

/-- The open-set scan returns none exactly on the empty list. -/
theorem pickLowestF_eq_none {l : List PathNode} :
    pickLowestF l = none ↔ l = [] := by
  cases l with
  | nil => simp [pickLowestF]
  | cons a as =>
    obtain ⟨r, h1, _, _, _⟩ := pickLowestF_aux as a
    rw [pickLowestF_cons_eq a as h1]
    simp

/-- The scanned node is a member of the open list. -/
theorem pickLowestF_mem {l : List PathNode} {c : PathNode}
    (h : pickLowestF l = some c) : c ∈ l := by
  cases l with
  | nil => cases h
  | cons a as =>
    obtain ⟨r, h1, h2, _, _⟩ := pickLowestF_aux as a
    rw [pickLowestF_cons_eq a as h1] at h
    cases h
    rcases h2 with rfl | h2
    · exact List.mem_cons_self _ _
    · exact List.mem_cons_of_mem _ h2

/-- The scanned node has minimal `f` over the open list. -/
theorem pickLowestF_min {l : List PathNode} {c : PathNode}
    (h : pickLowestF l = some c) : ∀ n ∈ l, c.f ≤ n.f := by
  cases l with
  | nil => cases h
  | cons a as =>
    obtain ⟨r, h1, _, h3, h4⟩ := pickLowestF_aux as a
    rw [pickLowestF_cons_eq a as h1] at h
    cases h
    intro n hn
    rcases List.mem_cons.mp hn with rfl | hn
    · exact h3
    · exact h4 n hn

/-- Members of an updated open list are the new node or old members. -/
theorem updateNodeAt_subset {l : List PathNode} {x y : ℤ} {node m : PathNode}
    (h : m ∈ updateNodeAt l x y node) : m = node ∨ m ∈ l := by
  induction l with
  | nil => cases h
  | cons n ns ih =>
    unfold updateNodeAt at h
    by_cases hc : n.x = x ∧ n.y = y
    · rw [if_pos hc] at h
      rcases List.mem_cons.mp h with rfl | h
      · exact Or.inl rfl
      · exact Or.inr (List.mem_cons_of_mem _ h)
    · rw [if_neg hc] at h
      rcases List.mem_cons.mp h with rfl | h
      · exact Or.inr (List.mem_cons_self _ _)
      · rcases ih h with h | h
        · exact Or.inl h
        · exact Or.inr (List.mem_cons_of_mem _ h)

/-- A member at a different coordinate survives the update. -/
theorem updateNodeAt_keep {l : List PathNode} {x y : ℤ} {node m : PathNode}
    (hm : m ∈ l) (hne : ¬(m.x = x ∧ m.y = y)) :
    m ∈ updateNodeAt l x y node := by
  induction l with
  | nil => cases hm
  | cons n ns ih =>
    unfold updateNodeAt
    rcases List.mem_cons.mp hm with rfl | hm
    · rw [if_neg hne]
      exact List.mem_cons_self _ _
    · by_cases hc : n.x = x ∧ n.y = y
      · rw [if_pos hc]
        exact List.mem_cons_of_mem _ hm
      · rw [if_neg hc]
        exact List.mem_cons_of_mem _ (ih hm)

/-- If some member sits at the target coordinate, the update's new node is
a member of the result. -/
theorem updateNodeAt_mem {l : List PathNode} {x y : ℤ} (node : PathNode)
    (h : ∃ n ∈ l, n.x = x ∧ n.y = y) :
    node ∈ updateNodeAt l x y node := by
  induction l with
  | nil =>
    obtain ⟨n, hn, _⟩ := h
    cases hn
  | cons n ns ih =>
    unfold updateNodeAt
    by_cases hc : n.x = x ∧ n.y = y
    · rw [if_pos hc]
      exact List.mem_cons_self _ _
    · rw [if_neg hc]
      obtain ⟨m, hm, hmc⟩ := h
      rcases List.mem_cons.mp hm with rfl | hm
      · exact absurd hmc hc
      · exact List.mem_cons_of_mem _ (ih ⟨m, hm, hmc⟩)

/-- Coordinate-distinctness survives the in-place update, provided the new
node carries the updated coordinate. -/
theorem updateNodeAt_pairwise {l : List PathNode} {x y : ℤ}
    {node : PathNode} (hx : node.x = x) (hy : node.y = y)
    (h : l.Pairwise (fun a b => (a.x, a.y) ≠ (b.x, b.y))) :
    (updateNodeAt l x y node).Pairwise
      (fun a b => (a.x, a.y) ≠ (b.x, b.y)) := by
  induction l with
  | nil => exact h
  | cons n ns ih =>
    obtain ⟨hhead, htail⟩ := List.pairwise_cons.mp h
    unfold updateNodeAt
    by_cases hc : n.x = x ∧ n.y = y
    · rw [if_pos hc]
      refine List.pairwise_cons.mpr ⟨?_, htail⟩
      intro m hm
      rw [hx, hy, ← hc.1, ← hc.2]
      exact hhead m hm
    · rw [if_neg hc]
      refine List.pairwise_cons.mpr ⟨?_, ih htail⟩
      intro m hm
      rcases updateNodeAt_subset hm with rfl | hm
      · rw [hx, hy]
        intro hcon
        rw [Prod.mk.injEq] at hcon
        exact hc ⟨hcon.1, hcon.2⟩
      · exact hhead m hm

/-- The relaxed node built for a neighbor tile. -/
def relaxNode (grid : TileGrid) (endX endY : ℤ) (current : PathNode)
    (t : Tile) : PathNode :=
  { x := t.x, y := t.y, g := current.g + grid.getMovementCost t,
    h := chebyshev t.x t.y endX endY,
    chain := (t.x, t.y) :: current.chain }

/-- Case analysis of one `findPath` relaxation step. -/
theorem findPathRelax_cases (grid : TileGrid) (endX endY : ℤ) (b : Bool)
    (M : ℕ) (current : PathNode) (closed : List (ℤ × ℤ))
    (ol : List PathNode) (t : Tile) :
    findPathRelax grid endX endY b M current closed ol t = ol ∨
    ((t.x, t.y) ∉ closed ∧ passableFor b t = true ∧
     current.g + grid.getMovementCost t ≤ M ∧
     ((∃ existing ∈ ol, existing.x = t.x ∧ existing.y = t.y ∧
        current.g + grid.getMovementCost t < existing.g ∧
        findPathRelax grid endX endY b M current closed ol t =
          updateNodeAt ol t.x t.y (relaxNode grid endX endY current t)) ∨
      ((∀ n ∈ ol, ¬(n.x = t.x ∧ n.y = t.y)) ∧
        findPathRelax grid endX endY b M current closed ol t =
          ol ++ [relaxNode grid endX endY current t]))) := by
  unfold findPathRelax
  by_cases hcl : (t.x, t.y) ∈ closed
  · rw [if_pos hcl]
    exact Or.inl rfl
  · rw [if_neg hcl]
    by_cases hp : passableFor b t
    · rw [if_neg (by simpa using hp)]
      by_cases hM : M < current.g + grid.getMovementCost t
      · rw [if_pos hM]
        exact Or.inl rfl
      · rw [if_neg hM]
        cases hf : ol.find? (fun n => n.x = t.x ∧ n.y = t.y) with
        | some existing =>
          dsimp only
          by_cases hlt : existing.g ≤ current.g + grid.getMovementCost t
          · rw [if_pos hlt]
            exact Or.inl rfl
          · rw [if_neg hlt]
            have hmem := List.mem_of_find?_eq_some hf
            have hpred := List.find?_some hf
            simp only [decide_eq_true_eq, Bool.and_eq_true] at hpred
            obtain ⟨hex, hey⟩ : existing.x = t.x ∧ existing.y = t.y := by
              constructor <;> simp_all
            exact Or.inr ⟨hcl, by simpa using hp, by omega,
              Or.inl ⟨existing, hmem, hex, hey, by omega, rfl⟩⟩
        | none =>
          dsimp only
          rw [List.find?_eq_none] at hf
          refine Or.inr ⟨hcl, by simpa using hp, by omega, Or.inr ⟨?_, rfl⟩⟩
          intro n hn
          have := hf n hn
          simpa using this
    · rw [if_pos (by simpa using hp)]
      exact Or.inl rfl

/-- Any member of a relaxed open list is an old member or the relaxed
node of the processed tile, which then satisfies the processing guards. -/
theorem findPathRelax_origin {grid : TileGrid} {endX endY : ℤ} {b : Bool}
    {M : ℕ} {current : PathNode} {closed : List (ℤ × ℤ)}
    {ol : List PathNode} {t : Tile} {m : PathNode}
    (h : m ∈ findPathRelax grid endX endY b M current closed ol t) :
    m ∈ ol ∨
    ((t.x, t.y) ∉ closed ∧ passableFor b t = true ∧
      current.g + grid.getMovementCost t ≤ M ∧
      m = relaxNode grid endX endY current t) := by
  rcases findPathRelax_cases grid endX endY b M current closed ol t with
    heq | ⟨hcl, hp, hM, hcase⟩
  · rw [heq] at h
    exact Or.inl h
  · rcases hcase with ⟨existing, _, _, _, _, heq⟩ | ⟨_, heq⟩
    · rw [heq] at h
      rcases updateNodeAt_subset h with rfl | h
      · exact Or.inr ⟨hcl, hp, hM, rfl⟩
      · exact Or.inl h
    · rw [heq] at h
      rcases List.mem_append.mp h with h | h
      · exact Or.inl h
      · rw [List.mem_singleton] at h
        exact Or.inr ⟨hcl, hp, hM, h⟩

/-- Fold version of `findPathRelax_origin` over a neighbor list. -/
theorem findPathRelax_fold_origin {grid : TileGrid} {endX endY : ℤ}
    {b : Bool} {M : ℕ} {current : PathNode} {closed : List (ℤ × ℤ)} :
    ∀ {ts : List Tile} {ol : List PathNode} {m : PathNode},
    m ∈ ts.foldl (findPathRelax grid endX endY b M current closed) ol →
    m ∈ ol ∨
    ∃ t ∈ ts, (t.x, t.y) ∉ closed ∧ passableFor b t = true ∧
      current.g + grid.getMovementCost t ≤ M ∧
      m = relaxNode grid endX endY current t := by
  intro ts
  induction ts with
  | nil => intro ol m h; exact Or.inl h
  | cons t ts ih =>
    intro ol m h
    rw [List.foldl_cons] at h
    rcases ih h with h | ⟨u, hu, h1, h2, h3, h4⟩
    · rcases findPathRelax_origin h with h | ⟨h1, h2, h3, h4⟩
      · exact Or.inl h
      · exact Or.inr ⟨t, List.mem_cons_self _ _, h1, h2, h3, h4⟩
    · exact Or.inr ⟨u, List.mem_cons_of_mem _ hu, h1, h2, h3, h4⟩

-- ─── C8: the no-path outcome of findPath ─────────────────────────────────

/-- If the goal is unreachable within the budget, the `findPath` loop ends
with the no-path result from any open list of sound nodes. -/
theorem findPathLoop_unreachable (grid : TileGrid) (b : Bool) (M : ℕ)
    (startP goal : ℤ × ℤ)
    (h : ∀ c, Reaches grid b startP goal c → ¬ c ≤ M) :
    ∀ (fuel : ℕ) (ol : List PathNode) (closed : List (ℤ × ℤ)),
    (∀ n ∈ ol, Reaches grid b startP (n.x, n.y) n.g ∧ n.g ≤ M) →
    findPathLoop grid goal.1 goal.2 b M fuel ol closed = ⟨[], 0, false⟩ := by
  intro fuel
  induction fuel with
  | zero => intro ol closed _; rw [findPathLoop]
  | succ f ih =>
    intro ol closed hsound
    rw [findPathLoop]
    cases hpick : pickLowestF ol with
    | none => rfl
    | some current =>
      dsimp only
      have hcur := hsound current (pickLowestF_mem hpick)
      by_cases hgoal : current.x = goal.1 ∧ current.y = goal.2
      · exfalso
        have hcg : (current.x, current.y) = goal := by
          rw [hgoal.1, hgoal.2]
        rw [hcg] at hcur
        exact h current.g hcur.1 hcur.2
      · rw [if_neg hgoal]
        apply ih
        intro n hn
        rcases findPathRelax_fold_origin hn with hn | ⟨t, ht, _, hp, hM, heq⟩
        · exact hsound n (List.mem_filter.mp hn).1
        · subst heq
          unfold relaxNode
          dsimp only
          have hstep : stepOK grid b (current.x, current.y) (t.x, t.y) :=
            ⟨t, ht, rfl, rfl, hp⟩
          have hr := Reaches.step hcur.1 hstep
          rw [coordCost_of_mem ht] at hr
          exact ⟨hr, hM⟩

/-- C8: when no legal path from start to goal stays within the movement
budget, `findPath` returns the empty path, total cost 0 and
`reachable = false` (it never throws: the function is total). -/
theorem findPath_no_path (grid : TileGrid) (startX startY endX endY : ℤ)
    (b : Bool) (M : ℕ)
    (h : ∀ c, Reaches grid b (startX, startY) (endX, endY) c → ¬ c ≤ M) :
    findPath grid startX startY endX endY b M = ⟨[], 0, false⟩ := by
  unfold findPath
  exact findPathLoop_unreachable grid b M (startX, startY) (endX, endY) h
    (findPathFuel grid) _ [] (by
      intro n hn
      rw [List.mem_singleton] at hn
      subst hn
      exact ⟨Reaches.start, Nat.zero_le M⟩)

/-- Witness for C8: on a grid with no tiles every step is impossible, so a
goal distinct from the start is unreachable and `findPath` reports the
no-path result. -/
theorem findPath_no_path_witness :
    (∀ c, Reaches { width := 0, height := 0, tiles := [] } false (0, 0)
      (1, 0) c → ¬ c ≤ 3) ∧
    findPath { width := 0, height := 0, tiles := [] } 0 0 1 0 false 3 =
      ⟨[], 0, false⟩ := by
  have hnr : ∀ c, Reaches { width := 0, height := 0, tiles := [] } false
      (0, 0) (1, 0) c → ¬ c ≤ 3 := by
    intro c hc _
    have hgn : ∀ (a b : ℤ), TileGrid.getNeighbors
        { width := 0, height := 0, tiles := [] } a b = [] := by
      intro a b
      simp [TileGrid.getNeighbors, TileGrid.getTile, TileGrid.neighborDirs]
    cases hc with
    | step hu hstep =>
      obtain ⟨t, ht, _⟩ := hstep
      rw [hgn] at ht
      cases ht
  exact ⟨hnr, findPath_no_path _ 0 0 1 0 false 3 hnr⟩


-- ─── A* search (findPath): optimality invariants ─────────────────────────

/-- With pairwise-distinct coordinates, two members at the same coordinate
are the same node. -/
theorem pairwise_coords_unique :
    ∀ {l : List PathNode},
    l.Pairwise (fun a c => (a.x, a.y) ≠ (c.x, c.y)) →
    ∀ {n m : PathNode}, n ∈ l → m ∈ l → (n.x, n.y) = (m.x, m.y) →
    n = m := by
  intro l
  induction l with
  | nil =>
    intro _ n m hn _ _
    cases hn
  | cons a as ih =>
    intro h n m hn hm hc
    obtain ⟨hhead, htail⟩ := List.pairwise_cons.mp h
    rcases List.mem_cons.mp hn with hn1 | hn1
    · rcases List.mem_cons.mp hm with hm1 | hm1
      · rw [hn1, hm1]
      · subst hn1
        exact absurd hc (hhead m hm1)
    · rcases List.mem_cons.mp hm with hm1 | hm1
      · subst hm1
        exact absurd hc.symm (hhead n hn1)
      · exact ih htail hn1 hm1 hc

/-- Coordinate-distinctness survives one relaxation step. -/
theorem findPathRelax_pairwise {grid : TileGrid} {endX endY : ℤ} {b : Bool}
    {M : ℕ} {current : PathNode} {closed : List (ℤ × ℤ)}
    {ol : List PathNode} {t : Tile}
    (h : ol.Pairwise (fun a c => (a.x, a.y) ≠ (c.x, c.y))) :
    (findPathRelax grid endX endY b M current closed ol t).Pairwise
      (fun a c => (a.x, a.y) ≠ (c.x, c.y)) := by
  rcases findPathRelax_cases grid endX endY b M current closed ol t with
    heq | ⟨_, _, _, hcase⟩
  · rw [heq]; exact h
  · rcases hcase with ⟨existing, _, _, _, _, heq⟩ | ⟨hnone, heq⟩
    · rw [heq]
      exact updateNodeAt_pairwise rfl rfl h
    · rw [heq]
      rw [List.pairwise_append]
      refine ⟨h, List.pairwise_singleton _ _, ?_⟩
      intro n hn m hm
      rw [List.mem_singleton] at hm
      subst hm
      intro hc
      rw [Prod.ext_iff] at hc
      exact hnone n hn ⟨hc.1, hc.2⟩

/-- A recorded coordinate bound survives one relaxation step: whatever
coordinate had an open node with `g` at most `G` still has one. -/
theorem findPathRelax_mono {grid : TileGrid} {endX endY : ℤ} {b : Bool}
    {M : ℕ} {current : PathNode} {closed : List (ℤ × ℤ)}
    {ol : List PathNode} {t : Tile}
    (hpair : ol.Pairwise (fun a c => (a.x, a.y) ≠ (c.x, c.y)))
    {k : ℤ × ℤ} {G : ℕ} (h : ∃ n ∈ ol, (n.x, n.y) = k ∧ n.g ≤ G) :
    ∃ n ∈ findPathRelax grid endX endY b M current closed ol t,
      (n.x, n.y) = k ∧ n.g ≤ G := by
  obtain ⟨n, hn, hnc, hng⟩ := h
  rcases findPathRelax_cases grid endX endY b M current closed ol t with
    heq | ⟨_, _, _, hcase⟩
  · rw [heq]; exact ⟨n, hn, hnc, hng⟩
  · rcases hcase with ⟨existing, hex, hexx, hexy, hlt, heq⟩ | ⟨_, heq⟩
    · rw [heq]
      by_cases hk : k = (t.x, t.y)
      · have hne : n = existing := by
          apply pairwise_coords_unique hpair hn hex
          rw [hnc, hk, Prod.ext_iff]
          exact ⟨hexx.symm, hexy.symm⟩
        refine ⟨relaxNode grid endX endY current t, ?_, ?_, ?_⟩
        · exact updateNodeAt_mem _ ⟨existing, hex, hexx, hexy⟩
        · rw [hk]; rfl
        · subst hne
          unfold relaxNode
          dsimp only
          omega
      · refine ⟨n, ?_, hnc, hng⟩
        apply updateNodeAt_keep hn
        intro hcon
        apply hk
        rw [← hnc, Prod.ext_iff]
        exact ⟨hcon.1, hcon.2⟩
    · rw [heq]
      exact ⟨n, List.mem_append_left _ hn, hnc, hng⟩

/-- After its own relaxation step, an unclosed passable in-budget neighbor
has an open node at no more than the tentative cost. -/
theorem findPathRelax_processed {grid : TileGrid} {endX endY : ℤ}
    {b : Bool} {M : ℕ} {current : PathNode} {closed : List (ℤ × ℤ)}
    {ol : List PathNode} {t : Tile}
    (hcl : (t.x, t.y) ∉ closed) (hp : passableFor b t = true)
    (hM : current.g + grid.getMovementCost t ≤ M) :
    ∃ n ∈ findPathRelax grid endX endY b M current closed ol t,
      (n.x, n.y) = (t.x, t.y) ∧
      n.g ≤ current.g + grid.getMovementCost t := by
  unfold findPathRelax
  rw [if_neg (by simpa using hcl), if_neg (by simp [hp]), if_neg (by omega)]
  cases hf : ol.find? (fun n => n.x = t.x ∧ n.y = t.y) with
  | some existing =>
    dsimp only
    have hmem := List.mem_of_find?_eq_some hf
    have hpred := List.find?_some hf
    simp only [decide_eq_true_eq, Bool.and_eq_true] at hpred
    obtain ⟨hex, hey⟩ : existing.x = t.x ∧ existing.y = t.y := by
      constructor <;> simp_all
    by_cases hlt : existing.g ≤ current.g + grid.getMovementCost t
    · rw [if_pos hlt]
      exact ⟨existing, hmem, by rw [Prod.ext_iff]; exact ⟨hex, hey⟩, hlt⟩
    · rw [if_neg hlt]
      refine ⟨relaxNode grid endX endY current t, ?_, rfl, le_refl _⟩
      exact updateNodeAt_mem _ ⟨existing, hmem, hex, hey⟩
  | none =>
    dsimp only
    exact ⟨relaxNode grid endX endY current t,
      List.mem_append_right _ (List.mem_singleton_self _), rfl, le_refl _⟩

/-- The neighbor-relaxation fold of one `findPath` iteration: coordinate
distinctness is preserved, recorded coordinate bounds survive, and every
processed unclosed passable in-budget neighbor ends with an open node at
no more than its tentative cost. -/
theorem findPathRelax_fold_strong (grid : TileGrid) (endX endY : ℤ)
    (b : Bool) (M : ℕ) (current : PathNode) (closed : List (ℤ × ℤ)) :
    ∀ (ts : List Tile) (ol : List PathNode),
    ol.Pairwise (fun a c => (a.x, a.y) ≠ (c.x, c.y)) →
    (ts.foldl (findPathRelax grid endX endY b M current closed)
        ol).Pairwise (fun a c => (a.x, a.y) ≠ (c.x, c.y)) ∧
    (∀ (k : ℤ × ℤ) (G : ℕ), (∃ n ∈ ol, (n.x, n.y) = k ∧ n.g ≤ G) →
      ∃ n ∈ ts.foldl (findPathRelax grid endX endY b M current closed) ol,
        (n.x, n.y) = k ∧ n.g ≤ G) ∧
    (∀ t ∈ ts, (t.x, t.y) ∉ closed → passableFor b t = true →
      current.g + grid.getMovementCost t ≤ M →
      ∃ n ∈ ts.foldl (findPathRelax grid endX endY b M current closed) ol,
        (n.x, n.y) = (t.x, t.y) ∧
        n.g ≤ current.g + grid.getMovementCost t) := by
  intro ts
  induction ts with
  | nil =>
    intro ol hpair
    exact ⟨hpair, fun k G h => h, fun t ht => absurd ht (List.not_mem_nil t)⟩
  | cons t ts ih =>
    intro ol hpair
    rw [List.foldl_cons]
    obtain ⟨P, M2, R3⟩ := ih
      (findPathRelax grid endX endY b M current closed ol t)
      (findPathRelax_pairwise hpair)
    refine ⟨P, ?_, ?_⟩
    · intro k G h
      exact M2 k G (findPathRelax_mono hpair h)
    · intro u hu hcl hp hM
      rcases List.mem_cons.mp hu with rfl | hu
      · exact M2 _ _ (findPathRelax_processed hcl hp hM)
      · exact R3 u hu hcl hp hM

/-- Invariant of the `findPath` loop state: open nodes are sound with a
correct heuristic and pairwise-distinct unclosed in-box coordinates; the
start is closed or open at cost 0; closed coordinates are distinct, inside
the box, never the goal, and each carries an optimal cost all of whose
relaxations are recorded. -/
structure AStarInv (grid : TileGrid) (b : Bool) (M : ℕ)
    (start goal : ℤ × ℤ) (ol : List PathNode)
    (closed : List (ℤ × ℤ)) : Prop where
  oSound : ∀ n ∈ ol, Reaches grid b start (n.x, n.y) n.g ∧ n.g ≤ M ∧
    n.h = chebyshev n.x n.y goal.1 goal.2
  oKeys : ol.Pairwise (fun a c => (a.x, a.y) ≠ (c.x, c.y))
  oDisj : ∀ n ∈ ol, (n.x, n.y) ∉ closed
  oBox : ∀ n ∈ ol, (n.x, n.y) ∈ insert start (boxKeys grid)
  startInv : start ∈ closed ∨ ∃ n ∈ ol, (n.x, n.y) = start ∧ n.g = 0
  cNodup : closed.Nodup
  cBox : ∀ p ∈ closed, p ∈ insert start (boxKeys grid)
  goalOpen : goal ∉ closed
  cClosed : ∀ p ∈ closed, ∃ gp : ℕ, Reaches grid b start p gp ∧ gp ≤ M ∧
    (∀ c, Reaches grid b start p c → gp ≤ c) ∧
    ∀ t ∈ grid.getNeighbors p.1 p.2, passableFor b t = true →
      gp + grid.getMovementCost t ≤ M →
      (t.x, t.y) ∈ closed ∨
      ∃ n ∈ ol, (n.x, n.y) = (t.x, t.y) ∧
        n.g ≤ gp + grid.getMovementCost t

/-- Frontier property: any coordinate legally reachable within the budget
is closed, or some open node underestimates its cost through the
remaining Chebyshev distance. -/
theorem astar_frontier (grid : TileGrid) (b : Bool) (M : ℕ)
    (start goal : ℤ × ℤ) (ol : List PathNode) (closed : List (ℤ × ℤ))
    (inv : AStarInv grid b M start goal ol closed) :
    ∀ (v : ℤ × ℤ) (c : ℕ), Reaches grid b start v c → c ≤ M →
    v ∈ closed ∨ ∃ n ∈ ol, n.g + chebyshev n.x n.y v.1 v.2 ≤ c := by
  intro v c h
  induction h with
  | start =>
    intro _
    rcases inv.startInv with hcl | ⟨n, hn, hco, hg⟩
    · exact Or.inl hcl
    · right
      refine ⟨n, hn, ?_⟩
      have hx1 : n.x = start.1 := congrArg Prod.fst hco
      have hy1 : n.y = start.2 := congrArg Prod.snd hco
      rw [hx1, hy1, chebyshev_self, hg]
  | step hu hstep ih =>
    rename_i u v' cu
    intro hbud
    have hw1 := coordCost_pos hstep
    have hcu : cu ≤ M := by omega
    obtain ⟨t, ht, hx, hy, hp⟩ := hstep
    have hv : v' = (t.x, t.y) := by rw [hx, hy]
    have hcc : coordCost grid v' = grid.getMovementCost t := by
      rw [hv]; exact coordCost_of_mem ht
    rcases ih hcu with hcl | ⟨n, hn, hle⟩
    · obtain ⟨gp, hgr, hgM, hgopt, hclause⟩ := inv.cClosed u hcl
      have hgu : gp ≤ cu := hgopt cu hu
      have hbM : gp + grid.getMovementCost t ≤ M := by
        rw [hcc] at hbud
        omega
      rcases hclause t ht hp hbM with hcl2 | ⟨n, hn, hnc, hng⟩
      · left
        rw [hv]
        exact hcl2
      · right
        refine ⟨n, hn, ?_⟩
        have hx1 : n.x = t.x := congrArg Prod.fst hnc
        have hy1 : n.y = t.y := congrArg Prod.snd hnc
        rw [hv]
        dsimp only
        rw [hx1, hy1, chebyshev_self, coordCost_of_mem ht]
        omega
    · right
      refine ⟨n, hn, ?_⟩
      have htri := chebyshev_triangle n.x n.y u.1 u.2 v'.1 v'.2
      have hstep2 : stepOK grid b u v' := ⟨t, ht, hx, hy, hp⟩
      have hadj := chebyshev_stepOK hstep2
      omega

/-- At pop time the scanned minimal-`f` node carries an optimal cost. -/
theorem astar_pop_optimal {grid : TileGrid} {b : Bool} {M : ℕ}
    {start goal : ℤ × ℤ} {ol : List PathNode} {closed : List (ℤ × ℤ)}
    {current : PathNode}
    (inv : AStarInv grid b M start goal ol closed)
    (hpick : pickLowestF ol = some current) :
    ∀ c, Reaches grid b start (current.x, current.y) c → current.g ≤ c := by
  intro c hc
  by_contra hlt
  push_neg at hlt
  have hmem := pickLowestF_mem hpick
  have hsc := inv.oSound current hmem
  have hcM : c ≤ M := by omega
  rcases astar_frontier grid b M start goal ol closed inv
      (current.x, current.y) c hc hcM with hcl | ⟨n, hn, hle⟩
  · exact inv.oDisj current hmem hcl
  · have hfmin := pickLowestF_min hpick n hn
    have hsn := inv.oSound n hn
    unfold PathNode.f at hfmin
    rw [hsn.2.2, hsc.2.2] at hfmin
    dsimp only at hle
    have htri := chebyshev_triangle n.x n.y current.x current.y
      goal.1 goal.2
    omega

/-- Closing a popped non-goal node and relaxing its neighbors preserves
the `findPath` loop invariant. -/
theorem astar_step_inv {grid : TileGrid} {b : Bool} {M : ℕ}
    {start goal : ℤ × ℤ} {ol : List PathNode} {closed : List (ℤ × ℤ)}
    {current : PathNode}
    (inv : AStarInv grid b M start goal ol closed)
    (hpick : pickLowestF ol = some current)
    (hgoal : ¬(current.x = goal.1 ∧ current.y = goal.2)) :
    AStarInv grid b M start goal
      ((grid.getNeighbors current.x current.y).foldl
        (findPathRelax grid goal.1 goal.2 b M current
          ((current.x, current.y) :: closed))
        (ol.filter (fun n => ¬(n.x = current.x ∧ n.y = current.y))))
      ((current.x, current.y) :: closed) := by
  have hmem := pickLowestF_mem hpick
  have hsc := inv.oSound current hmem
  have hcopt := astar_pop_optimal inv hpick
  have hol1pair : (ol.filter
      (fun n => ¬(n.x = current.x ∧ n.y = current.y))).Pairwise
      (fun a c => (a.x, a.y) ≠ (c.x, c.y)) :=
    List.Pairwise.filter _ inv.oKeys
  have hol1mem : ∀ {n : PathNode},
      n ∈ ol.filter (fun n => ¬(n.x = current.x ∧ n.y = current.y)) →
      n ∈ ol ∧ ¬(n.x = current.x ∧ n.y = current.y) := by
    intro n hn
    have h2 := List.mem_filter.mp hn
    exact ⟨h2.1, of_decide_eq_true h2.2⟩
  have hol1of : ∀ {n : PathNode}, n ∈ ol →
      ¬(n.x = current.x ∧ n.y = current.y) →
      n ∈ ol.filter (fun n => ¬(n.x = current.x ∧ n.y = current.y)) := by
    intro n hn hne
    exact List.mem_filter.mpr ⟨hn, decide_eq_true hne⟩
  obtain ⟨P, M2, R3⟩ := findPathRelax_fold_strong grid goal.1 goal.2 b M
    current ((current.x, current.y) :: closed)
    (grid.getNeighbors current.x current.y)
    (ol.filter (fun n => ¬(n.x = current.x ∧ n.y = current.y))) hol1pair
  refine ⟨?_, P, ?_, ?_, ?_, ?_, ?_, ?_, ?_⟩
  · -- oSound
    intro n hn
    rcases findPathRelax_fold_origin hn with hn | ⟨t, ht, _, hp, hM, rfl⟩
    · exact inv.oSound n (hol1mem hn).1
    · have hstep : stepOK grid b (current.x, current.y) (t.x, t.y) :=
        ⟨t, ht, rfl, rfl, hp⟩
      have hr := Reaches.step hsc.1 hstep
      rw [coordCost_of_mem ht] at hr
      exact ⟨hr, hM, rfl⟩
  · -- oDisj
    intro n hn
    rcases findPathRelax_fold_origin hn with hn | ⟨t, ht, hncl, hp, hM, rfl⟩
    · obtain ⟨hn1, hne⟩ := hol1mem hn
      intro hcon
      rcases List.mem_cons.mp hcon with hcon | hcon
      · rw [Prod.ext_iff] at hcon
        exact hne ⟨hcon.1, hcon.2⟩
      · exact inv.oDisj n hn1 hcon
    · exact hncl
  · -- oBox
    intro n hn
    rcases findPathRelax_fold_origin hn with hn | ⟨t, ht, _, _, _, rfl⟩
    · exact inv.oBox n (hol1mem hn).1
    · exact Finset.mem_insert_of_mem (mem_boxKeys_of_neighbor ht)
  · -- startInv
    rcases inv.startInv with hcl | ⟨n, hn, hco, hg⟩
    · exact Or.inl (List.mem_cons_of_mem _ hcl)
    · by_cases hcc : n.x = current.x ∧ n.y = current.y
      · left
        rw [← hco, hcc.1, hcc.2]
        exact List.mem_cons_self _ _
      · obtain ⟨m, hm, hmc, hmg⟩ := M2 start 0
          ⟨n, hol1of hn hcc, hco, by omega⟩
        exact Or.inr ⟨m, hm, hmc, Nat.le_zero.mp hmg⟩
  · -- cNodup
    exact List.nodup_cons.mpr ⟨inv.oDisj current hmem, inv.cNodup⟩
  · -- cBox
    intro p hp
    rcases List.mem_cons.mp hp with rfl | hp
    · exact inv.oBox current hmem
    · exact inv.cBox p hp
  · -- goalOpen
    intro hcon
    rcases List.mem_cons.mp hcon with hcon | hcon
    · rw [Prod.ext_iff] at hcon
      exact hgoal ⟨hcon.1.symm, hcon.2.symm⟩
    · exact inv.goalOpen hcon
  · -- cClosed
    intro p hp
    rcases List.mem_cons.mp hp with rfl | hp
    · refine ⟨current.g, hsc.1, hsc.2.1, hcopt, ?_⟩
      intro t ht htp htM
      by_cases htcl : (t.x, t.y) ∈ (current.x, current.y) :: closed
      · exact Or.inl htcl
      · obtain ⟨n, hn, hnc, hng⟩ := R3 t ht htcl htp htM
        exact Or.inr ⟨n, hn, hnc, hng⟩
    · obtain ⟨gp, h1, h2, h3, hclause⟩ := inv.cClosed p hp
      refine ⟨gp, h1, h2, h3, ?_⟩
      intro t ht htp htM
      rcases hclause t ht htp htM with hcl | ⟨n, hn, hnc, hng⟩
      · exact Or.inl (List.mem_cons_of_mem _ hcl)
      · by_cases hcc : n.x = current.x ∧ n.y = current.y
        · left
          rw [← hnc, hcc.1, hcc.2]
          exact List.mem_cons_self _ _
        · obtain ⟨m, hm, hmc, hmg⟩ := M2 (t.x, t.y) _
            ⟨n, hol1of hn hcc, hnc, hng⟩
          exact Or.inr ⟨m, hm, hmc, hmg⟩


/-- With enough fuel, from an invariant state the `findPath` loop finds
the goal at its optimal in-budget cost. -/
theorem findPathLoop_optimal (grid : TileGrid) (b : Bool) (M : ℕ)
    (start goal : ℤ × ℤ) (c₀ : ℕ)
    (hr : Reaches grid b start goal c₀) (hM : c₀ ≤ M)
    (hopt : ∀ c, Reaches grid b start goal c → c₀ ≤ c) :
    ∀ (fuel : ℕ) (ol : List PathNode) (closed : List (ℤ × ℤ)),
    AStarInv grid b M start goal ol closed →
    (insert start (boxKeys grid)).card + 1 ≤ closed.length + fuel →
    (findPathLoop grid goal.1 goal.2 b M fuel ol closed).totalCost = c₀ ∧
    (findPathLoop grid goal.1 goal.2 b M fuel ol closed).reachable =
      true := by
  intro fuel
  induction fuel with
  | zero =>
    intro ol closed inv hfuel
    exfalso
    have hsub : closed.toFinset ⊆ insert start (boxKeys grid) := by
      intro p hp
      exact inv.cBox p (List.mem_toFinset.mp hp)
    have hcard := Finset.card_le_card hsub
    rw [List.toFinset_card_of_nodup inv.cNodup] at hcard
    omega
  | succ f ih =>
    intro ol closed inv hfuel
    rw [findPathLoop]
    cases hpick : pickLowestF ol with
    | none =>
      exfalso
      have hol : ol = [] := pickLowestF_eq_none.mp hpick
      rcases astar_frontier grid b M start goal ol closed inv goal c₀ hr hM
        with hcl | ⟨n, hn, _⟩
      · exact inv.goalOpen hcl
      · rw [hol] at hn
        exact absurd hn (List.not_mem_nil n)
    | some current =>
      dsimp only
      have hmem := pickLowestF_mem hpick
      have hsc := inv.oSound current hmem
      by_cases hgoal : current.x = goal.1 ∧ current.y = goal.2
      · rw [if_pos hgoal]
        have hcg : (current.x, current.y) = goal := by
          rw [hgoal.1, hgoal.2]
        have hrc : Reaches grid b start goal current.g := by
          rw [← hcg]
          exact hsc.1
        have h1 : c₀ ≤ current.g := hopt current.g hrc
        have h2 : current.g ≤ c₀ := by
          by_contra hlt
          push_neg at hlt
          rcases astar_frontier grid b M start goal ol closed inv goal c₀
            hr hM with hcl | ⟨n, hn, hle⟩
          · exact inv.goalOpen hcl
          · have hfmin := pickLowestF_min hpick n hn
            have hsn := inv.oSound n hn
            unfold PathNode.f at hfmin
            rw [hsn.2.2, hsc.2.2, hgoal.1, hgoal.2, chebyshev_self]
              at hfmin
            omega
        exact ⟨by dsimp only; omega, rfl⟩
      · rw [if_neg hgoal]
        have hinv2 := astar_step_inv inv hpick hgoal
        have hres := ih _ _ hinv2 (by
          rw [List.length_cons]
          omega)
        exact hres

/-- C1: every coordinate recorded by `getReachableTiles` is recorded at
exactly the `totalCost` that `findPath` reports for a search from the
same start to that coordinate with the same movement budget and domain
(and `findPath` reports it reachable). -/
theorem reach_cost_eq_findPath_cost (grid : TileGrid)
    (startX startY : ℤ) (M : ℕ) (b : Bool) (v : ℤ × ℤ) (c : ℕ)
    (h : reachLookup (getReachableTiles grid startX startY M b) v =
      some c) :
    (findPath grid startX startY v.1 v.2 b M).totalCost = c ∧
    (findPath grid startX startY v.1 v.2 b M).reachable = true := by
  obtain ⟨hr, hM, hopt⟩ :=
    (getReachableTiles_correct grid startX startY M b).2.1 v c h
  have hinv0 : AStarInv grid b M (startX, startY) v
      [{ x := startX, y := startY, g := 0,
         h := chebyshev startX startY v.1 v.2,
         chain := [(startX, startY)] }] [] := by
    refine ⟨?_, ?_, ?_, ?_, ?_, ?_, ?_, ?_, ?_⟩
    · intro n hn
      rw [List.mem_singleton] at hn
      subst hn
      exact ⟨Reaches.start, Nat.zero_le M, rfl⟩
    · exact List.pairwise_singleton _ _
    · intro n _
      exact List.not_mem_nil _
    · intro n hn
      rw [List.mem_singleton] at hn
      subst hn
      exact Finset.mem_insert_self _ _
    · exact Or.inr ⟨_, List.mem_singleton_self _, rfl, rfl⟩
    · exact List.nodup_nil
    · intro p hp
      exact absurd hp (List.not_mem_nil p)
    · exact List.not_mem_nil _
    · intro p hp
      exact absurd hp (List.not_mem_nil p)
  have hfuel : (insert (startX, startY) (boxKeys grid)).card + 1 ≤
      (([] : List (ℤ × ℤ))).length + findPathFuel grid := by
    have hins := Finset.card_insert_le (startX, startY) (boxKeys grid)
    rw [card_boxKeys] at hins
    unfold findPathFuel
    simp only [List.length_nil]
    omega
  have hres := findPathLoop_optimal grid b M (startX, startY) v c hr hM
    hopt (findPathFuel grid)
    [{ x := startX, y := startY, g := 0,
       h := chebyshev startX startY v.1 v.2,
       chain := [(startX, startY)] }] [] hinv0 hfuel
  exact hres

/-- Witness for C1: on the 2×2 grassland grid the reachable map from
(0,0) with budget 2 records (1,1) at cost 1, and `findPath` to (1,1)
reports total cost 1 and reachable. -/
theorem reach_cost_eq_findPath_cost_witness :
    reachLookup (getReachableTiles sampleGrid2 0 0 2 false)
      ((1 : ℤ), (1 : ℤ)) = some 1 ∧
    (findPath sampleGrid2 0 0 1 1 false 2).totalCost = 1 ∧
    (findPath sampleGrid2 0 0 1 1 false 2).reachable = true :=
  ⟨by decide,
   reach_cost_eq_findPath_cost sampleGrid2 0 0 2 false (1, 1) 1
     (by decide)⟩


-- ─── C9: the alive ⇒ positive-hp invariant through resolveTurn ───────────

/-- Members of `replaceFirstBy` are the replacement or old members. -/
theorem replaceFirstBy_subset {α : Type} :
    ∀ {l : List α} {p : α → Bool} {a x : α},
    x ∈ replaceFirstBy l p a → x = a ∨ x ∈ l := by
  intro l
  induction l with
  | nil =>
    intro p a x h
    cases h
  | cons y ys ih =>
    intro p a x h
    unfold replaceFirstBy at h
    by_cases hp : p y = true
    · rw [if_pos hp] at h
      rcases List.mem_cons.mp h with rfl | h
      · exact Or.inl rfl
      · exact Or.inr (List.mem_cons_of_mem _ h)
    · rw [if_neg hp] at h
      rcases List.mem_cons.mp h with rfl | h
      · exact Or.inr (List.mem_cons_self _ _)
      · rcases ih h with h | h
        · exact Or.inl h
        · exact Or.inr (List.mem_cons_of_mem _ h)

/-- Fold preservation: a state predicate closed under the step function
survives a left fold. -/
theorem foldl_pred_preserve {α σ : Type} (P : σ → Prop) (f : σ → α → σ)
    (hf : ∀ s a, P s → P (f s a)) :
    ∀ (l : List α) (s : σ), P s → P (l.foldl f s) := by
  intro l
  induction l with
  | nil =>
    intro s h
    exact h
  | cons a l ih =>
    intro s h
    rw [List.foldl_cons]
    exact ih _ (hf s a h)

/-- Phase 1 (movement) preserves alive ⇒ positive hp: moving touches
neither the alive flag nor the hit points. -/
theorem phase1Moves_inv (actions : List TurnAction)
    (units : List UnitInstance)
    (hinv : ∀ u ∈ units, u.isAlive = true → 0 < u.currentHp) :
    ∀ u ∈ phase1Moves actions units, u.isAlive = true → 0 < u.currentHp := by
  unfold phase1Moves
  induction actions generalizing units with
  | nil => exact hinv
  | cons a as ih =>
    rw [List.foldl_cons]
    apply ih
    cases hd : a.data with
    | move unitId targetX targetY =>
      dsimp only
      cases hf : units.find? (fun u => u.id = unitId ∧ u.isAlive) with
      | none => exact hinv
      | some unit =>
        dsimp only
        by_cases ho : unit.ownerId = a.playerId
        · rw [if_pos ho]
          intro u hu
          rcases replaceFirstBy_subset hu with rfl | hu
          · have hum := hinv unit (List.mem_of_find?_eq_some hf)
            unfold moveUnit
            exact hum
          · exact hinv u hu
        · rw [if_neg ho]
          exact hinv
    | build b1 b2 b3 b4 =>
      exact hinv
    | other =>
      exact hinv

/-- Phase 3 (build actions) preserves the invariant: a sacrificed unit is
set dead with hp 0, which satisfies it vacuously. -/
theorem phase3Build_inv (mkId : ℕ → String) (currentTurn : ℕ)
    (actions : List TurnAction) (buildings : List BuildingInstance)
    (units : List UnitInstance)
    (hinv : ∀ u ∈ units, u.isAlive = true → 0 < u.currentHp) :
    ∀ u ∈ (phase3Build mkId currentTurn actions buildings units).2,
      u.isAlive = true → 0 < u.currentHp := by
  unfold phase3Build
  dsimp only
  refine foldl_pred_preserve
    (fun st : List BuildingInstance × List UnitInstance =>
      ∀ u ∈ st.2, u.isAlive = true → 0 < u.currentHp) _ ?_ _ _ hinv
  intro s ia h
  obtain ⟨bs, us⟩ := s
  cases hd : ia.2.data with
  | move m1 m2 m3 =>
    exact h
  | other =>
    exact h
  | build buildingTypeId x y sacrificeUnitId =>
    dsimp only
    cases hs : sacrificeUnitId with
    | none =>
      dsimp only
      exact h
    | some sid =>
      dsimp only
      cases hf : us.find? (fun u => u.id = sid) with
      | none =>
        dsimp only
        exact h
      | some unit =>
        dsimp only
        intro u hu
        rcases replaceFirstBy_subset hu with rfl | hu
        · intro halive
          cases halive
        · exact h u hu

/-- Reproduction only spawns alive units at their full positive base hp. -/
theorem processReproduction_inv (roll : ℕ → ℚ)
    (mkId : ℕ → String) (units : List UnitInstance) (turn : ℕ)
    (hty : ∀ (t : String) (ty : UnitType), UNIT_TYPES t = some ty →
      0 < ty.stats.hp) :
    ∀ u ∈ processReproduction roll mkId units turn,
      u.isAlive = true → 0 < u.currentHp := by
  intro u hu _
  unfold processReproduction at hu
  rw [List.mem_filterMap] at hu
  obtain ⟨e, _, hfe⟩ := hu
  by_cases ha : e.2.isAlive = true
  · rw [if_neg (by simpa using ha)] at hfe
    cases hU : UNIT_TYPES e.2.typeId with
    | none => rw [hU] at hfe; cases hfe
    | some uType =>
      rw [hU] at hfe
      dsimp only at hfe
      by_cases hc : uType.canReproduce = true
      · rw [if_neg (by simpa using hc)] at hfe
        by_cases hrl : roll e.1 < uType.reproductionChance
        · rw [if_pos hrl] at hfe
          cases hfe
          dsimp only
          have := hty e.2.typeId uType hU
          exact_mod_cast this
        · rw [if_neg hrl] at hfe
          cases hfe
      · rw [if_pos (by simpa using hc)] at hfe
        cases hfe
  · rw [if_pos (by simpa using ha)] at hfe
    cases hfe

/-- The turn reset preserves the invariant: it only clears flags. -/
theorem resetUnitsForTurn_inv (units : List UnitInstance)
    (hinv : ∀ u ∈ units, u.isAlive = true → 0 < u.currentHp) :
    ∀ u ∈ resetUnitsForTurn units, u.isAlive = true → 0 < u.currentHp := by
  intro u hu
  unfold resetUnitsForTurn at hu
  rw [List.mem_map] at hu
  obtain ⟨v, hv, hvu⟩ := hu
  by_cases ha : v.isAlive = true
  · rw [if_pos ha] at hvu
    subst hvu
    exact hinv v hv
  · rw [if_neg ha] at hvu
    subst hvu
    exact hinv v hv

/-- Monthly economy only emits reproduction offspring as new units. -/
theorem phase6Economy_newUnits_inv
    (repRoll : ℕ → ℕ → ℚ) (repId : ℕ → ℕ → String) (grid : TileGrid)
    (currentTurn : ℕ) (units : List UnitInstance)
    (buildings : List BuildingInstance)
    (settlements : List SettlementInstance) (players : List Player)
    (hty : ∀ (t : String) (ty : UnitType), UNIT_TYPES t = some ty →
      0 < ty.stats.hp) :
    ∀ u ∈ (phase6Economy repRoll repId
        grid currentTurn units buildings settlements players).2.1,
      u.isAlive = true → 0 < u.currentHp := by
  unfold phase6Economy
  refine foldl_pred_preserve
    (fun st : List Player × List UnitInstance × List String =>
      ∀ u ∈ st.2.1, u.isAlive = true → 0 < u.currentHp) _ ?_ _ _
    (fun u hu => absurd hu (List.not_mem_nil u))
  intro s ip h
  obtain ⟨ps, newUs, msgs⟩ := s
  dsimp only
  intro u hu
  rcases List.mem_append.mp hu with hu | hu
  · exact h u hu
  · exact processReproduction_inv (repRoll ip.1) (repId ip.1)
      _ currentTurn hty u hu

/-- Fold preservation in the `Except` monad: a state predicate closed
under every successful step survives a successful `foldlM`. -/
theorem foldlM_except_pred {α σ : Type} (P : σ → Prop)
    (f : σ → α → Except String σ)
    (hf : ∀ s a s2, P s → f s a = Except.ok s2 → P s2) :
    ∀ (l : List α) (s out : σ), P s →
    l.foldlM f s = Except.ok out → P out := by
  intro l
  induction l with
  | nil =>
    intro s out h hout
    rw [List.foldlM_nil] at hout
    cases hout
    exact h
  | cons a l ih =>
    intro s out h hout
    rw [List.foldlM_cons] at hout
    cases hstep : f s a with
    | error e =>
      rw [hstep] at hout
      exact absurd hout (by simp [Bind.bind, Except.bind])
    | ok s2 =>
      rw [hstep] at hout
      have hout2 : l.foldlM f s2 = Except.ok out := hout
      exact ih s2 out (hf s a s2 h hstep) hout2

/-- Phase 2 (auto-combat) preserves alive ⇒ positive hp: every applied
result keeps each survivor's projected hit points positive and clamps a
dead unit's hit points to 0. -/
theorem phase2Combat_inv (rng : ℕ → ℚ × ℚ)
    (grid : TileGrid) (turn : ℕ) (pairs : List (String × String))
    (units : List UnitInstance) (out : List UnitInstance × List CombatLog)
    (hinv : ∀ u ∈ units, u.isAlive = true → 0 < u.currentHp)
    (h : phase2Combat rng grid turn pairs units =
      Except.ok out) :
    ∀ u ∈ out.1, u.isAlive = true → 0 < u.currentHp := by
  unfold phase2Combat at h
  refine foldlM_except_pred
    (fun st : List UnitInstance × List CombatLog =>
      ∀ u ∈ st.1, u.isAlive = true → 0 < u.currentHp) _ ?_ pairs.enum
    (units, []) out hinv h
  intro s ip s2 hP hstep
  obtain ⟨us, logs⟩ := s
  obtain ⟨i, p⟩ := ip
  dsimp only at hstep
  cases hfa : us.find? (fun u => u.id = p.1) with
  | none =>
    rw [hfa] at hstep
    cases hfb : us.find? (fun u => u.id = p.2) with
    | none =>
      rw [hfb] at hstep
      cases hstep
      exact hP
    | some defender =>
      rw [hfb] at hstep
      cases hstep
      exact hP
  | some attacker =>
    rw [hfa] at hstep
    cases hfb : us.find? (fun u => u.id = p.2) with
    | none =>
      rw [hfb] at hstep
      cases hstep
      exact hP
    | some defender =>
      rw [hfb] at hstep
      dsimp only at hstep
      cases hta : grid.getTile attacker.x attacker.y with
      | none =>
        rw [hta] at hstep
        cases htd : grid.getTile defender.x defender.y with
        | none =>
          rw [htd] at hstep
          cases hstep
          exact hP
        | some dTile =>
          rw [htd] at hstep
          cases hstep
          exact hP
      | some aTile =>
        rw [hta] at hstep
        cases htd : grid.getTile defender.x defender.y with
        | none =>
          rw [htd] at hstep
          cases hstep
          exact hP
        | some dTile =>
          rw [htd] at hstep
          dsimp only at hstep
          cases hres : simpleResolver rng i attacker defender
              aTile dTile turn with
          | error e =>
            rw [hres] at hstep
            exact absurd hstep (by simp [Bind.bind, Except.bind])
          | ok result =>
            rw [hres] at hstep
            have hstep2 : (Except.ok
                (replaceFirstBy
                  (replaceFirstBy us (fun u => u.id = p.1)
                    (applyCombatResult attacker defender result).1)
                  (fun u => u.id = p.2)
                  (applyCombatResult attacker defender result).2,
                 logs ++ [result.log]) :
                Except String (List UnitInstance × List CombatLog)) =
                Except.ok s2 := hstep
            cases hstep2
            unfold simpleResolver at hres
            obtain ⟨_, _, h3, h4⟩ := resolve_ok_spec hres
            obtain ⟨_, hAlive1, hAlive2⟩ :=
              applyCombatResult_hp_clamped h3 h4
            intro u hu
            rcases replaceFirstBy_subset hu with rfl | hu
            · exact hAlive2
            · rcases replaceFirstBy_subset hu with rfl | hu
              · exact hAlive1
              · exact hP u hu


/-- C9: `resolveTurn` preserves the unit invariant alive ⇒ positive hit
points across all seven phases: when every input unit satisfies it and
every known unit type has positive base hp, every updated unit and every
newly created unit in a successful result satisfies it too. -/
theorem resolveTurn_alive_hp_pos
    (combatRng : ℕ → ℚ × ℚ) (repRoll : ℕ → ℕ → ℚ)
    (repId : ℕ → ℕ → String) (buildId : ℕ → String) (game : Game)
    (players : List Player) (units : List UnitInstance)
    (buildings : List BuildingInstance)
    (settlements : List SettlementInstance) (armies : List Army)
    (actions : List TurnAction) (grid : TileGrid)
    (relations : List DiplomacyRelation) (r : TurnResolutionResult)
    (hinv : ∀ u ∈ units, u.isAlive = true → 0 < u.currentHp)
    (hty : ∀ (t : String) (ty : UnitType), UNIT_TYPES t = some ty →
      0 < ty.stats.hp)
    (h : resolveTurn combatRng repRoll
      repId buildId game players units buildings settlements armies
      actions grid relations = Except.ok r) :
    (∀ u ∈ r.updatedUnits, u.isAlive = true → 0 < u.currentHp) ∧
    (∀ u ∈ r.newUnits, u.isAlive = true → 0 < u.currentHp) := by
  unfold resolveTurn at h
  dsimp only at h
  cases hc : phase2Combat combatRng grid game.currentTurn
      (findCombatPairs (phase1Moves actions units) relations)
      (phase1Moves actions units) with
  | error e =>
    rw [hc] at h
    exact absurd h (by simp [Bind.bind, Except.bind])
  | ok combat =>
    rw [hc] at h
    have h2 := Except.ok.inj h
    have hu2 : ∀ u ∈ combat.1, u.isAlive = true → 0 < u.currentHp :=
      phase2Combat_inv combatRng grid game.currentTurn
        (findCombatPairs (phase1Moves actions units) relations)
        (phase1Moves actions units) combat
        (phase1Moves_inv actions units hinv) hc
    have hu3 : ∀ u ∈ (phase3Build buildId game.currentTurn actions
        buildings combat.1).2, u.isAlive = true → 0 < u.currentHp :=
      phase3Build_inv buildId game.currentTurn actions buildings combat.1
        hu2
    subst h2
    constructor
    · exact resetUnitsForTurn_inv _ hu3
    · dsimp only
      by_cases hm : (0 < game.currentTurn ∧
          game.currentTurn % game.turnsPerMonth = 0)
      · rw [if_pos hm]
        exact phase6Economy_newUnits_inv
          repRoll repId grid game.currentTurn _ _ _ players hty
      · rw [if_neg hm]
        intro u hu
        exact absurd hu (List.not_mem_nil u)


def sampleTurnOut : TurnResolutionResult :=
  { combatLogs := [], newUnits := [],
    updatedUnits := [sampleUnit "m" "P" 10], updatedPlayers := [],
    updatedBuildings := [], updatedSettlements := [], messages := [] }

/-- Witness for C9: a one-unit, no-action, non-monthly turn resolves
successfully and both output collections satisfy the invariant. -/
theorem resolveTurn_alive_hp_pos_witness :
    (∀ u ∈ [sampleUnit "m" "P" 10], u.isAlive = true → 0 < u.currentHp) ∧
    (∀ (t : String) (ty : UnitType), UNIT_TYPES t = some ty →
      0 < ty.stats.hp) ∧
    resolveTurn sampleRng
      (fun _ _ => 0) (fun _ _ => "") (fun _ => "")
      { currentTurn := 1, turnsPerMonth := 2 } [] [sampleUnit "m" "P" 10]
      [] [] [] [] sampleGrid2 [] = Except.ok sampleTurnOut ∧
    (∀ u ∈ sampleTurnOut.updatedUnits,
      u.isAlive = true → 0 < u.currentHp) ∧
    (∀ u ∈ sampleTurnOut.newUnits,
      u.isAlive = true → 0 < u.currentHp) := by
  have hty : ∀ (t : String) (ty : UnitType), UNIT_TYPES t = some ty →
      0 < ty.stats.hp := by
    intro t ty h0
    unfold UNIT_TYPES at h0
    by_cases h1 : t = "peasant"
    · rw [if_pos h1] at h0
      cases h0
      decide
    · rw [if_neg h1] at h0
      by_cases h2 : t = "lumberjack"
      · rw [if_pos h2] at h0
        cases h0
        decide
      · rw [if_neg h2] at h0
        by_cases h3 : t = "miner"
        · rw [if_pos h3] at h0
          cases h0
          decide
        · rw [if_neg h3] at h0
          by_cases h4 : t = "farmer"
          · rw [if_pos h4] at h0
            cases h0
            decide
          · rw [if_neg h4] at h0
            by_cases h5 : t = "fisherman"
            · rw [if_pos h5] at h0
              cases h0
              decide
            · rw [if_neg h5] at h0
              by_cases h6 : t = "artisan"
              · rw [if_pos h6] at h0
                cases h0
                decide
              · rw [if_neg h6] at h0
                by_cases h7 : t = "militia"
                · rw [if_pos h7] at h0
                  cases h0
                  decide
                · rw [if_neg h7] at h0
                  by_cases h8 : t = "man_at_arms"
                  · rw [if_pos h8] at h0
                    cases h0
                    decide
                  · rw [if_neg h8] at h0
                    by_cases h9 : t = "archer"
                    · rw [if_pos h9] at h0
                      cases h0
                      decide
                    · rw [if_neg h9] at h0
                      by_cases h10 : t = "cavalry"
                      · rw [if_pos h10] at h0
                        cases h0
                        decide
                      · rw [if_neg h10] at h0
                        by_cases h11 : t = "knight"
                        · rw [if_pos h11] at h0
                          cases h0
                          decide
                        · rw [if_neg h11] at h0
                          by_cases h12 : t = "spearman"
                          · rw [if_pos h12] at h0
                            cases h0
                            decide
                          · rw [if_neg h12] at h0
                            by_cases h13 : t = "scout"
                            · rw [if_pos h13] at h0
                              cases h0
                              decide
                            · rw [if_neg h13] at h0
                              by_cases h14 : t = "battering_ram"
                              · rw [if_pos h14] at h0
                                cases h0
                                decide
                              · rw [if_neg h14] at h0
                                by_cases h15 : t = "catapult"
                                · rw [if_pos h15] at h0
                                  cases h0
                                  decide
                                · rw [if_neg h15] at h0
                                  by_cases h16 : t = "boat"
                                  · rw [if_pos h16] at h0
                                    cases h0
                                    decide
                                  · rw [if_neg h16] at h0
                                    by_cases h17 : t = "warship"
                                    · rw [if_pos h17] at h0
                                      cases h0
                                      decide
                                    · rw [if_neg h17] at h0
                                      by_cases h18 : t = "chaplain"
                                      · rw [if_pos h18] at h0
                                        cases h0
                                        decide
                                      · rw [if_neg h18] at h0
                                        by_cases h19 : t = "merchant"
                                        · rw [if_pos h19] at h0
                                          cases h0
                                          decide
                                        · rw [if_neg h19] at h0
                                          by_cases h20 : t = "herald"
                                          · rw [if_pos h20] at h0
                                            cases h0
                                            decide
                                          · rw [if_neg h20] at h0
                                            cases h0
  have hres : resolveTurn
      sampleRng (fun _ _ => 0) (fun _ _ => "") (fun _ => "")
      { currentTurn := 1, turnsPerMonth := 2 } [] [sampleUnit "m" "P" 10]
      [] [] [] [] sampleGrid2 [] = Except.ok sampleTurnOut := by rfl
  have hmain := resolveTurn_alive_hp_pos
    sampleRng (fun _ _ => 0) (fun _ _ => "") (fun _ => "")
    { currentTurn := 1, turnsPerMonth := 2 } [] [sampleUnit "m" "P" 10]
    [] [] [] [] sampleGrid2 [] sampleTurnOut
    (by decide) hty hres
  exact ⟨by decide, hty, hres, hmain.1, hmain.2⟩

end Wargame
